import Mathlib

/-!
# Flash-Read: scheduler, sync engine, catalog and interval policy

A shallow embedding of the scheduling core of `src/App.jsx`
(`srsNextLevel`, `srsDue`, `buildQueue`, `submitScore`), of its sync engine
(`syncGet`, `syncWrap`, `syncUnwrap`, `updateSyncedPerAccount`, `pull`,
`pushCustomSets`, `pushPriority`, `setRecords`, `setSrs`), of the catalog
`allSets` and of `saveRecord`; of the word-set writes of
`hooks/useFirebase.js` (`addWordSet`, `deleteWordSet`, `bulkAddWordSets`); and
of the interval policy and the session selection of `utils/srs.js`
(`calcNextInterval`, `updateRecord`, `selectSessionSets`); of the seed
normalization `normalizeSourceSets`; of `saveRecord` of `useRecords`; and of
the session runner of `SessionScreen.jsx` as `AuthenticatedApp.jsx` wires it,
with the properties the specification states about them.

Modelling conventions.
* A JavaScript number that is only compared against constants is a `JsNum`:
  a finite value (every finite double is a rational number), an infinity or
  NaN.  Integer-valued fields (levels, counts) are `Int`.
* Strings are Lean strings; `<=` on strings is the lexicographic order (by
  code point, which on the ASCII date strings of the program is the order by
  code unit that JavaScript uses).
* The clock is a parameter: every function that reads the clock takes the
  reading as an argument.  The functions on dates take the `Date` operations
  they use as a `DateApi`; `jsDate tz` is the platform `Date` on time values
  (milliseconds since 1970-01-01T00:00Z) in the time zone `tz`.
* A JavaScript exception is the `none` result of an `Option`, or the `error`
  of an `Except` that carries the message.
* An asynchronous operation is the function from the state before it to the
  state after it has settled; the outcomes of its requests (a read or a write
  fails) are arguments.
* The numbers of the interval policy and the scores of `selectSessionSets`
  are the finite doubles, taken as the rationals they are: every arithmetic
  operation of `calcNextInterval`, `updateRecord` and `scoreSet` on them
  returns the double nearest to the exact result (`fl`, round to nearest,
  ties to even), and a decimal literal such as `0.3` is the double nearest to
  it.  Sums and differences of integers (time values, counts) are exact.
  Overflow to an infinity and NaN are outside this model.
* An object used as a map is the function from its keys, or the list of its
  entries in insertion order where the order of the keys is observed
  (`Object.entries` lists the array-index keys first).
-/

namespace FlashRead

/-! ## JavaScript numbers under comparison -/

/-- A JavaScript number as the comparisons of the program see it. -/
inductive JsNum where
  | fin (q : ℚ)
  | posInf
  | negInf
  | nan
deriving DecidableEq

/-- JavaScript `x >= c` for a finite constant `c` (false on NaN). -/
def JsNum.ge (x : JsNum) (c : ℚ) : Bool :=
  match x with
  | .fin q => decide (c ≤ q)
  | .posInf => true
  | .negInf => false
  | .nan => false

/-- JavaScript `x < c` for a finite constant `c` (false on NaN). -/
def JsNum.lt (x : JsNum) (c : ℚ) : Bool :=
  match x with
  | .fin q => decide (q < c)
  | .posInf => false
  | .negInf => true
  | .nan => false

/-- JavaScript `a / b` on integers.  The double nearest to the quotient
compares with `1.0` and `0.75` exactly as the quotient does, because rounding
is monotone and both constants are doubles. -/
def jsDiv (a b : Int) : JsNum :=
  if b = 0 then
    (if a = 0 then .nan else if 0 < a then .posInf else .negInf)
  else .fin ((a : ℚ) / (b : ℚ))

/-! ## SRS levels (App.jsx, lines 50-59) -/

/-- The table `SRS_DAYS = [0, 1, 3, 7, 14]`. -/
def SRS_DAYS : List Nat := [0, 1, 3, 7, 14]

/-- The function `srsNextLevel(prev, ratio)`. -/
def srsNextLevel (prev : Int) (ratio : JsNum) : Int :=
  if ratio.ge 1 then min (prev + 1) 4
  else if ratio.ge (3 / 4) then prev
  else max (prev - 1) 0

/-- The index `SRS_DAYS[level]`: `none` stands for `undefined`, the value of
an index outside the table. -/
def srsDays (level : Int) : Option Nat :=
  if 0 ≤ level then SRS_DAYS[level.toNat]? else none

/-! ## Clock and dates (App.jsx, lines 56-61) -/

/-- The part of the platform `Date` object the program uses, over a type `D`
of date objects. -/
structure DateApi (D : Type) where
  /-- Result of `d.setDate(d.getDate() + n)`. -/
  plusDays : D → Int → D
  /-- Result of `d.toISOString().slice(0, 10)`. -/
  isoDay : D → String
  /-- Result of `new Date(s)`. -/
  ofString : String → D

/-- The function `todayStr()`, with `now` the value of `new Date()`. -/
def todayStr {D : Type} (api : DateApi D) (now : D) : String :=
  api.isoDay now

/-- The function `srsDue(level)`, with `now` the value of `new Date()`.  An
index outside `SRS_DAYS` makes the date invalid and `toISOString` throws. -/
def srsDue {D : Type} (api : DateApi D) (now : D) (level : Int) : Option String :=
  match srsDays level with
  | some n => some (api.isoDay (api.plusDays now (n : Int)))
  | none => none

/-- The function `addDays(date, n)`. -/
def addDays {D : Type} (api : DateApi D) (date : String) (n : Int) : String :=
  api.isoDay (api.plusDays (api.ofString date) n)

/-- Day number of the civil date `y-m-d`, counted from 0000-03-01. -/
def daysFromCivil (y m d : Nat) : Nat :=
  let y2 := if m ≤ 2 then y - 1 else y
  let era := y2 / 400
  let yoe := y2 - era * 400
  let mp := if 2 < m then m - 3 else m + 9
  let doy := (153 * mp + 2) / 5 + d - 1
  era * 146097 + (yoe * 365 + yoe / 4 - yoe / 100 + doy)

/-- The civil date `(y, m, d)` of a day number counted from 0000-03-01. -/
def civilFromDays (z : Nat) : Nat × Nat × Nat :=
  let era := z / 146097
  let doe := z - era * 146097
  let yoe := (doe - doe / 1460 + doe / 36524 - doe / 146096) / 365
  let doy := doe - (365 * yoe + yoe / 4 - yoe / 100)
  let mp := (5 * doy + 2) / 153
  let d := doy - (153 * mp + 2) / 5 + 1
  let m := if mp < 10 then mp + 3 else mp - 9
  ((if m ≤ 2 then yoe + era * 400 + 1 else yoe + era * 400), m, d)

/-- The last decimal digit of `n` as a character. -/
def digitOf (n : Nat) : Char := Char.ofNat (48 + n % 10)

/-- The string `YYYY-MM-DD` of a civil date. -/
def isoOfCivil (c : Nat × Nat × Nat) : String :=
  String.mk [digitOf (c.1 / 1000), digitOf (c.1 / 100), digitOf (c.1 / 10), digitOf c.1, '-',
    digitOf (c.2.1 / 10), digitOf c.2.1, '-', digitOf (c.2.2 / 10), digitOf c.2.2]

/-- The number a list of digits writes. -/
def numOf (cs : List Char) : Nat := cs.foldl (fun n c => 10 * n + (c.toNat - 48)) 0

/-- The day number of a string `YYYY-MM-DD`. -/
def dayNumOf (s : String) : Nat :=
  match s.data with
  | [a, b, c, d, _, e, f, _, g, h] =>
    daysFromCivil (numOf [a, b, c, d]) (numOf [e, f]) (numOf [g, h])
  | _ => 0

/-- A time zone of the platform: the offset of local time from UTC in
milliseconds, at a UTC time value (`LocalTZA(t, true)`) and at a local time
value (`LocalTZA(t, false)`). -/
structure TimeZone where
  offsetAtUtc : Int → Int
  offsetAtLocal : Int → Int

/-- The time value after `d.setDate(d.getDate() + n)`, for a date object of
time value `t` (milliseconds since 1970-01-01T00:00Z): the day of the month
is read and set in local time, and the result is converted back to UTC. -/
def setDatePlus (tz : TimeZone) (t n : Int) : Int :=
  let localTime := t + tz.offsetAtUtc t
  let moved := localTime + n * 86400000
  moved - tz.offsetAtLocal moved

/-- The string `d.toISOString().slice(0, 10)` of a time value in the years
0000 to 9999: the UTC date. -/
def isoDayOf (t : Int) : String :=
  isoOfCivil (civilFromDays (t / 86400000 + 719468).toNat)

/-- The time value of `new Date(s)` for a string `YYYY-MM-DD`: midnight UTC of
that day. -/
def parseIsoDay (s : String) : Int :=
  ((dayNumOf s : Int) - 719468) * 86400000

/-- The platform `Date` in the time zone `tz`, on time values. -/
def jsDate (tz : TimeZone) : DateApi Int :=
  { plusDays := setDatePlus tz
    isoDay := isoDayOf
    ofString := parseIsoDay }

/-- The time zone UTC. -/
def utcZone : TimeZone :=
  { offsetAtUtc := fun _ => 0, offsetAtLocal := fun _ => 0 }

/-- The offset of America/Los_Angeles at a UTC time value, by the rules of
2025 and 2026: seven hours behind UTC in daylight time (2025-03-09T10:00Z to
2025-11-02T09:00Z and 2026-03-08T10:00Z to 2026-11-01T09:00Z), eight hours
behind otherwise. -/
def losAngelesOffset (t : Int) : Int :=
  if (1741514400000 ≤ t ∧ t < 1762074000000) ∨ (1772964000000 ≤ t ∧ t < 1793523600000) then
    -25200000
  else -28800000

/-- The time zone America/Los_Angeles in 2025 and 2026.  A local time is read
with the offset in force before a transition, as `LocalTZA(t, false)` does. -/
def losAngeles : TimeZone :=
  { offsetAtUtc := losAngelesOffset
    offsetAtLocal := fun l => losAngelesOffset (l + 25200000) }

/-! ## Word sets and review state -/

/-- A word set of the catalog. -/
structure WordSet where
  id : String
  mode : String
  owner : String
  label : String
  priority : Int
  items : List String
deriving DecidableEq

/-- The review state of one set, the object `{ level, due, lastSeen }`. -/
structure ReviewState where
  level : Int
  due : String
  lastSeen : String
deriving DecidableEq

/-- The review-state object `srs`: `srs[id]` is `none` where the key is
absent. -/
abbrev SrsMap := String → Option ReviewState

/-- The object `{ ...s, [id]: v }`. -/
def objSet {β : Type} (s : String → Option β) (id : String) (v : β) : String → Option β :=
  fun k => if k = id then some v else s k

/-- The object `{ ...a, ...b }`: the keys of `b` win. -/
def objSpread {β : Type} (a b : String → Option β) : String → Option β :=
  fun k => match b k with
    | some v => some v
    | none => a k

/-! ## buildQueue (App.jsx, lines 64-74) -/

/-- The element `{ s, urgency, level, due }` that `buildQueue` sorts. -/
structure QEntry where
  s : WordSet
  urgency : Int
  level : Int
  due : String

/-- The mapping step of `buildQueue`; `t` is the value of `todayStr()`.  A set
without review state gets `{ level: 0, due: "0000-00-00" }`. -/
def queueEntry (t : String) (srs : SrsMap) (s : WordSet) : QEntry :=
  match srs s.id with
  | some st => { s := s, urgency := if st.due ≤ t then 0 else 1, level := st.level, due := st.due }
  | none => { s := s, urgency := if "0000-00-00" ≤ t then 0 else 1, level := 0, due := "0000-00-00" }

/-- The method `a.localeCompare(b)` on the date strings of the program (digits
and hyphens in one fixed width), where collation order is code-unit order. -/
def localeCompare (a b : String) : Int :=
  if a < b then -1 else if a = b then 0 else 1

/-- The comparator
`a.urgency - b.urgency || a.level - b.level || a.due.localeCompare(b.due)`. -/
def queueCompare (a b : QEntry) : Int :=
  if a.urgency - b.urgency ≠ 0 then a.urgency - b.urgency
  else if a.level - b.level ≠ 0 then a.level - b.level
  else localeCompare a.due b.due

/-- The method `Array.prototype.sort(cmp)`.  ECMAScript requires a stable
sort; insertion from the right, placing an element before the first one it
does not compare greater than, is stable. -/
def jsSort {α : Type} (cmp : α → α → Int) (l : List α) : List α :=
  l.insertionSort (fun a b => cmp a b ≤ 0)

/-- The method `Array.prototype.slice(0, count)`: a negative `count` counts
from the end. -/
def slice0 {α : Type} (l : List α) (count : Int) : List α :=
  if 0 ≤ count then l.take count.toNat else l.take (l.length - (-count).toNat)

/-- The function `buildQueue(pool, srs, count)`; `t` is the value of
`todayStr()` at the call. -/
def buildQueue (t : String) (pool : List WordSet) (srs : SrsMap) (count : Int) : List WordSet :=
  (slice0 (jsSort queueCompare (pool.map (queueEntry t srs))) count).map (fun x => x.s)

/-- What ECMAScript requires of `Array.prototype.sort(cmp)` when `cmp` orders
the elements consistently (the relation `cmp a b <= 0` is total and
transitive): the result is a permutation of the input, it is in order, and
elements that compare as equal keep their input order.  Which algorithm
delivers this is left to the engine. -/
def SortContract {α : Type} (sort : (α → α → Int) → List α → List α) : Prop :=
  ∀ (cmp : α → α → Int) (l : List α),
    (∀ a b, cmp a b ≤ 0 ∨ cmp b a ≤ 0) →
    (∀ a b c, cmp a b ≤ 0 → cmp b c ≤ 0 → cmp a c ≤ 0) →
    (sort cmp l).Perm l ∧ (sort cmp l).Pairwise (fun a b => cmp a b ≤ 0) ∧
    ∀ a, (sort cmp l).filter (fun b => decide (cmp a b ≤ 0 ∧ cmp b a ≤ 0))
      = l.filter (fun b => decide (cmp a b ≤ 0 ∧ cmp b a ≤ 0))

/-- A second implementation of `sort`, by merging. -/
def mergeSortJs {α : Type} (cmp : α → α → Int) (l : List α) : List α :=
  l.mergeSort (fun a b => decide (cmp a b ≤ 0))

/-- The function `buildQueue(pool, srs, count)` with the engine's `sort` as a
parameter; `buildQueue` is the instance for `jsSort`. -/
def buildQueueWith (sort : (QEntry → QEntry → Int) → List QEntry → List QEntry) (t : String)
    (pool : List WordSet) (srs : SrsMap) (count : Int) : List WordSet :=
  (slice0 (sort queueCompare (pool.map (queueEntry t srs))) count).map (fun x => x.s)

/-- The shape of `toISOString().slice(0, 10)` for the years 0000 to 9999:
`YYYY-MM-DD`. -/
def isIsoDay (s : String) : Bool :=
  match s.data with
  | [a, b, c, d, e, f, g, h, i, j] =>
    a.isDigit && b.isDigit && c.isDigit && d.isDigit && (e == '-') && f.isDigit &&
      g.isDigit && (h == '-') && i.isDigit && j.isDigit
  | _ => false

/-- The constant `SESSION_SIZE`. -/
def SESSION_SIZE : Int := 5

/-- The sort key of a set as the specification words it: urgency 0 when the
due date is today or earlier and 1 otherwise, then level, then due date; a set
without review state has level 0 and due date `0000-00-00`. -/
def sortKey (t : String) (srs : SrsMap) (s : WordSet) : Int × Int × String :=
  let level : Int := (srs s.id).elim 0 (fun st => st.level)
  let due : String := (srs s.id).elim "0000-00-00" (fun st => st.due)
  ((if due ≤ t then 0 else 1), level, due)

/-- Strict lexicographic order on sort keys. -/
def keyLt (a b : Int × Int × String) : Prop :=
  a.1 < b.1 ∨ (a.1 = b.1 ∧ (a.2.1 < b.2.1 ∨ (a.2.1 = b.2.1 ∧ a.2.2 < b.2.2)))

/-- Lexicographic order on sort keys. -/
def keyLe (a b : Int × Int × String) : Prop :=
  a.1 < b.1 ∨ (a.1 = b.1 ∧ (a.2.1 < b.2.1 ∨ (a.2.1 = b.2.1 ∧ a.2.2 ≤ b.2.2)))

instance keyLt.decidable (a b : Int × Int × String) : Decidable (keyLt a b) := by
  unfold keyLt; infer_instance

instance keyLe.decidable (a b : Int × Int × String) : Decidable (keyLe a b) := by
  unfold keyLe; infer_instance

/-- The triple a queue element is compared by. -/
def entryKey (e : QEntry) : Int × Int × String := (e.urgency, e.level, e.due)

/-! ## Grading a round: submitScore (App.jsx, lines 441-472 and 540-548) -/

/-- The element `{ set, score, total }` of the session history. -/
structure HistEntry where
  set : WordSet
  score : Int
  total : Int
deriving DecidableEq

/-- The sync status `idle | syncing | ok | error`. -/
inductive SyncStatus where
  | idle
  | syncing
  | ok
  | error
deriving DecidableEq

/-- A session record `{ date, mode, sets, correct, words }`. -/
structure SessionRecord where
  date : String
  mode : String
  sets : Int
  correct : Int
  words : Int
deriving DecidableEq

/-- The state of the `App` component that grading and the sync engine read
and write, and the local storage entries `LOCAL_RECORDS(a)` and
`LOCAL_SRS(a)` by account `a`. -/
structure AppState where
  account : String
  syncReady : Bool
  syncStatus : SyncStatus
  customSets : List WordSet
  builtinPriority : String → Option Int
  records : List SessionRecord
  srs : SrsMap
  curSet : Option WordSet
  score : Option Int
  history : List HistEntry
  screen : String
  localRecords : String → Option (List SessionRecord)
  localSrs : String → Option SrsMap

/-- The helper `lsSet(k, v)` on the entries `LOCAL_SRS(a)`: the write is
dropped when `localStorage.setItem` throws (`ok = false`). -/
def lsSet {β : Type} (ok : Bool) (store : String → Option β) (k : String) (v : β) :
    String → Option β :=
  if ok then objSet store k v else store

/-- The callback `setSrs(v)` for an updater `v`: the new map goes to the
component state and to local storage; when sync is ready the status becomes
`syncing` and the second component is the map handed to
`updateSyncedPerAccount(SYNC_SRS, account, next, ...)`. -/
def setSrs (lsOk : Bool) (v : SrsMap → SrsMap) (st : AppState) : AppState × Option SrsMap :=
  let next := v st.srs
  ({ st with srs := next, localSrs := lsSet lsOk st.localSrs st.account next,
             syncStatus := if st.syncReady then .syncing else st.syncStatus },
    if st.syncReady then some next else none)

/-- The callback `setRecords(v)` for an updater `v`, like `setSrs` on the
record list; `lsOk` says whether the local storage write goes through. -/
def setRecords (lsOk : Bool) (v : List SessionRecord → List SessionRecord) (st : AppState) :
    AppState × Option (List SessionRecord) :=
  let next := v st.records
  ({ st with records := next, localRecords := lsSet lsOk st.localRecords st.account next,
             syncStatus := if st.syncReady then .syncing else st.syncStatus },
    if st.syncReady then some next else none)

/-- The handler `submitScore(sc)`; `nowDue` and `nowSeen` are the values of
`new Date()` inside `srsDue` and inside `todayStr`.  The result is `none`
when the handler throws: `curSet` is `null`, or `srsDue` is asked for a level
outside `SRS_DAYS`. -/
def submitScore {D : Type} (api : DateApi D) (nowDue nowSeen : D) (lsOk : Bool) (sc : Int)
    (st : AppState) : Option (AppState × Option SrsMap) :=
  match st.curSet with
  | none => none
  | some cur =>
    let entry : HistEntry := { set := cur, score := sc, total := cur.items.length }
    let ratio := jsDiv sc cur.items.length
    let prevLevel : Int := match st.srs cur.id with
      | some r => r.level
      | none => 0
    let nl := srsNextLevel prevLevel ratio
    match srsDue api nowDue nl with
    | none => none
    | some due =>
      let r := setSrs lsOk
        (fun s => objSet s cur.id { level := nl, due := due, lastSeen := todayStr api nowSeen })
        { st with history := st.history ++ [entry], score := some sc }
      some ({ r.1 with screen := "result" }, r.2)

/-! ## Remote buckets (App.jsx, lines 30-45 and 435-439) -/

/-- The constant `SYNC_RECORDS`. -/
def SYNC_RECORDS : String := "fr_records_v7"

/-- The constant `SYNC_SRS`. -/
def SYNC_SRS : String := "fr_srs_v7"

/-- A value read from a remote bucket, as `syncUnwrap` tells values apart:
`null`, an object with a `data` key (`data` is `none` when it is `null` or
`undefined`), or any other value. -/
inductive Raw (α : Type) where
  | null
  | envelope (version : Nat) (updatedAt : Nat) (data : Option α)
  | bare (v : α)

/-- The outcome of `window.storage.get(key, true)` and of parsing its value. -/
inductive StorageGet (α : Type) where
  | threw
  | missing
  | notString
  | badJson
  | json (raw : Raw α)

/-- The remote store behind `window.storage.get`: a bucket that holds `held`
(`none` when the key was never written) answers with it, unless the request
fails. -/
def storageGet {α : Type} (held : Option (Raw α)) (fails : Bool) : StorageGet α :=
  if fails then .threw
  else match held with
    | none => .missing
    | some raw => .json raw

/-- The function `syncGet(key, fallback)`, given the outcome of the read of
`key`: every failure yields `fallback`. -/
def syncGet {α : Type} (get : StorageGet α) (fallback : Raw α) : Raw α :=
  match get with
  | .json raw => raw
  | .threw => fallback
  | .missing => fallback
  | .notString => fallback
  | .badJson => fallback

/-- The function `syncWrap(data)`; `now` is the value of `Date.now()`. -/
def syncWrap {α : Type} (now : Nat) (data : α) : Raw α :=
  .envelope 1 now (some data)

/-- The function `syncUnwrap(raw, fallback)`. -/
def syncUnwrap {α : Type} (raw : Raw α) (fallback : α) : α :=
  match raw with
  | .null => fallback
  | .envelope _ _ d => d.getD fallback
  | .bare v => v

/-- A per-account bucket payload: an object keyed by account. -/
abbrev AcctMap (β : Type) := String → Option β

/-- The function `updateSyncedPerAccount(key, accountKey, nextValue,
fallbackByAcct)`: `storage` gives the outcome of reading each key, `now1` and
`now2` are the two readings of `Date.now()`.  The result is the key and the
value handed to `syncSet`. -/
def updateSyncedPerAccount {β : Type} (storage : String → StorageGet (AcctMap β))
    (now1 now2 : Nat) (key accountKey : String) (nextValue : β) (fallbackByAcct : AcctMap β) :
    String × Raw (AcctMap β) :=
  let remoteRaw := syncGet (storage key) (syncWrap now1 fallbackByAcct)
  let remote := objSet (objSpread fallbackByAcct (syncUnwrap remoteRaw fallbackByAcct))
    accountKey nextValue
  (key, syncWrap now2 remote)

/-- The fallback `{ child: [], parent: [] }` of `setRecords`. -/
def recordsFallback : AcctMap (List SessionRecord) := fun k =>
  if k = "child" then some [] else if k = "parent" then some [] else none

/-- The fallback `{ child: {}, parent: {} }` of `setSrs`. -/
def srsFallback : AcctMap SrsMap := fun k =>
  if k = "child" then some (fun _ => none) else if k = "parent" then some (fun _ => none)
  else none

/-- The entries a bucket held, read as a per-account map. -/
def heldEntries {β : Type} (held : Option (Raw (AcctMap β))) : AcctMap β :=
  match held with
  | none => fun _ => none
  | some raw => syncUnwrap raw (fun _ => none)

/-! ## The sync engine: pull and the push helpers (App.jsx, lines 340-472) -/

/-- The constant `SYNC_CUSTOM`. -/
def SYNC_CUSTOM : String := "fr_custom_v7"

/-- The constant `SYNC_PRIORITY`. -/
def SYNC_PRIORITY : String := "fr_priority_v7"

/-- What the shared store holds under the four sync keys (`none`: the key was
never written).  A stored value is read back as it was written: the payloads
are plain JSON data, which `JSON.parse(JSON.stringify(x))` returns unchanged. -/
structure Remote where
  custom : Option (Raw (List WordSet))
  priority : Option (Raw (String → Option Int))
  records : Option (Raw (AcctMap (List SessionRecord)))
  srs : Option (Raw (AcctMap SrsMap))

/-- Which of the four reads of one `pull` fail. -/
structure ReadFails where
  custom : Bool
  priority : Bool
  records : Bool
  srs : Bool

/-- The helper `lsGet(k, fb)` on the entries of one kind: an absent or
unreadable entry yields `fb`. -/
def lsGet {β : Type} (store : String → Option β) (k : String) (fb : β) : β :=
  (store k).getD fb

/-- The helper `lsSet(k, v)` for a value that may be `undefined`: storing
`undefined` leaves an entry that `lsGet` cannot parse. -/
def lsSetOpt {β : Type} (ok : Bool) (store : String → Option β) (k : String) (v : Option β) :
    String → Option β :=
  match v with
  | some x => lsSet ok store k x
  | none => if ok then (fun k2 => if k2 = k then none else store k2) else store

/-- Truthiness of a value read from a bucket: only `null` is falsy, the
payloads being arrays and objects. -/
def Raw.truthy {α : Type} (raw : Raw α) : Bool :=
  match raw with
  | .null => false
  | .envelope _ _ _ => true
  | .bare _ => true

/-- The object `{ child: lsGet(K("child"), fb), parent: lsGet(K("parent"), fb) }`. -/
def localByAcct {β : Type} (store : String → Option β) (fb : β) : AcctMap β := fun k =>
  if k = "child" then some (lsGet store "child" fb)
  else if k = "parent" then some (lsGet store "parent" fb)
  else none

/-- The function `pull()`, given the content of the shared store, which reads
fail, and whether the local storage writes go through (`lsOk`).  No statement
of its `try` block throws (`syncGet`, `lsGet` and
`lsSet` catch their own exceptions), so its `catch` branch, which would set
the status `error`, is never entered.  The delayed revert of the status is a
later step. -/
def pull (rem : Remote) (fails : ReadFails) (lsOk : Bool) (st : AppState) : AppState :=
  let csRaw := syncGet (storageGet rem.custom fails.custom) .null
  let bpRaw := syncGet (storageGet rem.priority fails.priority) .null
  let recRaw := syncGet (storageGet rem.records fails.records) .null
  let srsRaw := syncGet (storageGet rem.srs fails.srs) .null
  let localRecByAcct := localByAcct st.localRecords []
  let localSrsByAcct := localByAcct st.localSrs (fun _ => none)
  let cs := syncUnwrap csRaw []
  let bp := syncUnwrap bpRaw (fun _ => none)
  let recByAcct :=
    if recRaw.truthy then objSpread recordsFallback (syncUnwrap recRaw (fun _ => none))
    else localRecByAcct
  let srsByAcct :=
    if srsRaw.truthy then objSpread srsFallback (syncUnwrap srsRaw (fun _ => none))
    else localSrsByAcct
  { st with
    localRecords := lsSetOpt lsOk (lsSetOpt lsOk st.localRecords "child" (recByAcct "child"))
      "parent" (recByAcct "parent")
    localSrs := lsSetOpt lsOk (lsSetOpt lsOk st.localSrs "child" (srsByAcct "child"))
      "parent" (srsByAcct "parent")
    customSets := cs
    builtinPriority := bp
    records := (recByAcct st.account).getD []
    srs := (srsByAcct st.account).getD (fun _ => none)
    syncStatus := .ok
    syncReady := true }

/-- The argument `nextOrUpdater` of the push helpers: a value or a function
of the remote value. -/
inductive NextOrUpdater (α : Type) where
  | value (v : α)
  | updater (f : α → α)

/-- The expression
`typeof nextOrUpdater === "function" ? nextOrUpdater(remote) : nextOrUpdater`. -/
def NextOrUpdater.resolve {α : Type} (u : NextOrUpdater α) (remote : α) : α :=
  match u with
  | .value v => v
  | .updater f => f remote

/-- The function `pushCustomSets(nextOrUpdater)`: `readFails` and `writeFails`
say whether `window.storage.get` and `window.storage.set` reject, `now1` and
`now2` are the readings of `Date.now()`.  The component state is set only
after the write. -/
def pushCustomSets (rem : Remote) (readFails writeFails : Bool) (now1 now2 : Nat)
    (u : NextOrUpdater (List WordSet)) (st : AppState) : AppState × Remote :=
  let remoteRaw := syncGet (storageGet rem.custom readFails) (syncWrap now1 [])
  let remote := syncUnwrap remoteRaw []
  let next := u.resolve remote
  if writeFails then ({ st with syncStatus := .error }, rem)
  else ({ st with customSets := next, syncStatus := .ok },
        { rem with custom := some (syncWrap now2 next) })

/-- The function `pushPriority(nextOrUpdater)`. -/
def pushPriority (rem : Remote) (readFails writeFails : Bool) (now1 now2 : Nat)
    (u : NextOrUpdater (String → Option Int)) (st : AppState) : AppState × Remote :=
  let remoteRaw := syncGet (storageGet rem.priority readFails) (syncWrap now1 (fun _ => none))
  let remote := syncUnwrap remoteRaw (fun _ => none)
  let next := u.resolve remote
  if writeFails then ({ st with syncStatus := .error }, rem)
  else ({ st with builtinPriority := next, syncStatus := .ok },
        { rem with priority := some (syncWrap now2 next) })

/-- The promise chain that `setRecords` starts when sync is ready:
`updateSyncedPerAccount(SYNC_RECORDS, account, next, ...)`, then status `ok`,
or status `error` when it rejects. -/
def pushRecords (rem : Remote) (readFails writeFails : Bool) (now1 now2 : Nat)
    (next : List SessionRecord) (st : AppState) : AppState × Remote :=
  let w := updateSyncedPerAccount (fun _ => storageGet rem.records readFails) now1 now2
    SYNC_RECORDS st.account next recordsFallback
  if writeFails then ({ st with syncStatus := .error }, rem)
  else ({ st with syncStatus := .ok }, { rem with records := some w.2 })

/-- The promise chain that `setSrs` starts when sync is ready. -/
def pushSrs (rem : Remote) (readFails writeFails : Bool) (now1 now2 : Nat)
    (next : SrsMap) (st : AppState) : AppState × Remote :=
  let w := updateSyncedPerAccount (fun _ => storageGet rem.srs readFails) now1 now2
    SYNC_SRS st.account next srsFallback
  if writeFails then ({ st with syncStatus := .error }, rem)
  else ({ st with syncStatus := .ok }, { rem with srs := some w.2 })

/-- The callback `setRecords(v)` together with the promise chain it starts. -/
def setRecordsSynced (rem : Remote) (readFails writeFails lsOk : Bool) (now1 now2 : Nat)
    (v : List SessionRecord → List SessionRecord) (st : AppState) : AppState × Remote :=
  match setRecords lsOk v st with
  | (st1, some next) => pushRecords rem readFails writeFails now1 now2 next st1
  | (st1, none) => (st1, rem)

/-- The callback `setSrs(v)` together with the promise chain it starts. -/
def setSrsSynced (rem : Remote) (readFails writeFails lsOk : Bool) (now1 now2 : Nat)
    (v : SrsMap → SrsMap) (st : AppState) : AppState × Remote :=
  match setSrs lsOk v st with
  | (st1, some next) => pushSrs rem readFails writeFails now1 now2 next st1
  | (st1, none) => (st1, rem)

/-! ## The resolved catalog and the session records (App.jsx, lines 482-487 and 556-561) -/

/-- The expression `allSets`: the seed sets `baseSets` with their priority
overrides, without those of negative priority, then the custom sets; empty
until sync is ready. -/
def allSets (syncReady : Bool) (baseSets : List WordSet) (builtinPriority : String → Option Int)
    (customSets : List WordSet) : List WordSet :=
  if syncReady then
    ((baseSets.map (fun s => { s with priority := (builtinPriority s.id).getD s.priority })).filter
      (fun s => decide (0 ≤ s.priority))) ++ customSets
  else []

/-- The catalog as the specification words it: each seed set in order, with
its priority replaced by the override when there is one, dropped when the
resulting priority is negative; then the custom sets. -/
def resolveSpec (seed : List WordSet) (overrides : String → Option Int)
    (custom : List WordSet) : List WordSet :=
  seed.filterMap (fun s =>
    match overrides s.id with
    | some o => if o < (0 : Int) then none else some { s with priority := o }
    | none => if s.priority < (0 : Int) then none else some s) ++ custom

/-- The constant `MAX_DAYS`. -/
def MAX_DAYS : Int := 365

/-- The totals `{ sets, correct, words }` of one mode in `saveRecord`. -/
structure ModeTotals where
  sets : Int
  correct : Int
  words : Int
deriving DecidableEq

/-- One step of the `forEach` of `saveRecord` on the object `bm`, kept as the
list of its entries in insertion order. -/
def bumpMode : List (String × ModeTotals) → HistEntry → List (String × ModeTotals)
  | [], h => [(h.set.mode, { sets := 1, correct := h.score, words := h.total })]
  | (m, v) :: rest, h =>
    if m = h.set.mode then
      (m, { sets := v.sets + 1, correct := v.correct + h.score, words := v.words + h.total })
        :: rest
    else (m, v) :: bumpMode rest h

/-- The list `newR` of `saveRecord`: one record per mode of the history. -/
def newRecords (dateStr : String) (hist : List HistEntry) : List SessionRecord :=
  (hist.foldl bumpMode []).map (fun e =>
    { date := dateStr, mode := e.1, sets := e.2.sets, correct := e.2.correct,
      words := e.2.words })

/-- The function `saveRecord(hist)`; `now` is the value of `new Date()` in
`todayStr()`. -/
def saveRecord {D : Type} (api : DateApi D) (now : D) (lsOk : Bool) (hist : List HistEntry)
    (st : AppState) : AppState × Option (List SessionRecord) :=
  let dateStr := todayStr api now
  let cutoff := addDays api dateStr (-MAX_DAYS)
  let newR := newRecords dateStr hist
  setRecords lsOk (fun r => r.filter (fun x => decide (cutoff < x.date)) ++ newR) st

/-! ## The interval policy (utils/srs.js) -/

/-- The constant `MS_PER_DAY`. -/
def MS_PER_DAY : Int := 86400000

/-- The method `Math.round`: the nearest integer, a tie going up. -/
def jsRound (x : ℚ) : Int := ⌊x + 1 / 2⌋

/-- The object `{ interval, easeFactor }`. -/
structure IntervalEase where
  interval : Int
  easeFactor : ℚ
deriving DecidableEq

/-- The integer nearest to `r`, a tie going to the even one. -/
def roundHalfEven (r : ℚ) : Int :=
  if r - ⌊r⌋ < 1 / 2 then ⌊r⌋
  else if 1 / 2 < r - ⌊r⌋ then ⌊r⌋ + 1
  else if ⌊r⌋ % 2 = 0 then ⌊r⌋ else ⌊r⌋ + 1

/-- The exponent of the spacing of the doubles around `x > 0`: 52 binary
places below the leading one, and `-1074` in the subnormal range. -/
def ulpExp (x : ℚ) : Int := max (Int.log 2 x - 52) (-1074)

/-- The double nearest to `x >= 0`. -/
def roundPos (x : ℚ) : ℚ := (roundHalfEven (x / 2 ^ ulpExp x) : ℚ) * 2 ^ ulpExp x

/-- The double nearest to the rational `x` (round to nearest, ties to even):
the value of a decimal literal, and the result of an arithmetic operation
whose exact result is `x`. -/
def fl (x : ℚ) : ℚ := if 0 ≤ x then roundPos x else -roundPos (-x)

/-- The function `calcNextInterval(interval, easeFactor, score)` on finite
numbers: `fl (3 / 10)` is the literal `0.3`, and so on; `2.5` is a double. -/
def calcNextInterval (interval : Int) (easeFactor score : ℚ) : IntervalEase :=
  if score < fl (3 / 10) then
    { interval := 1, easeFactor := max (fl (13 / 10)) (fl (easeFactor - fl (2 / 10))) }
  else if score < fl (6 / 10) then
    { interval := max 1 ⌊fl ((interval : ℚ) * fl (8 / 10))⌋,
      easeFactor := max (fl (13 / 10)) (fl (easeFactor - fl (1 / 10))) }
  else
    let newEase := min (5 / 2) (fl (easeFactor + fl (fl (1 / 10) * fl (score - fl (6 / 10)))))
    let newInterval : Int :=
      if interval = 0 then 1 else if interval = 1 then 3
      else jsRound (fl ((interval : ℚ) * newEase))
    { interval := newInterval, easeFactor := newEase }

/-- A study record of the interval policy.  The fields `totalSessions`,
`totalCorrect` and `totalItems` are `none` where the object lacks them. -/
structure StudyRecord where
  interval : Int
  easeFactor : ℚ
  lastStudied : Int
  nextDue : Int
  totalSessions : Option Int
  totalCorrect : Option Int
  totalItems : Option Int
  lastScore : ℚ
deriving DecidableEq

/-- The function `updateRecord(existingRecord, correctCount, totalCount)`;
the counts are natural numbers, `now1` and `now2` are the two readings of
`Date.now()`. -/
def updateRecord (existingRecord : Option StudyRecord) (correctCount totalCount : Nat)
    (now1 now2 : Int) : StudyRecord :=
  let score : ℚ := if 0 < totalCount then fl ((correctCount : ℚ) / (totalCount : ℚ)) else 0
  let prevInterval : Int := (existingRecord.map (fun r => r.interval)).getD 0
  let prevEase : ℚ := (existingRecord.map (fun r => r.easeFactor)).getD 2
  let prevSessions : Option Int := existingRecord.bind (fun r => r.totalSessions)
  let prevCorrect : Option Int := existingRecord.bind (fun r => r.totalCorrect)
  let prevItems : Option Int := existingRecord.bind (fun r => r.totalItems)
  let ie := calcNextInterval prevInterval prevEase score
  { interval := ie.interval
    easeFactor := ie.easeFactor
    lastStudied := now1
    nextDue := now2 + ie.interval * MS_PER_DAY
    totalSessions := some (prevSessions.getD 0 + 1)
    totalCorrect := some (prevCorrect.getD 0 + correctCount)
    totalItems := some (prevItems.getD 0 + totalCount)
    lastScore := score }

/-- One grading `(correctCount, totalCount, now1, now2)` after another,
starting from no record: the record after the last grading. -/
def updateRecordChain (gradings : List (Nat × Nat × Int × Int)) : Option StudyRecord :=
  gradings.foldl (fun rec g => some (updateRecord rec g.1 g.2.1 g.2.2.1 g.2.2.2)) none

/-! ## Word-set writes of useWordSets (hooks/useFirebase.js, lines 86-160) -/

/-- The expression `x || d` on an optional string: an absent or empty string
is falsy. -/
def jsOr (x : Option String) (d : String) : String :=
  match x with
  | some v => if v = "" then d else v
  | none => d

/-- The expression `!x` on an optional string. -/
def jsNot (x : Option String) : Bool :=
  match x with
  | some v => decide (v = "")
  | none => true

/-- A word set of the Firestore variant; `owner` and `createdAt` are `none`
where the object lacks the field. -/
structure FsWordSet where
  id : String
  owner : Option String
  level : String
  importance : Int
  note : String
  items : List String
  createdAt : Option Nat
deriving DecidableEq

/-- The state `useWordSets(userId, role)` works on: the component state, the
role, the local storage entries by key, and the two Firestore collections
`wordSets/shared/sets` and `wordSets/{userId}/sets`. -/
structure WordSetsState where
  wordSets : List FsWordSet
  isOffline : Bool
  role : Option String
  localSets : String → Option (List FsWordSet)
  sharedDocs : List FsWordSet
  userDocs : String → List FsWordSet

/-- The function `wordSetsKey(userId)`. -/
def wordSetsKey (userId : Option String) : String :=
  "es_wordSets_" ++ jsOr userId "guest"

/-- The calls `setDoc(doc(col, d.id), d)` and `batch.set`: the document
replaces the one of the same id. -/
def setDoc (col : List FsWordSet) (d : FsWordSet) : List FsWordSet :=
  col.filter (fun x => decide (x.id ≠ d.id)) ++ [d]

/-- The call `deleteDoc(doc(col, id))`. -/
def deleteDoc (col : List FsWordSet) (id : String) : List FsWordSet :=
  col.filter (fun x => decide (x.id ≠ id))

/-- A change `f` of the collection `wordSets/{userId}/sets` of one user. -/
def onUserDocs (docs : String → List FsWordSet) (userId : Option String)
    (f : List FsWordSet → List FsWordSet) : String → List FsWordSet :=
  fun u => if u = jsOr userId "" then f (docs u) else docs u

/-- A write of one document to the collection its owner selects. -/
def writeDoc (owner : String) (userId : Option String) (d : FsWordSet) (st : WordSetsState) :
    WordSetsState :=
  if owner = "shared" then { st with sharedDocs := setDoc st.sharedDocs d }
  else { st with userDocs := onUserDocs st.userDocs userId (fun col => setDoc col d) }

/-- The callback `addWordSet(ws, userId)`: `nowId` and `nowCreated` are the
readings of `Date.now()`, `rnd` the random suffix, `serverTime` the value of
`serverTimestamp()`, `writeFails` says whether `setDoc` rejects, `lsOk`
whether the local storage write goes through.  The result is the new state
and the returned id, or the state and the error thrown. -/
def addWordSet (nowId nowCreated serverTime : Nat) (rnd : String) (writeFails lsOk : Bool)
    (ws : FsWordSet) (userId : Option String) (st : WordSetsState) :
    WordSetsState × Except String String :=
  let owner := jsOr ws.owner "shared"
  if owner = "shared" ∧ st.role ≠ some "parent" then
    (st, .error "Only parent can write shared sets.")
  else
    let id := "ws_" ++ toString nowId ++ "_" ++ rnd
    if jsNot userId || st.isOffline then
      let next := st.wordSets ++ [{ ws with id := id, createdAt := some nowCreated }]
      ({ st with wordSets := next, localSets := lsSet lsOk st.localSets (wordSetsKey userId) next },
        .ok id)
    else if writeFails then (st, .error "setDoc rejected")
    else (writeDoc owner userId { ws with id := id, createdAt := some serverTime } st, .ok id)

/-- The callback `deleteWordSet(ws, userId)`. -/
def deleteWordSet (writeFails lsOk : Bool) (ws : FsWordSet) (userId : Option String)
    (st : WordSetsState) : WordSetsState × Except String Unit :=
  let owner := jsOr ws.owner "shared"
  if owner = "shared" ∧ st.role ≠ some "parent" then
    (st, .error "Only parent can delete shared sets.")
  else if jsNot userId || st.isOffline then
    let next := st.wordSets.filter (fun x => decide (x.id ≠ ws.id))
    ({ st with wordSets := next, localSets := lsSet lsOk st.localSets (wordSetsKey userId) next },
      .ok ())
  else if writeFails then (st, .error "deleteDoc rejected")
  else if owner = "shared" then
    ({ st with sharedDocs := deleteDoc st.sharedDocs ws.id }, .ok ())
  else
    ({ st with userDocs := onUserDocs st.userDocs userId (fun col => deleteDoc col ws.id) },
      .ok ())

/-- The loop of `bulkAddWordSets` in online mode over the sets from index `i`
on: it throws at the first shared-owned set when the role is not parent, and
otherwise puts every set into the batch `acc`. -/
def bulkBatch (now serverTime : Nat) (rnd : Nat → String) (role : Option String)
    (userId : Option String) :
    Nat → List FsWordSet → List (String × FsWordSet) → Except String (List (String × FsWordSet))
  | _, [], acc => .ok acc
  | i, ws :: rest, acc =>
    if jsOr ws.owner "shared" = "shared" ∧ role ≠ some "parent" then
      .error "Only parent can write shared sets."
    else
      bulkBatch now serverTime rnd role userId (i + 1) rest
        (acc ++ [(jsOr ws.owner "shared",
          { ws with id := "ws_" ++ toString now ++ "_" ++ toString i ++ "_" ++ rnd i,
                    createdAt := some serverTime })])

/-- The callback `bulkAddWordSets(sets, userId)`: `nowId i` and `nowCreated i`
are the readings of `Date.now()` for the set of index `i` in offline mode,
`now` the single reading in online mode, `writeFails` says whether
`batch.commit()` rejects. -/
def bulkAddWordSets (nowId nowCreated : Nat → Nat) (now serverTime : Nat) (rnd : Nat → String)
    (writeFails lsOk : Bool) (sets : List FsWordSet) (userId : Option String)
    (st : WordSetsState) : WordSetsState × Except String Unit :=
  if sets.length = 0 then (st, .ok ())
  else if jsNot userId || st.isOffline then
    let created := (List.range sets.length).zipWith
      (fun i ws => { ws with id := "ws_" ++ toString (nowId i) ++ "_" ++ rnd i,
                             createdAt := some (nowCreated i) }) sets
    let next := st.wordSets ++ created
    ({ st with wordSets := next, localSets := lsSet lsOk st.localSets (wordSetsKey userId) next },
      .ok ())
  else
    match bulkBatch now serverTime rnd st.role userId 0 sets [] with
    | .error e => (st, .error e)
    | .ok batch =>
      if writeFails then (st, .error "batch.commit rejected")
      else (batch.foldl (fun acc e => writeDoc e.1 userId e.2 acc) st, .ok ())

/-! ## Session-set selection (utils/srs.js, lines 26-73) -/

/-- The function `isDue(record)`; `now` is the value of `Date.now()`.  A
`nextDue` of 0 is falsy. -/
def isDue (record : Option StudyRecord) (now : Int) : Bool :=
  match record with
  | none => true
  | some r => if r.nextDue = 0 then true else decide (r.nextDue ≤ now)

/-- The function `importanceScore(importance)`: the table
`{ 3: 5, 2: 3, 1: 1, 0: 0 }`, and 0 for every other key. -/
def importanceScore (importance : Int) : Int :=
  if importance = 3 then 5
  else if importance = 2 then 3
  else if importance = 1 then 1
  else 0

/-- The element `{ ws, score, due, neverStudied }` that `selectSessionSets`
sorts. -/
structure Scored where
  ws : FsWordSet
  score : ℚ
  due : Bool
  neverStudied : Bool

/-- The mapping step of `selectSessionSets`; `now` is the value of
`Date.now()`, the readings of one call being taken as one instant.  The
division and the sum that follows it round to the nearest double. -/
def scoreSet (records : String → Option StudyRecord) (now : Int) (ws : FsWordSet) : Scored :=
  let r0 := records ws.id
  let due := isDue r0 now
  let impScore := importanceScore ws.importance
  let timeSinceDue : ℚ := match r0 with
    | some r =>
      if r.nextDue = 0 then 999
      else fl (((max 0 (now - r.nextDue) : Int) : ℚ) / MS_PER_DAY)
    | none => 999
  let neverStudied := r0.isNone
  { ws := ws
    score :=
      if neverStudied then 1000 + impScore * 10
      else if due then fl (500 + impScore * 10 + timeSinceDue)
      else impScore
    due := due
    neverStudied := neverStudied }

/-- The sign of a comparator result, which is all that `sort` uses of it. -/
def jsSign (q : ℚ) : Int :=
  if q < 0 then -1 else if q = 0 then 0 else 1

/-- The first step of `selectSessionSets`: the sets the importance filter
lets through. -/
def filterByImportance (wordSets : List FsWordSet) (importanceFilter : List Int) :
    List FsWordSet :=
  wordSets.filter (fun ws =>
    !(decide (0 < importanceFilter.length) && !(importanceFilter.contains ws.importance)))

/-- The function `selectSessionSets(wordSets, records, importanceFilter,
maxSets)`; `now` is the value of `Date.now()`. -/
def selectSessionSets (wordSets : List FsWordSet) (records : String → Option StudyRecord)
    (importanceFilter : List Int) (maxSets : Int) (now : Int) : List FsWordSet :=
  let filtered := filterByImportance wordSets importanceFilter
  let scored := filtered.map (scoreSet records now)
  (slice0 (jsSort (fun a b => jsSign (b.score - a.score)) scored) maxSets).map (fun x => x.ws)

/-- The score of a set as the specification words it: a never-studied set
scores `1000 + importanceScore*10`, a studied due set
`500 + importanceScore*10 + days since due`, a studied set not yet due
`importanceScore`. -/
def scoreSpec (records : String → Option StudyRecord) (now : Int) (ws : FsWordSet) : ℚ :=
  match records ws.id with
  | none => 1000 + importanceScore ws.importance * 10
  | some r =>
    if r.nextDue ≤ now then
      500 + importanceScore ws.importance * 10 + ((now - r.nextDue : Int) : ℚ) / 86400000
    else importanceScore ws.importance

/-- The score of a set as the code computes it, in the words of the
specification with one case added: a studied set whose record has no due time
(`nextDue` is 0 or missing) counts as due for 999 days.  The days since due
and the sum are numbers of JavaScript: the quotient and the sum round to the
nearest double. -/
def scoreAmended (records : String → Option StudyRecord) (now : Int) (ws : FsWordSet) : ℚ :=
  match records ws.id with
  | none => 1000 + importanceScore ws.importance * 10
  | some r =>
    if r.nextDue = 0 then 500 + importanceScore ws.importance * 10 + 999
    else if r.nextDue ≤ now then
      fl (500 + importanceScore ws.importance * 10
        + fl (((now - r.nextDue : Int) : ℚ) / 86400000))
    else importanceScore ws.importance

/-! ## Seed normalization (App.jsx, lines 84-114) -/

/-- The field `category` of a seed row as `row.category || "Collocations"` and
`.trim()` see it: a string, a value that is falsy and no string (the field is
absent, `null`, `false` or `0`), or a value that is truthy and no string, on
which `.trim` is no function. -/
inductive SeedField where
  | str (s : String)
  | falsy
  | other
deriving DecidableEq

/-- A row of a seed array.  A field is `none` where the row lacks it or holds
a value of another type: `items` is `some` for an array, `words` and
`importance` for a string. -/
structure SeedRow where
  id : Option String
  items : Option (List String)
  words : Option String
  category : SeedField
  importance : Option String
  mode : String
  owner : String
  label : String
  priority : Int
deriving DecidableEq

/-- The test `row && Array.isArray(row.items) && row.id` on an element of the
array (`none`: the element is `null`). -/
def rowWellFormed (row : Option SeedRow) : Bool :=
  match row with
  | some r => r.items.isSome && !(jsNot r.id)
  | none => false

/-- The test `row && typeof row.words === "string"`. -/
def rowFlat (row : Option SeedRow) : Bool :=
  match row with
  | some r => r.words.isSome
  | none => false

/-- A well-formed row read as a word set. -/
def rowSet (row : Option SeedRow) : Option WordSet :=
  match row with
  | some r =>
    some { id := r.id.getD "", mode := r.mode, owner := r.owner, label := r.label,
           priority := r.priority, items := r.items.getD [] }
  | none => none

/-- The function `importanceToPriority(raw)`: the number of stars, 1 when
there is none or `raw` is no string, at most 3. -/
def importanceToPriority (raw : Option String) : Int :=
  match raw with
  | none => 1
  | some str =>
    let stars : Int := (str.data.filter (fun c => c = '★')).length
    max 0 (min 3 (if stars = 0 then 1 else stars))

/-- The code points that `String.prototype.trim` removes: the ECMAScript
white space (tab, vertical tab, form feed, the space separators of Unicode and
U+FEFF) and line terminators (line feed, carriage return, U+2028, U+2029). -/
def jsWhiteSpace (c : Char) : Bool :=
  let n := c.toNat
  (0x9 ≤ n && n ≤ 0xD) || n = 0x20 || n = 0xA0 || n = 0x1680 ||
  (0x2000 ≤ n && n ≤ 0x200A) || n = 0x2028 || n = 0x2029 || n = 0x202F ||
  n = 0x205F || n = 0x3000 || n = 0xFEFF

/-- The method `String.prototype.trim()`. -/
def jsTrim (s : String) : String :=
  String.mk ((s.data.dropWhile jsWhiteSpace).reverse.dropWhile jsWhiteSpace).reverse

/-- The property names an object literal inherits from `Object.prototype`;
the value of each is truthy and has no method `push`. -/
def objectPrototypeKeys : List String :=
  ["constructor", "__defineGetter__", "__defineSetter__", "hasOwnProperty",
   "__lookupGetter__", "__lookupSetter__", "isPrototypeOf", "propertyIsEnumerable",
   "toString", "valueOf", "__proto__", "toLocaleString"]

/-- The array index a property key denotes: the key is the canonical decimal
form of an integer below `2^32 - 1`. -/
def arrayIndex (k : String) : Option Nat :=
  let ds := k.data
  if ds ≠ [] ∧ ds.all Char.isDigit ∧ (ds.length = 1 ∨ ds.head? ≠ some '0') then
    let n := ds.foldl (fun a c => 10 * a + (c.toNat - 48)) 0
    if n < 4294967295 then some n else none
  else none

/-- The function `Object.entries(o)` on an object kept as the list of its
entries in insertion order: the array-index keys come first, in ascending
numeric order, then the other keys in insertion order. -/
def objectEntries {β : Type} (o : List (String × β)) : List (String × β) :=
  (o.filter (fun e => (arrayIndex e.1).isSome)).insertionSort
      (fun a b => (arrayIndex a.1).getD 0 ≤ (arrayIndex b.1).getD 0)
    ++ o.filter (fun e => (arrayIndex e.1).isNone)

/-- The body of the `forEach` callback of `normalizeSourceSets` after the
category was trimmed. -/
def groupPush (grouped : List (String × List (String × Option String))) (category : String)
    (row : SeedRow) : Option (List (String × List (String × Option String))) :=
  let phrase := jsTrim (jsOr row.words "")
  if phrase = "" then some grouped
  else if grouped.any (fun e => e.1 = category) then
    some (grouped.map
      (fun e => if e.1 = category then (e.1, e.2 ++ [(phrase, row.importance)]) else e))
  else if category ∈ objectPrototypeKeys then none
  else some (grouped ++ [(category, [(phrase, row.importance)])])

/-- One step of the `forEach` of `normalizeSourceSets` on the object
`grouped`, kept as the list of its own entries in insertion order; `none` is a
thrown `TypeError`.  The category is trimmed first, which throws on a truthy
value that is no string.  A row without phrase is skipped.  For a category
that is no own key of `grouped` the lookup `grouped[category]` goes to
`Object.prototype`: a member of it is truthy, so that no array is made and the
call of `push` throws. -/
def groupRow (grouped : List (String × List (String × Option String))) (row : SeedRow) :
    Option (List (String × List (String × Option String))) :=
  match row.category with
  | .other => none
  | .falsy => groupPush grouped (jsTrim "Collocations") row
  | .str c => groupPush grouped (jsTrim (if c = "" then "Collocations" else c)) row

/-- The expression `String(n).padStart(2, "0")`. -/
def padStart2 (n : Nat) : String :=
  if n < 10 then "0" ++ toString n else toString n

/-- The word set `normalizeSourceSets` makes of the group of index `i`. -/
def groupSet (sourceKey : String) (i : Nat) (e : String × List (String × Option String)) :
    WordSet :=
  { id := sourceKey ++ "_col_" ++ padStart2 (i + 1)
    mode := "collocation"
    owner := "child"
    label := e.1
    priority := e.2.foldl (fun m r => max m (importanceToPriority r.2)) 1
    items := e.2.map (fun r => r.1) }

/-- The function `normalizeSourceSets(sourceKey, sourceData)`; `sourceData` is
`none` when it is no array, and the result is `none` when the call throws. -/
def normalizeSourceSets (sourceKey : String) (sourceData : Option (List (Option SeedRow))) :
    Option (List WordSet) :=
  match sourceData with
  | none => some []
  | some rows =>
    if rows.all rowWellFormed then some (rows.filterMap rowSet)
    else if rows.all rowFlat then
      ((rows.filterMap id).foldlM groupRow []).map (fun grouped =>
        let entries := objectEntries grouped
        (List.range entries.length).zipWith (groupSet sourceKey) entries)
    else some []

/-! ## The delayed revert of the sync status (App.jsx, lines 341, 377, 406, 448-453) -/

/-- The call `setSyncStatus("syncing")` that opens `pull` and every push. -/
def beginSync (st : AppState) : AppState :=
  { st with syncStatus := .syncing }

/-- The timer callback `setSyncStatus(s => s === "ok" ? "idle" : s)`. -/
def revertStatus (st : AppState) : AppState :=
  { st with syncStatus := if st.syncStatus = .ok then .idle else st.syncStatus }

/-- The function `pull()` up to the firing of its timer. -/
def pullReverted (rem : Remote) (fails : ReadFails) (lsOk : Bool) (st : AppState) : AppState :=
  revertStatus (pull rem fails lsOk (beginSync st))

/-- The function `pushCustomSets` up to the firing of its timer, which is set
after the `try` statement, whether the write failed or not. -/
def pushCustomSetsReverted (rem : Remote) (readFails writeFails : Bool) (now1 now2 : Nat)
    (u : NextOrUpdater (List WordSet)) (st : AppState) : AppState × Remote :=
  let r := pushCustomSets rem readFails writeFails now1 now2 u (beginSync st)
  (revertStatus r.1, r.2)

/-- The function `pushPriority` up to the firing of its timer. -/
def pushPriorityReverted (rem : Remote) (readFails writeFails : Bool) (now1 now2 : Nat)
    (u : NextOrUpdater (String → Option Int)) (st : AppState) : AppState × Remote :=
  let r := pushPriority rem readFails writeFails now1 now2 u (beginSync st)
  (revertStatus r.1, r.2)

/-- The callback `setRecords(v)` with its promise chain up to the firing of
the timer, which only the `then` branch sets: after a failed write no timer
is pending. -/
def setRecordsReverted (rem : Remote) (readFails writeFails lsOk : Bool) (now1 now2 : Nat)
    (v : List SessionRecord → List SessionRecord) (st : AppState) : AppState × Remote :=
  let r := setRecordsSynced rem readFails writeFails lsOk now1 now2 v st
  if st.syncReady && !writeFails then (revertStatus r.1, r.2) else r

/-- The callback `setSrs(v)` with its promise chain up to the firing of the
timer, which only the `then` branch sets. -/
def setSrsReverted (rem : Remote) (readFails writeFails lsOk : Bool) (now1 now2 : Nat)
    (v : SrsMap → SrsMap) (st : AppState) : AppState × Remote :=
  let r := setSrsSynced rem readFails writeFails lsOk now1 now2 v st
  if st.syncReady && !writeFails then (revertStatus r.1, r.2) else r

/-! ## Study records of useRecords (hooks/useFirebase.js, lines 9, 29 and 166-249) -/

/-- The object `records` of `useRecords`, kept as the list of its entries. -/
abbrev RecordMap := List (String × StudyRecord)

/-- The lookup `existing[wordSetId]`. -/
def recordOf : RecordMap → String → Option StudyRecord
  | [], _ => none
  | (k, v) :: rest, id => if k = id then some v else recordOf rest id

/-- The object `{ ...existing, [wordSetId]: newRecord }`. -/
def recordPut : RecordMap → String → StudyRecord → RecordMap
  | [], id, v => [(id, v)]
  | (k, x) :: rest, id, v => if k = id then (k, v) :: rest else (k, x) :: recordPut rest id v

/-- The object `stats`; a field is `none` where the object lacks it. -/
structure Stats where
  totalSessions : Option Int
  totalCorrect : Option Int
  totalItems : Option Int
deriving DecidableEq

/-- The constant `DEFAULT_STATS`. -/
def DEFAULT_STATS : Stats := { totalSessions := some 0, totalCorrect := some 0, totalItems := some 0 }

/-- The function `recordsKey(userId)`. -/
def recordsKey (userId : Option String) : String :=
  "es_records_" ++ jsOr userId "guest"

/-- The expression `x || 0` on an optional integer. -/
def or0 (x : Option Int) : Int := x.getD 0

/-- The object `nextStats` that `persistLocal` and the transaction of
`saveRecord` both build from `prevStats`, `prev = existing[wordSetId] || {}`
and `newRecord`. -/
def nextStats (prevStats : Stats) (prev : Option StudyRecord) (newRecord : StudyRecord) : Stats :=
  { totalSessions := some (or0 prevStats.totalSessions + 1)
    totalCorrect := some (or0 prevStats.totalCorrect
      + (or0 newRecord.totalCorrect - or0 (prev.bind (fun r => r.totalCorrect))))
    totalItems := some (or0 prevStats.totalItems
      + (or0 newRecord.totalItems - or0 (prev.bind (fun r => r.totalItems)))) }

/-- The state `useRecords(userId)` works on: the component state, the local
storage entries by key, and the Firestore documents `records/{userId}` (the
per-set records and the field `_stats`). -/
structure RecordsState where
  records : RecordMap
  stats : Stats
  isOffline : Bool
  localRecords : String → Option RecordMap
  localStats : String → Option Stats
  remote : String → Option (RecordMap × Option Stats)

/-- The closure `persistLocal` of `saveRecord`; `lsOk1` and `lsOk2` say
whether the two local storage writes go through. -/
def useRecords.persistLocal (lsOk1 lsOk2 : Bool) (userId : Option String) (wordSetId : String)
    (newRecord : StudyRecord) (st : RecordsState) : RecordsState :=
  let existing := lsGet st.localRecords (recordsKey userId) []
  let prev := recordOf existing wordSetId
  let prevStats := lsGet st.localStats (recordsKey userId ++ "_stats") DEFAULT_STATS
  let next := nextStats prevStats prev newRecord
  let nextRecords := recordPut existing wordSetId newRecord
  { st with
    records := nextRecords
    stats := next
    localRecords := lsSet lsOk1 st.localRecords (recordsKey userId) nextRecords
    localStats := lsSet lsOk2 st.localStats (recordsKey userId ++ "_stats") next }

/-- The write `tx.set(ref, ...)` of the transaction of `saveRecord`. -/
def useRecords.txSet (u : String) (wordSetId : String) (newRecord : StudyRecord)
    (remote : String → Option (RecordMap × Option Stats)) :
    String → Option (RecordMap × Option Stats) :=
  let existing : RecordMap := ((remote u).map (fun d => d.1)).getD []
  let prevStats : Stats := ((remote u).bind (fun d => d.2)).getD DEFAULT_STATS
  let next := nextStats prevStats (recordOf existing wordSetId) newRecord
  fun k => if k = u then some (recordPut existing wordSetId newRecord, some next) else remote k

/-- The callback `saveRecord(userId, wordSetId, newRecord)` of `useRecords`;
`isOffline` is the value the callback closed over, `txFails` says whether the
transaction rejects. -/
def useRecords.saveRecord (isOffline txFails lsOk1 lsOk2 : Bool) (userId : Option String)
    (wordSetId : String) (newRecord : StudyRecord) (st : RecordsState) : RecordsState :=
  if jsNot userId then st
  else if isOffline then useRecords.persistLocal lsOk1 lsOk2 userId wordSetId newRecord st
  else if txFails then
    useRecords.persistLocal lsOk1 lsOk2 userId wordSetId newRecord { st with isOffline := true }
  else { st with remote := useRecords.txSet (jsOr userId "") wordSetId newRecord st.remote }

/-- The sum of `f(record) || 0` over the per-set records. -/
def sumField (f : StudyRecord → Option Int) (records : RecordMap) : Int :=
  (records.map (fun e => or0 (f e.2))).sum

/-- The stats agree with the per-set records: `totalCorrect` and `totalItems`
are the sums over the records. -/
def statsMatch (records : RecordMap) (stats : Stats) : Prop :=
  stats.totalCorrect = some (sumField (fun r => r.totalCorrect) records) ∧
  stats.totalItems = some (sumField (fun r => r.totalItems) records)

/-! ## The session runner (SessionScreen.jsx) -/

/-- The constant `PHASES`. -/
inductive Phase where
  | ready
  | flash
  | recall
  | answer
  | summary
deriving DecidableEq

/-- The object `result` of `handleNext`. -/
structure RoundResult where
  wordSetId : String
  correctCount : Nat
  totalCount : Nat
  record : StudyRecord
deriving DecidableEq

/-- The component state of `SessionScreen`. -/
structure SessionState where
  roundIndex : Nat
  phase : Phase
  selfScore : Option Nat
  sessionResults : List RoundResult
  flashVisible : Bool
  countdownKey : Nat
deriving DecidableEq

/-- The state `SessionScreen` mounts with. -/
def sessionInit : SessionState :=
  { roundIndex := 0, phase := .ready, selfScore := none, sessionResults := [],
    flashVisible := false, countdownKey := 0 }

/-- The events inside `SessionScreen`: the button of the Ready phase, the two
timers of `startFlash`, a score button of the Recall phase, and the button of
the Answer phase with the two readings of `Date.now()` in `updateRecord`. -/
inductive SessionEvent where
  | startFlash
  | flashHide
  | flashEnd
  | selfScore (count : Nat)
  | next (now1 now2 : Int)
deriving DecidableEq

/-- The function `handleNext`; `none` is the TypeError on an undefined
`currentSet`. -/
def handleNext (sets : List FsWordSet) (records : String → Option StudyRecord) (now1 now2 : Int)
    (st : SessionState) : Option SessionState :=
  match sets[st.roundIndex]? with
  | none => none
  | some currentSet =>
    let totalCount := currentSet.items.length
    let correctCount := st.selfScore.getD 0
    let prevRecord := records currentSet.id
    let newRecord := updateRecord prevRecord correctCount totalCount now1 now2
    let result : RoundResult :=
      { wordSetId := currentSet.id, correctCount := correctCount, totalCount := totalCount,
        record := newRecord }
    let newResults := st.sessionResults ++ [result]
    if st.roundIndex + 1 ≥ sets.length then
      some { st with sessionResults := newResults, phase := .summary }
    else
      some { st with sessionResults := newResults, roundIndex := st.roundIndex + 1,
                     phase := .ready, selfScore := none }

/-- One event of `SessionScreen`.  An event whose button is not rendered in
the current phase, or whose timer is not pending, leaves the state as it is;
the score buttons offered are `0` to `currentSet.items.length`. -/
def sessionStep (sets : List FsWordSet) (records : String → Option StudyRecord)
    (ev : SessionEvent) (st : SessionState) : Option SessionState :=
  match ev, st.phase with
  | .startFlash, .ready =>
    some { st with phase := .flash, flashVisible := true, countdownKey := st.countdownKey + 1 }
  | .flashHide, .flash =>
    if st.flashVisible then some { st with flashVisible := false } else some st
  | .flashEnd, .flash =>
    if st.flashVisible then some st else some { st with phase := .recall }
  | .selfScore count, .recall =>
    match sets[st.roundIndex]? with
    | none => none
    | some currentSet =>
      if count ≤ currentSet.items.length then
        some { st with selfScore := some count, phase := .answer }
      else some st
  | .next now1 now2, .answer => handleNext sets records now1 now2 st
  | _, _ => some st

/-- A sequence of events of `SessionScreen`, from the state `st`. -/
def sessionRun (sets : List FsWordSet) (records : String → Option StudyRecord) :
    List SessionEvent → SessionState → Option SessionState
  | [], st => some st
  | ev :: rest, st => (sessionStep sets records ev st).bind (sessionRun sets records rest)

/-- The totals `totalCorrect` and `totalItems` of the Summary phase. -/
def summaryTotals (sessionResults : List RoundResult) : Nat × Nat :=
  (sessionResults.foldl (fun s r => s + r.correctCount) 0,
   sessionResults.foldl (fun s r => s + r.totalCount) 0)

/-- The events of one round played through: start, the two timers, the score
`g.1`, and the grading with the clock readings `g.2`. -/
def playRound (g : Nat × Int × Int) : List SessionEvent :=
  [.startFlash, .flashHide, .flashEnd, .selfScore g.1, .next g.2.1 g.2.2]

/-- The result `handleNext` records for the set `ws` graded `g`. -/
def resultOf (records : String → Option StudyRecord) (ws : FsWordSet) (g : Nat × Int × Int) :
    RoundResult :=
  { wordSetId := ws.id, correctCount := g.1, totalCount := ws.items.length,
    record := updateRecord (records ws.id) g.1 ws.items.length g.2.1 g.2.2 }

/-- The invariant of the session runner. -/
def sessionInv (sets : List FsWordSet) (st : SessionState) : Prop :=
  (st.phase ≠ .summary →
    st.sessionResults.length = st.roundIndex ∧ st.roundIndex < sets.length) ∧
  (st.phase = .summary → st.sessionResults.length = sets.length) ∧
  st.sessionResults.map (fun r => r.wordSetId)
    = (sets.take st.sessionResults.length).map (fun ws => ws.id)

/-- Whether the event calls `handleNext` in the state. -/
def isGrading (ev : SessionEvent) (st : SessionState) : Bool :=
  match ev, st.phase with
  | .next _ _, .answer => true
  | _, _ => false

/-- The number of calls of `handleNext` in a run of events from the state. -/
def gradings (sets : List FsWordSet) (records : String → Option StudyRecord) :
    List SessionEvent → SessionState → Nat
  | [], _ => 0
  | ev :: rest, st =>
    (if isGrading ev st then 1 else 0) +
      match sessionStep sets records ev st with
      | some st2 => gradings sets records rest st2
      | none => 0

/-- The events of the rounds played through one after another. -/
def play : List (Nat × Int × Int) → List SessionEvent
  | [] => []
  | g :: gs => playRound g ++ play gs

/-! ## The wiring of the session runner (components/AuthenticatedApp.jsx) -/

/-- The state of `AuthenticatedApp`: the screen, the session config, the state
of the mounted `SessionScreen` (`none` when it is not mounted), and the state
of `useRecords`. -/
structure AuthState where
  screen : String
  sessionConfig : Option (List FsWordSet)
  session : Option SessionState
  store : RecordsState

/-- The events of `AuthenticatedApp` around a session: `onStartSession` of the
home screen, an event inside `SessionScreen`, the exit button, and the button
of the Summary phase (with the failure flags of the saves it starts). -/
inductive AppEvent where
  | startSession (sets : List FsWordSet)
  | session (ev : SessionEvent)
  | exit
  | complete (txFails lsOk1 lsOk2 : Bool)

/-- The function `handleSessionComplete(results)`: the saves are started in
the order of the results, all with the callback of the current render. -/
def handleSessionComplete (txFails lsOk1 lsOk2 : Bool) (uid : Option String)
    (results : List RoundResult) (st : AuthState) : AuthState :=
  let isOffline := st.store.isOffline
  let store := results.foldl (fun s r =>
    useRecords.saveRecord isOffline txFails lsOk1 lsOk2 uid r.wordSetId r.record s) st.store
  { st with screen := "home", session := none, store := store }

/-- One event of `AuthenticatedApp` for the user `uid`.  The exit button is
rendered in the Ready, Recall and Answer phases and calls
`onExit = () => setScreen('home')`, which unmounts `SessionScreen`; the button
of the Summary phase calls `onComplete(sessionResults)`. -/
def appStep (uid : Option String) (ev : AppEvent) (st : AuthState) : Option AuthState :=
  match ev with
  | .startSession sets =>
    if st.screen = "home" then
      some { st with sessionConfig := some sets, screen := "session", session := some sessionInit }
    else some st
  | .session e =>
    match st.sessionConfig, st.session with
    | some sets, some ss =>
      (sessionStep sets (recordOf st.store.records) e ss).map
        (fun ss2 => { st with session := some ss2 })
    | _, _ => some st
  | .exit =>
    match st.session with
    | some ss =>
      if ss.phase = .ready ∨ ss.phase = .recall ∨ ss.phase = .answer then
        some { st with screen := "home", session := none }
      else some st
    | none => some st
  | .complete txFails lsOk1 lsOk2 =>
    match st.session with
    | some ss =>
      if ss.phase = .summary then
        some (handleSessionComplete txFails lsOk1 lsOk2 uid ss.sessionResults st)
      else some st
    | none => some st

/-- A sequence of events of `AuthenticatedApp`, from the state `st`. -/
def appRun (uid : Option String) : List AppEvent → AuthState → Option AuthState
  | [], st => some st
  | ev :: rest, st => (appStep uid ev st).bind (appRun uid rest)

/-! ## Example data -/

/-- An example set. -/
def exSetA : WordSet :=
  { id := "a", mode := "chunk", owner := "child", label := "A", priority := 1,
    items := ["sh", "ch"] }

/-- A second example set. -/
def exSetB : WordSet :=
  { id := "b", mode := "chunk", owner := "child", label := "B", priority := 1,
    items := ["th", "wh"] }

/-- A third example set, never studied in `exSrs`. -/
def exSetC : WordSet :=
  { id := "c", mode := "cvc", owner := "shared", label := "C", priority := 2,
    items := ["cat", "dog", "sun"] }

/-- An example review state: set `a` at level 0 due on 2026-11-05, set `b` at
level 1 due on 2026-11-04. -/
def exSrs : SrsMap := fun k =>
  if k = "a" then some { level := 0, due := "2026-11-05", lastSeen := "2026-11-04" }
  else if k = "b" then some { level := 1, due := "2026-11-04", lastSeen := "2026-11-01" }
  else none

/-- The example review state with one more entry, for a set outside the
example pools. -/
def exSrs2 : SrsMap :=
  objSet exSrs "z" { level := 3, due := "2026-11-20", lastSeen := "2026-11-13" }

/-- An example date API: the days of November 2026 by their number. -/
def exApi : DateApi Nat :=
  { plusDays := fun d n => ((d : Int) + n).toNat
    isoDay := fun d => if d < 10 then "2026-11-0" ++ toString d else "2026-11-" ++ toString d
    ofString := fun s => ((s.drop 8).toNat?).getD 0 }

/-- An example state on the recall screen of `exSetA`. -/
def exState : AppState :=
  { account := "child", syncReady := true, syncStatus := .idle, customSets := [exSetC],
    builtinPriority := fun _ => none, records := [], srs := exSrs, curSet := some exSetA,
    score := none, history := [], screen := "recall", localRecords := fun _ => none,
    localSrs := fun _ => none }

/-- An example session record. -/
def exRecord : SessionRecord :=
  { date := "2026-11-03", mode := "chunk", sets := 5, correct := 20, words := 25 }

/-- A second example session record. -/
def exRecord2 : SessionRecord :=
  { date := "2026-11-04", mode := "cvc", sets := 1, correct := 3, words := 3 }

/-- An example content of the remote records bucket: the parent account has
one record. -/
def exHeld : Option (Raw (AcctMap (List SessionRecord))) :=
  some (.envelope 1 100 (some (fun k =>
    if k = "child" then some [] else if k = "parent" then some [exRecord] else none)))

/-- An example content of the shared store. -/
def exRemote : Remote :=
  { custom := some (.envelope 1 100 (some [exSetC])),
    priority := some (.envelope 1 100 (some (fun k => if k = "a" then some 3 else none))),
    records := exHeld,
    srs := none }

/-- An example word set of the Firestore variant, owned by `shared`. -/
def exFsShared : FsWordSet :=
  { id := "", owner := some "shared", level := "chunk", importance := 3, note := "-ight",
    items := ["light", "night"], createdAt := none }

/-- An example state of `useWordSets` for a child, offline. -/
def exChildOffline : WordSetsState :=
  { wordSets := [], isOffline := true, role := some "child", localSets := fun _ => none,
    sharedDocs := [], userDocs := fun _ => [] }

/-- An example date API: the Gregorian calendar on day numbers, in one time
zone and without time of day. -/
def exCalendar : DateApi Nat :=
  { plusDays := fun d n => ((d : Int) + n).toNat
    isoDay := fun d => isoOfCivil (civilFromDays d)
    ofString := dayNumOf }

/-- An example session record more than a year older than 2026-11-04. -/
def exRecordOld : SessionRecord :=
  { date := "2025-10-01", mode := "chunk", sets := 5, correct := 20, words := 25 }

/-- An example state with three earlier records, the first of them more than
a year old. -/
def exStateRecords : AppState :=
  { exState with records := [exRecordOld, exRecord, exRecord2] }

/-- An example session history: two rounds on `exSetA` and `exSetC`. -/
def exHist : List HistEntry :=
  [{ set := exSetA, score := 2, total := 2 }, { set := exSetC, score := 1, total := 3 }]

/-- An example set of low importance. -/
def exFsLow : FsWordSet :=
  { id := "low", owner := some "child", level := "chunk", importance := 1, note := "",
    items := ["at", "it"], createdAt := some 1 }

/-- An example set of high importance. -/
def exFsHigh : FsWordSet :=
  { id := "high", owner := some "child", level := "chunk", importance := 3, note := "",
    items := ["light", "night"], createdAt := some 2 }

/-- An example study record due at day 100 (in milliseconds). -/
def exStudyLow : StudyRecord :=
  { interval := 3, easeFactor := 2, lastStudied := 8380800000, nextDue := 8640000000,
    totalSessions := some 2, totalCorrect := some 4, totalItems := some 4, lastScore := 1 }

/-- An example study record due at day 200 (in milliseconds). -/
def exStudyHigh : StudyRecord :=
  { interval := 3, easeFactor := 2, lastStudied := 17020800000, nextDue := 17280000000,
    totalSessions := some 2, totalCorrect := some 4, totalItems := some 4, lastScore := 1 }

/-- Example records: the set of low importance fell due at day 100, the set
of high importance at day 200. -/
def exStudy : String → Option StudyRecord := fun k =>
  if k = "low" then some exStudyLow else if k = "high" then some exStudyHigh else none

/-- An example seed row with an id and items. -/
def exRowGood : SeedRow :=
  { id := some "w1", items := some ["cat", "dog"], words := none, category := .falsy,
    importance := none, mode := "cvc", owner := "child", label := "CVC", priority := 2 }

/-- An example flat phrase row of the category `c` with the phrase `w`. -/
def exRowFlat (c w : String) : SeedRow :=
  { id := none, items := none, words := some w, category := .str c,
    importance := some "★★", mode := "", owner := "", label := "", priority := 0 }

/-- An example seed row without items. -/
def exRowBad : SeedRow :=
  { id := some "w2", items := none, words := none, category := .falsy,
    importance := none, mode := "cvc", owner := "child", label := "CVC", priority := 2 }

/-- An example state of `useRecords` in offline mode: one stored record, of
the set of low importance, and the stats that go with it. -/
def exStore : RecordsState :=
  { records := [("low", exStudyLow)]
    stats := { totalSessions := some 2, totalCorrect := some 4, totalItems := some 4 }
    isOffline := true
    localRecords := fun k => if k = "es_records_u1" then some [("low", exStudyLow)] else none
    localStats := fun k =>
      if k = "es_records_u1_stats" then
        some { totalSessions := some 2, totalCorrect := some 4, totalItems := some 4 }
      else none
    remote := fun _ => none }

/-- An example state of `AuthenticatedApp` on the home screen, with the example
store. -/
def exAuth : AuthState :=
  { screen := "home", sessionConfig := none, session := none, store := exStore }

/-- An example session record dated 365 days before 2026-11-02. -/
def exRecordYearOld : SessionRecord :=
  { date := "2025-11-02", mode := "chunk", sets := 5, correct := 20, words := 25 }

/-- An example state whose only record is 365 days older than 2026-11-02. -/
def exStateYearOld : AppState :=
  { exState with records := [exRecordYearOld] }

/-- An example state in which the stored level of `exSetA` is outside the
table `SRS_DAYS`. -/
def exStateLevel6 : AppState :=
  { exState with
    srs := objSet exSrs "a" { level := 6, due := "2026-03-01", lastSeen := "2026-03-01" } }

/-- Example records: the set of low importance has the due time 0 (the
epoch), the set of high importance fell due at day 500. -/
def exStudyEpoch : String → Option StudyRecord := fun k =>
  if k = "low" then some { exStudyLow with nextDue := 0 }
  else if k = "high" then some { exStudyHigh with nextDue := 43200000000 }
  else none

/-- A pool of five sets, none of which is in `exSrs`. -/
def exPoolFive : List WordSet :=
  [{ id := "p1", mode := "cvc", owner := "child", label := "P", priority := 1, items := ["a"] },
   { id := "p2", mode := "cvc", owner := "child", label := "P", priority := 1, items := ["b"] },
   { id := "p3", mode := "cvc", owner := "child", label := "P", priority := 1, items := ["c"] },
   { id := "p4", mode := "cvc", owner := "child", label := "P", priority := 1, items := ["d"] },
   { id := "p5", mode := "cvc", owner := "child", label := "P", priority := 1, items := ["e"] }]

/-- An example state of `useRecords` in offline mode with nothing stored. -/
def exStoreEmpty : RecordsState :=
  { records := []
    stats := DEFAULT_STATS
    isOffline := true
    localRecords := fun _ => none
    localStats := fun _ => none
    remote := fun _ => none }

/-- The example empty store after a first grading of the set of low
importance was saved while the storage write of the records was dropped. -/
def exStoreDropped : RecordsState :=
  useRecords.saveRecord true false false true (some "u1") "low"
    (updateRecord none 3 3 100 101) exStoreEmpty

/-! ## Properties of srsNextLevel -/

/-- C1: for every integer previous level and every ratio, `srsNextLevel`
returns `min(prev+1, 4)` when `ratio >= 1.0`, `prev` when
`0.75 <= ratio < 1.0`, and `max(prev-1, 0)` in every other case (NaN
included). -/
theorem srsNextLevel_cases (prev : Int) (ratio : JsNum) :
    (ratio.ge 1 = true → srsNextLevel prev ratio = min (prev + 1) 4) ∧
    (ratio.ge (3 / 4) = true ∧ ratio.lt 1 = true → srsNextLevel prev ratio = prev) ∧
    (¬ ratio.ge 1 = true ∧ ¬ (ratio.ge (3 / 4) = true ∧ ratio.lt 1 = true) →
      srsNextLevel prev ratio = max (prev - 1) 0) := by
  refine ⟨fun h => ?_, fun h => ?_, fun h => ?_⟩
  · simp [srsNextLevel, h]
  · have h1 : ratio.ge 1 = false := by
      cases ratio <;> simp_all [JsNum.ge, JsNum.lt]
    simp [srsNextLevel, h1, h.1]
  · have h1 : ratio.ge 1 = false := by simpa using h.1
    have h2 : ratio.ge (3 / 4) = false := by
      cases ratio with
      | fin q =>
        by_contra hc
        have hge : JsNum.ge (.fin q) (3 / 4) = true := by simpa using hc
        apply h.2
        refine ⟨hge, ?_⟩
        simp only [JsNum.ge, decide_eq_false_iff_not, not_le] at h1
        simpa [JsNum.lt] using h1
      | posInf => simp [JsNum.ge] at h1
      | negInf => rfl
      | nan => rfl
    simp [srsNextLevel, h1, h2]

/-- C2: from a level in `[0,4]`, `srsNextLevel` yields a level in `[0,4]`
for every ratio (those in `[0,1]` among them), and that level is an index of
the five-entry table `SRS_DAYS`. -/
theorem srsNextLevel_in_range (level : Int) (ratio : JsNum)
    (h0 : 0 ≤ level) (h4 : level ≤ 4) :
    0 ≤ srsNextLevel level ratio ∧ srsNextLevel level ratio ≤ 4 ∧
    SRS_DAYS.length = 5 ∧
    (srsNextLevel level ratio).toNat < SRS_DAYS.length ∧
    (srsDays (srsNextLevel level ratio)).isSome = true := by
  have hr : 0 ≤ srsNextLevel level ratio ∧ srsNextLevel level ratio ≤ 4 := by
    unfold srsNextLevel
    split_ifs <;> omega
  obtain ⟨ha, hb⟩ := hr
  have hlen : SRS_DAYS.length = 5 := rfl
  have hidx : (srsNextLevel level ratio).toNat < SRS_DAYS.length := by
    rw [hlen]; omega
  refine ⟨ha, hb, hlen, hidx, ?_⟩
  unfold srsDays
  rw [if_pos ha, List.getElem?_eq_getElem hidx]
  rfl

/-- Witness of C2 at level 4 and ratio 1. -/
theorem srsNextLevel_in_range_witness :
    0 ≤ srsNextLevel 4 (.fin 1) ∧ srsNextLevel 4 (.fin 1) ≤ 4 ∧
    SRS_DAYS.length = 5 ∧
    (srsNextLevel 4 (.fin 1)).toNat < SRS_DAYS.length ∧
    (srsDays (srsNextLevel 4 (.fin 1))).isSome = true :=
  srsNextLevel_in_range 4 (.fin 1) (by decide) (by decide)

/-- C3: from a level in `[0,4]`, grading with ratio `1.0` never decreases the
level, and grading with a ratio below `0.75` never increases it. -/
theorem srsNextLevel_monotone (level : Int) (h0 : 0 ≤ level) (h4 : level ≤ 4) :
    level ≤ srsNextLevel level (.fin 1) ∧
    ∀ ratio : JsNum, ratio.lt (3 / 4) = true → srsNextLevel level ratio ≤ level := by
  constructor
  · have h1 : JsNum.ge (.fin 1) 1 = true := by simp [JsNum.ge]
    simp only [srsNextLevel, h1, if_true]
    omega
  · intro ratio hlt
    have h2 : ratio.ge (3 / 4) = false := by
      cases ratio with
      | fin q =>
        simp only [JsNum.lt, decide_eq_true_eq] at hlt
        simp only [JsNum.ge, decide_eq_false_iff_not, not_le]
        exact hlt
      | posInf => simp [JsNum.lt] at hlt
      | negInf => rfl
      | nan => simp [JsNum.lt] at hlt
    have h1 : ratio.ge 1 = false := by
      cases ratio with
      | fin q =>
        simp only [JsNum.lt, decide_eq_true_eq] at hlt
        simp only [JsNum.ge, decide_eq_false_iff_not, not_le]
        linarith
      | posInf => simp [JsNum.lt] at hlt
      | negInf => rfl
      | nan => rfl
    simp only [srsNextLevel, h1, h2]
    simp only [Bool.false_eq_true, if_false]
    omega

/-- Witness of C3 at level 2. -/
theorem srsNextLevel_monotone_witness :
    (2 : Int) ≤ srsNextLevel 2 (.fin 1) ∧
    ∀ ratio : JsNum, ratio.lt (3 / 4) = true → srsNextLevel 2 ratio ≤ 2 :=
  srsNextLevel_monotone 2 (by decide) (by decide)

/-! ## The comparator of buildQueue is the lexicographic key order -/

theorem localeCompare_le_iff (a b : String) : localeCompare a b ≤ 0 ↔ a ≤ b := by
  unfold localeCompare
  by_cases h1 : a < b
  · simp [h1, le_of_lt h1]
  · by_cases h2 : a = b
    · simp [h2]
    · have h3 : b < a := lt_of_le_of_ne (not_lt.mp h1) (Ne.symm h2)
      simp [h1, h2, not_le.mpr h3]

theorem queueCompare_le_iff (a b : QEntry) :
    queueCompare a b ≤ 0 ↔ keyLe (entryKey a) (entryKey b) := by
  unfold queueCompare keyLe entryKey
  by_cases hu : a.urgency - b.urgency ≠ 0
  · rw [if_pos hu]
    constructor
    · intro h; left; show a.urgency < b.urgency; omega
    · rintro (h | ⟨h, _⟩)
      · have : a.urgency < b.urgency := h
        omega
      · have : a.urgency = b.urgency := h
        omega
  · rw [if_neg hu]
    have hu' : a.urgency = b.urgency := by
      have := not_not.mp hu
      omega
    by_cases hl : a.level - b.level ≠ 0
    · rw [if_pos hl]
      constructor
      · intro h; right; refine ⟨hu', Or.inl ?_⟩; show a.level < b.level; omega
      · rintro (h | ⟨_, h | ⟨h, _⟩⟩)
        · have : a.urgency < b.urgency := h
          omega
        · have : a.level < b.level := h
          omega
        · have : a.level = b.level := h
          omega
    · rw [if_neg hl]
      have hl' : a.level = b.level := by
        have := not_not.mp hl
        omega
      rw [localeCompare_le_iff]
      constructor
      · intro h; exact Or.inr ⟨hu', Or.inr ⟨hl', h⟩⟩
      · rintro (h | ⟨_, h | ⟨_, h⟩⟩)
        · have : a.urgency < b.urgency := h
          omega
        · have : a.level < b.level := h
          omega
        · exact h

theorem keyLe_refl (a : Int × Int × String) : keyLe a a :=
  Or.inr ⟨rfl, Or.inr ⟨rfl, le_refl _⟩⟩

theorem keyLe_total (a b : Int × Int × String) : keyLe a b ∨ keyLe b a := by
  unfold keyLe
  rcases lt_trichotomy a.1 b.1 with h | h | h
  · exact Or.inl (Or.inl h)
  · rcases lt_trichotomy a.2.1 b.2.1 with h2 | h2 | h2
    · exact Or.inl (Or.inr ⟨h, Or.inl h2⟩)
    · rcases le_total a.2.2 b.2.2 with h3 | h3
      · exact Or.inl (Or.inr ⟨h, Or.inr ⟨h2, h3⟩⟩)
      · exact Or.inr (Or.inr ⟨h.symm, Or.inr ⟨h2.symm, h3⟩⟩)
    · exact Or.inr (Or.inr ⟨h.symm, Or.inl h2⟩)
  · exact Or.inr (Or.inl h)

theorem keyLe_trans {a b c : Int × Int × String} (hab : keyLe a b) (hbc : keyLe b c) :
    keyLe a c := by
  unfold keyLe at *
  rcases hab with h | ⟨h, h2 | ⟨h2, h3⟩⟩ <;> rcases hbc with k | ⟨k, k2 | ⟨k2, k3⟩⟩
  · exact Or.inl (lt_trans h k)
  · exact Or.inl (k ▸ h)
  · exact Or.inl (k ▸ h)
  · exact Or.inl (h ▸ k)
  · exact Or.inr ⟨h.trans k, Or.inl (lt_trans h2 k2)⟩
  · exact Or.inr ⟨h.trans k, Or.inl (k2 ▸ h2)⟩
  · exact Or.inl (h ▸ k)
  · exact Or.inr ⟨h.trans k, Or.inl (h2 ▸ k2)⟩
  · exact Or.inr ⟨h.trans k, Or.inr ⟨h2.trans k2, le_trans h3 k3⟩⟩

theorem keyLt_iff_not_keyLe (a b : Int × Int × String) : keyLt a b ↔ ¬ keyLe b a := by
  unfold keyLt keyLe
  constructor
  · rintro (h | ⟨h, h2 | ⟨h2, h3⟩⟩) (k | ⟨k, k2 | ⟨k2, k3⟩⟩) <;>
      first
        | omega
        | exact absurd k3 (not_le.mpr h3)
  · intro hn
    rcases lt_trichotomy a.1 b.1 with h | h | h
    · exact Or.inl h
    · rcases lt_trichotomy a.2.1 b.2.1 with h2 | h2 | h2
      · exact Or.inr ⟨h, Or.inl h2⟩
      · refine Or.inr ⟨h, Or.inr ⟨h2, ?_⟩⟩
        by_contra h3
        exact hn (Or.inr ⟨h.symm, Or.inr ⟨h2.symm, not_lt.mp h3⟩⟩)
      · exact absurd (Or.inr ⟨h.symm, Or.inl h2⟩) hn
    · exact absurd (Or.inl h) hn

theorem entryKey_queueEntry (t : String) (srs : SrsMap) (s : WordSet) :
    entryKey (queueEntry t srs s) = sortKey t srs s := by
  unfold queueEntry sortKey entryKey
  cases h : srs s.id <;> simp [Option.elim]

theorem queueEntry_s (t : String) (srs : SrsMap) (s : WordSet) :
    (queueEntry t srs s).s = s := by
  unfold queueEntry
  cases h : srs s.id <;> rfl

theorem queueCompare_isTotal : IsTotal QEntry (fun a b => queueCompare a b ≤ 0) :=
  ⟨fun a b => by
    simp only [queueCompare_le_iff]
    exact keyLe_total _ _⟩

theorem queueCompare_isTrans : IsTrans QEntry (fun a b => queueCompare a b ≤ 0) :=
  ⟨fun a b c => by
    simp only [queueCompare_le_iff]
    exact keyLe_trans⟩

/-- The sorted list of queue elements `buildQueue` truncates. -/
theorem jsSort_sorted (l : List QEntry) :
    (jsSort queueCompare l).Sorted (fun a b => queueCompare a b ≤ 0) := by
  haveI := queueCompare_isTotal
  haveI := queueCompare_isTrans
  exact List.sorted_insertionSort _ l

theorem jsSort_perm {α : Type} (cmp : α → α → Int) (l : List α) :
    (jsSort cmp l).Perm l :=
  List.perm_insertionSort _ l

theorem slice0_eq_take {α : Type} (l : List α) (count : Int) :
    ∃ k : Nat, slice0 l count = l.take k ∧ (0 ≤ count → k = count.toNat) := by
  unfold slice0
  by_cases h : 0 ≤ count
  · exact ⟨count.toNat, by rw [if_pos h], fun _ => rfl⟩
  · exact ⟨l.length - (-count).toNat, by rw [if_neg h], fun h' => absurd h' h⟩

/-- Every element of the sorted list is the queue element of its own set. -/
theorem mem_sorted_entries {t : String} {srs : SrsMap} {pool : List WordSet} {e : QEntry}
    (he : e ∈ jsSort queueCompare (pool.map (queueEntry t srs))) :
    e.s ∈ pool ∧ entryKey e = sortKey t srs e.s := by
  have h1 : e ∈ pool.map (queueEntry t srs) := (jsSort_perm _ _).mem_iff.mp he
  obtain ⟨s, hs, rfl⟩ := List.mem_map.mp h1
  rw [queueEntry_s, entryKey_queueEntry]
  exact ⟨hs, rfl⟩

theorem map_s_sorted_perm (t : String) (srs : SrsMap) (pool : List WordSet) :
    ((jsSort queueCompare (pool.map (queueEntry t srs))).map (fun x => x.s)).Perm pool := by
  have h1 := (jsSort_perm queueCompare (pool.map (queueEntry t srs))).map (fun x => x.s)
  have h2 : (pool.map (queueEntry t srs)).map (fun x => x.s) = pool := by
    rw [List.map_map]
    conv_rhs => rw [← List.map_id pool]
    apply List.map_congr_left
    intro s _
    simp [queueEntry_s]
  rw [h2] at h1
  exact h1

/-! ## Properties of buildQueue -/

theorem buildQueue_pairwise_key (t : String) (pool : List WordSet) (srs : SrsMap)
    (count : Int) :
    (buildQueue t pool srs count).Pairwise
      (fun a b => keyLe (sortKey t srs a) (sortKey t srs b)) := by
  unfold buildQueue
  obtain ⟨k, hk, _⟩ := slice0_eq_take (jsSort queueCompare (pool.map (queueEntry t srs))) count
  rw [hk, List.pairwise_map]
  have hs := jsSort_sorted (pool.map (queueEntry t srs))
  have hsub : (List.take k (jsSort queueCompare (pool.map (queueEntry t srs)))).Sublist
      (jsSort queueCompare (pool.map (queueEntry t srs))) := List.take_sublist _ _
  have hp := List.Pairwise.sublist hsub hs
  refine List.Pairwise.imp_of_mem ?_ hp
  intro a b ha hb hab
  have ha' := mem_sorted_entries (hsub.subset ha)
  have hb' := mem_sorted_entries (hsub.subset hb)
  rw [← ha'.2, ← hb'.2]
  exact (queueCompare_le_iff a b).mp hab

/-- C5: for every pool and every count `>= 0`, `buildQueue` returns exactly
`min(count, |pool|)` sets; they are sets of the pool, none more often than in
the pool (the result and the sets left out together are a rearrangement of the
pool); and no set left out sorts strictly before a returned set. -/
theorem buildQueue_truncates (t : String) (pool : List WordSet) (srs : SrsMap) (count : Int)
    (hc : 0 ≤ count) :
    ((buildQueue t pool srs count).length : Int) = min count (pool.length : Int) ∧
    (∀ s ∈ buildQueue t pool srs count, s ∈ pool) ∧
    (∀ s, (buildQueue t pool srs count).count s ≤ pool.count s) ∧
    ∃ rest : List WordSet, (buildQueue t pool srs count ++ rest).Perm pool ∧
      ∀ x ∈ rest, ∀ y ∈ buildQueue t pool srs count,
        ¬ keyLt (sortKey t srs x) (sortKey t srs y) := by
  have hsl : buildQueue t pool srs count =
      ((jsSort queueCompare (pool.map (queueEntry t srs))).take count.toNat).map
        (fun x => x.s) := by
    unfold buildQueue slice0
    rw [if_pos hc]
  have hperm : (buildQueue t pool srs count ++
      ((jsSort queueCompare (pool.map (queueEntry t srs))).drop count.toNat).map
        (fun x => x.s)).Perm pool := by
    rw [hsl, ← List.map_append, List.take_append_drop]
    exact map_s_sorted_perm t srs pool
  have hsub : (buildQueue t pool srs count).Subperm pool :=
    (List.sublist_append_left _ _).subperm.trans hperm.subperm
  refine ⟨?_, fun s hs => hsub.subset hs, fun s => hsub.count_le s, _, hperm, ?_⟩
  · rw [hsl, List.length_map, List.length_take,
      (jsSort_perm queueCompare (pool.map (queueEntry t srs))).length_eq, List.length_map]
    rcases le_total count (pool.length : Int) with h | h
    · rw [min_eq_left h, Nat.min_eq_left (by omega)]
      omega
    · rw [min_eq_right h, Nat.min_eq_right (by omega)]
  · intro x hx y hy
    rw [hsl] at hy
    obtain ⟨ex, hex, rfl⟩ := List.mem_map.mp hx
    obtain ⟨ey, hey, rfl⟩ := List.mem_map.mp hy
    have hrel := (jsSort_sorted (pool.map (queueEntry t srs))).rel_of_mem_take_of_mem_drop hey hex
    have hkx := mem_sorted_entries (List.mem_of_mem_drop hex)
    have hky := mem_sorted_entries (List.mem_of_mem_take hey)
    rw [keyLt_iff_not_keyLe, not_not]
    show keyLe (sortKey t srs ey.s) (sortKey t srs ex.s)
    rw [← hkx.2, ← hky.2]
    exact (queueCompare_le_iff ey ex).mp hrel

theorem exDates :
    ("2026-11-04" ≤ "2026-11-04") ∧ ¬ ("2026-11-05" ≤ "2026-11-04") ∧
    ("2026-11-04" ≤ "2026-11-05") ∧ ("2026-11-05" ≤ "2026-11-05") ∧
    ("2026-11-04" < "2026-11-05") ∧ ("0000-00-00" ≤ "2026-11-04") := by
  refine ⟨le_refl _, ?_, ?_, le_refl _, ?_, ?_⟩
  · rw [not_le, String.lt_iff_toList_lt]; decide
  · rw [← not_lt, String.lt_iff_toList_lt]; decide
  · rw [String.lt_iff_toList_lt]; decide
  · rw [← not_lt, String.lt_iff_toList_lt]; decide

/-- C4: for every pool, review-state map, count and current date, the list
`buildQueue` returns is sorted ascending by the key (urgency, level, due):
of two returned sets the earlier one never has the greater key. -/
theorem buildQueue_sorted (t : String) (pool : List WordSet) (srs : SrsMap) (count : Int) :
    (buildQueue t pool srs count).Pairwise
      (fun a b => keyLe (sortKey t srs a) (sortKey t srs b)) :=
  buildQueue_pairwise_key t pool srs count

/-- Witness of C5 on a pool of two sets and count 1. -/
theorem buildQueue_truncates_witness :
    ((buildQueue "2026-11-04" [exSetA, exSetB] exSrs 1).length : Int)
      = min 1 (([exSetA, exSetB] : List WordSet).length : Int) ∧
    (∀ s ∈ buildQueue "2026-11-04" [exSetA, exSetB] exSrs 1, s ∈ [exSetA, exSetB]) ∧
    (∀ s, (buildQueue "2026-11-04" [exSetA, exSetB] exSrs 1).count s
      ≤ ([exSetA, exSetB] : List WordSet).count s) ∧
    ∃ rest : List WordSet,
      (buildQueue "2026-11-04" [exSetA, exSetB] exSrs 1 ++ rest).Perm [exSetA, exSetB] ∧
      ∀ x ∈ rest, ∀ y ∈ buildQueue "2026-11-04" [exSetA, exSetB] exSrs 1,
        ¬ keyLt (sortKey "2026-11-04" exSrs x) (sortKey "2026-11-04" exSrs y) :=
  buildQueue_truncates "2026-11-04" [exSetA, exSetB] exSrs 1 (by decide)

theorem list_not_lt_of_forall2 : ∀ (l1 l2 : List Char),
    List.Forall₂ (fun x y => y ≤ x) l1 l2 → ¬ l1 < l2 := by
  intro l1 l2 h
  induction h with
  | nil => intro h; cases h
  | cons hxy _ ih =>
    intro hlt
    cases hlt with
    | rel h => exact absurd h (not_lt.mpr hxy)
    | cons h => exact ih h

theorem digit_ge_zero (c : Char) (h : c.isDigit = true) : '0' ≤ c := by
  simp only [Char.isDigit, Bool.and_eq_true, decide_eq_true_eq] at h
  exact h.1

/-- Every date string of the shape `YYYY-MM-DD` is at or after `0000-00-00`
in string order, so the fallback due date of `buildQueue` counts as due on
every such day. -/
theorem isoDay_ge_zero (t : String) (h : isIsoDay t = true) : "0000-00-00" ≤ t := by
  rw [← not_lt, String.lt_iff_toList_lt]
  unfold isIsoDay at h
  have hd : t.toList = t.data := rfl
  rw [hd]
  split at h
  · rename_i a b c d e f g h2 i j heq
    rw [heq]
    simp only [Bool.and_eq_true, beq_iff_eq] at h
    obtain ⟨⟨⟨⟨⟨⟨⟨⟨⟨ha, hb⟩, hc⟩, hd⟩, he⟩, hf⟩, hg⟩, hh⟩, hi⟩, hj⟩ := h
    apply list_not_lt_of_forall2
    subst he hh
    have z : "0000-00-00".toList = ['0', '0', '0', '0', '-', '0', '0', '-', '0', '0'] := by
      decide
    rw [z]
    repeat' first
      | exact List.Forall₂.nil
      | apply List.Forall₂.cons
    all_goals first
      | exact digit_ge_zero _ (by assumption)
      | exact le_refl _
  · exact absurd h (by simp)

/-- The key of a set without review state is below the key of a set due after
today, when today is an ISO date (year 0000 or later). -/
theorem unseen_key_lt_future {t : String} {srs : SrsMap} {U F : WordSet} {st : ReviewState}
    (ht : "0000-00-00" ≤ t) (hU : srs U.id = none) (hF : srs F.id = some st)
    (hd : t < st.due) : ¬ keyLe (sortKey t srs F) (sortKey t srs U) := by
  rw [← keyLt_iff_not_keyLe]
  unfold keyLt sortKey
  left
  simp [hU, hF, Option.elim, ht, not_le.mpr hd]

/-- C6: in every pool with a set `U` without review state and a set `F` due
later than today, `buildQueue` never places `U` after `F`, and never returns
`F` while leaving `U` out.  Today is a date `YYYY-MM-DD`, hence not before
`0000-00-00` (`isoDay_ge_zero`). -/
theorem buildQueue_unseen_before_future (t : String) (pool : List WordSet) (srs : SrsMap)
    (count : Int) (U F : WordSet) (st : ReviewState)
    (ht : "0000-00-00" ≤ t) (hUp : U ∈ pool) (hU : srs U.id = none)
    (hF : srs F.id = some st) (hd : t < st.due) :
    (∀ i j : Nat, i < j → (buildQueue t pool srs count)[i]? = some F →
      (buildQueue t pool srs count)[j]? ≠ some U) ∧
    (F ∈ buildQueue t pool srs count → U ∈ buildQueue t pool srs count) := by
  have hkey := unseen_key_lt_future ht hU hF hd
  constructor
  · intro i j hij hi hj
    obtain ⟨hi', hiF⟩ := List.getElem?_eq_some_iff.mp hi
    obtain ⟨hj', hjU⟩ := List.getElem?_eq_some_iff.mp hj
    have hp := List.pairwise_iff_getElem.mp (buildQueue_pairwise_key t pool srs count)
      i j hi' hj' hij
    rw [hiF, hjU] at hp
    exact hkey hp
  · intro hFq
    unfold buildQueue at hFq ⊢
    obtain ⟨k, hk, _⟩ := slice0_eq_take (jsSort queueCompare (pool.map (queueEntry t srs))) count
    rw [hk] at hFq ⊢
    obtain ⟨eF, heF, rfl⟩ := List.mem_map.mp hFq
    have hUs : queueEntry t srs U ∈ jsSort queueCompare (pool.map (queueEntry t srs)) :=
      (jsSort_perm _ _).mem_iff.mpr (List.mem_map_of_mem _ hUp)
    rw [← List.take_append_drop k (jsSort queueCompare (pool.map (queueEntry t srs))),
      List.mem_append] at hUs
    rcases hUs with h | h
    · exact List.mem_map.mpr ⟨_, h, queueEntry_s t srs U⟩
    · exfalso
      have hrel := (jsSort_sorted (pool.map (queueEntry t srs))).rel_of_mem_take_of_mem_drop heF h
      have hkF := mem_sorted_entries (List.mem_of_mem_take heF)
      apply hkey
      rw [← hkF.2, ← entryKey_queueEntry]
      exact (queueCompare_le_iff _ _).mp hrel

/-- Witness of C6: today 2026-11-04, `exSetC` never studied, `exSetA` due on
2026-11-05. -/
theorem buildQueue_unseen_before_future_witness :
    (∀ i j : Nat, i < j →
      (buildQueue "2026-11-04" [exSetA, exSetC] exSrs 5)[i]? = some exSetA →
      (buildQueue "2026-11-04" [exSetA, exSetC] exSrs 5)[j]? ≠ some exSetC) ∧
    (exSetA ∈ buildQueue "2026-11-04" [exSetA, exSetC] exSrs 5 →
      exSetC ∈ buildQueue "2026-11-04" [exSetA, exSetC] exSrs 5) :=
  buildQueue_unseen_before_future "2026-11-04" [exSetA, exSetC] exSrs 5 exSetC exSetA
    { level := 0, due := "2026-11-05", lastSeen := "2026-11-04" }
    (isoDay_ge_zero "2026-11-04" (by decide)) (by simp) (by simp [exSrs, exSetC])
    (by simp [exSrs, exSetA]) exDates.2.2.2.2.1

/-- On a pool without any review state the sort of `buildQueue` changes
nothing: all elements compare equal and the sort is stable. -/
theorem jsSort_unseen_pool (t : String) (pool : List WordSet) (srs : SrsMap)
    (hall : ∀ s ∈ pool, srs s.id = none) :
    jsSort queueCompare (pool.map (queueEntry t srs)) = pool.map (queueEntry t srs) := by
  unfold jsSort
  apply List.Sorted.insertionSort_eq
  unfold List.Sorted
  rw [List.pairwise_map]
  apply List.pairwise_of_forall_mem_list
  intro a ha b hb
  rw [queueCompare_le_iff, entryKey_queueEntry, entryKey_queueEntry]
  have hka : sortKey t srs a = sortKey t srs b := by
    unfold sortKey
    rw [hall a ha, hall b hb]
  rw [hka]
  exact keyLe_refl _

theorem map_s_queueEntry (t : String) (srs : SrsMap) (l : List WordSet) :
    (l.map (queueEntry t srs)).map (fun x => x.s) = l := by
  rw [List.map_map]
  conv_rhs => rw [← List.map_id l]
  apply List.map_congr_left
  intro s _
  simp [queueEntry_s]

/-- C7: on a pool in which no set has a review state, `buildQueue` returns
the first `min(count, |pool|)` sets of the pool in their original order; a
pool of 5 never-studied sets with count 5 (the session size) comes back
unchanged. -/
theorem buildQueue_unseen_pool (t : String) (pool : List WordSet) (srs : SrsMap)
    (hall : ∀ s ∈ pool, srs s.id = none) :
    (∀ count : Int, 0 ≤ count →
      buildQueue t pool srs count = pool.take (min count.toNat pool.length)) ∧
    (pool.length = 5 → buildQueue t pool srs SESSION_SIZE = pool) := by
  have hgen : ∀ count : Int, 0 ≤ count →
      buildQueue t pool srs count = pool.take (min count.toNat pool.length) := by
    intro count hc
    unfold buildQueue slice0
    rw [if_pos hc, jsSort_unseen_pool t pool srs hall, ← List.map_take, map_s_queueEntry]
    rcases Nat.le_total count.toNat pool.length with h | h
    · rw [Nat.min_eq_left h]
    · rw [Nat.min_eq_right h, List.take_of_length_le h, List.take_of_length_le (le_refl _)]
  refine ⟨hgen, fun h5 => ?_⟩
  rw [hgen SESSION_SIZE (by decide)]
  have : SESSION_SIZE.toNat = 5 := rfl
  rw [this, h5]
  exact List.take_of_length_le (by omega)

/-- Witness of C7 on a pool of five never-studied sets. -/
theorem buildQueue_unseen_pool_witness :
    (∀ count : Int, 0 ≤ count →
      buildQueue "2026-11-04" exPoolFive exSrs count
        = exPoolFive.take (min count.toNat exPoolFive.length)) ∧
    (exPoolFive.length = 5 → buildQueue "2026-11-04" exPoolFive exSrs SESSION_SIZE = exPoolFive) ∧
    exPoolFive.length = 5 ∧
    buildQueue "2026-11-04" exPoolFive exSrs SESSION_SIZE = exPoolFive :=
  have h := buildQueue_unseen_pool "2026-11-04" exPoolFive exSrs (by
    intro s hs
    simp only [exPoolFive, List.mem_cons, List.mem_singleton, List.not_mem_nil, or_false] at hs
    rcases hs with rfl | rfl | rfl | rfl | rfl <;> decide)
  ⟨h.1, h.2, rfl, h.2 rfl⟩

/-- The queue depends on the day of the call: the same pool and the same
review state give different queues on two different days, because `buildQueue`
reads the clock. -/
theorem buildQueue_depends_on_today :
    buildQueue "2026-11-04" [exSetA, exSetB] exSrs SESSION_SIZE = [exSetB, exSetA] ∧
    buildQueue "2026-11-05" [exSetA, exSetB] exSrs SESSION_SIZE = [exSetA, exSetB] ∧
    buildQueue "2026-11-04" [exSetA, exSetB] exSrs SESSION_SIZE
      ≠ buildQueue "2026-11-05" [exSetA, exSetB] exSrs SESSION_SIZE := by
  obtain ⟨h1, h2, h3, h4, h5, h6⟩ := exDates
  have e1 : buildQueue "2026-11-04" [exSetA, exSetB] exSrs SESSION_SIZE = [exSetB, exSetA] := by
    simp [buildQueue, slice0, jsSort, SESSION_SIZE, queueEntry, queueCompare, localeCompare,
      exSrs, exSetA, exSetB, h1, h2, h3, h4, h5, h6]
  have e2 : buildQueue "2026-11-05" [exSetA, exSetB] exSrs SESSION_SIZE = [exSetA, exSetB] := by
    simp [buildQueue, slice0, jsSort, SESSION_SIZE, queueEntry, queueCompare, localeCompare,
      exSrs, exSetA, exSetB, h1, h2, h3, h4, h5, h6]
  refine ⟨e1, e2, ?_⟩
  rw [e1, e2]
  decide

/-! ## A stable sort is unique -/

/-- Two lists in order for a total relation, permutations of each other, in
which the elements of every class of equals come in the same order, are
equal. -/
theorem stable_sorted_unique {α : Type} (le : α → α → Prop) [DecidableRel le]
    (htot : ∀ a b, le a b ∨ le b a) :
    ∀ (l1 l2 : List α), l1.Perm l2 → l1.Pairwise le → l2.Pairwise le →
    (∀ a, l1.filter (fun b => decide (le a b ∧ le b a))
      = l2.filter (fun b => decide (le a b ∧ le b a))) → l1 = l2 := by
  intro l1
  induction l1 with
  | nil =>
    intro l2 hp _ _ _
    exact (List.Perm.nil_eq hp)
  | cons x t1 ih =>
    intro l2 hp hs1 hs2 hf
    cases l2 with
    | nil => exact absurd hp.length_eq (by simp)
    | cons y t2 =>
      have hxx : le x x := (htot x x).elim id id
      have hxy : x = y := by
        have hx2 : x ∈ y :: t2 := hp.subset (List.mem_cons_self x t1)
        have hy1 : y ∈ x :: t1 := hp.symm.subset (List.mem_cons_self y t2)
        rcases List.mem_cons.mp hx2 with h | h
        · exact h
        · rcases List.mem_cons.mp hy1 with h2 | h2
          · exact h2.symm
          · have hyx : le y x := (List.pairwise_cons.mp hs2).1 x h
            have hxy : le x y := (List.pairwise_cons.mp hs1).1 y h2
            have h3 := hf x
            rw [List.filter_cons_of_pos (by simp [hxx]),
              List.filter_cons_of_pos (by simp [hxy, hyx])] at h3
            exact (List.cons.inj h3).1
      subst hxy
      congr 1
      apply ih t2 ((List.perm_cons x).mp hp) (List.pairwise_cons.mp hs1).2
        (List.pairwise_cons.mp hs2).2
      intro a
      have h3 := hf a
      by_cases hax : le a x ∧ le x a
      · rw [List.filter_cons_of_pos (by simp [hax]), List.filter_cons_of_pos (by simp [hax])] at h3
        exact (List.cons.inj h3).2
      · rw [List.filter_cons_of_neg (by simp [hax]), List.filter_cons_of_neg (by simp [hax])] at h3
        exact h3

/-- Stability of `sort`: the elements of one class, any two of which compare
as equal or in order, keep their input order. -/
theorem jsSort_filter_eq {α : Type} (cmp : α → α → Int) (p : α → Bool)
    (hp : ∀ a b, p a = true → p b = true → cmp a b ≤ 0) (l : List α) :
    (jsSort cmp l).filter p = l.filter p := by
  have hsub : (l.filter p).Sublist (jsSort cmp l) := by
    unfold jsSort
    apply List.sublist_insertionSort
    · apply List.pairwise_of_forall_mem_list
      intro a ha b hb
      exact hp a b (List.mem_filter.mp ha).2 (List.mem_filter.mp hb).2
    · exact List.filter_sublist l
  have hsub2 : (l.filter p).Sublist ((jsSort cmp l).filter p) := by
    have := hsub.filter p
    simpa using this
  have hlen : ((jsSort cmp l).filter p).length = (l.filter p).length :=
    ((jsSort_perm cmp l).filter p).length_eq
  exact (hsub2.eq_of_length hlen.symm).symm

theorem jsSort_contract {α : Type} : SortContract (jsSort (α := α)) := by
  intro cmp l htot htrans
  haveI : IsTotal α (fun a b => cmp a b ≤ 0) := ⟨htot⟩
  haveI : IsTrans α (fun a b => cmp a b ≤ 0) := ⟨htrans⟩
  refine ⟨jsSort_perm cmp l, List.sorted_insertionSort _ l, fun a => ?_⟩
  apply jsSort_filter_eq
  intro x y hx hy
  rw [decide_eq_true_eq] at hx hy
  exact htrans x a y hx.2 hy.1

theorem mergeSortJs_contract {α : Type} : SortContract (mergeSortJs (α := α)) := by
  intro cmp l htot htrans
  have htr : ∀ a b c : α, decide (cmp a b ≤ 0) = true → decide (cmp b c ≤ 0) = true →
      decide (cmp a c ≤ 0) = true := by
    intro a b c h1 h2
    rw [decide_eq_true_eq] at h1 h2 ⊢
    exact htrans a b c h1 h2
  have hto : ∀ a b : α, (decide (cmp a b ≤ 0) || decide (cmp b a ≤ 0)) = true := by
    intro a b
    rcases htot a b with h | h <;> simp [h]
  have hperm : (mergeSortJs cmp l).Perm l := List.mergeSort_perm _ _
  refine ⟨hperm, ?_, fun a => ?_⟩
  · have := List.sorted_mergeSort htr hto l
    exact this.imp (fun h => by simpa using h)
  · have hpw : ((l.filter (fun b => decide (cmp a b ≤ 0 ∧ cmp b a ≤ 0)))).Pairwise
        (fun x y => decide (cmp x y ≤ 0) = true) := by
      apply List.pairwise_of_forall_mem_list
      intro x hx y hy
      have hx2 := (List.mem_filter.mp hx).2
      have hy2 := (List.mem_filter.mp hy).2
      rw [decide_eq_true_eq] at hx2 hy2 ⊢
      exact htrans x a y hx2.2 hy2.1
    have hsub : (l.filter (fun b => decide (cmp a b ≤ 0 ∧ cmp b a ≤ 0))).Sublist
        (mergeSortJs cmp l) :=
      List.sublist_mergeSort htr hto hpw (List.filter_sublist l)
    have hsub2 : (l.filter (fun b => decide (cmp a b ≤ 0 ∧ cmp b a ≤ 0))).Sublist
        ((mergeSortJs cmp l).filter (fun b => decide (cmp a b ≤ 0 ∧ cmp b a ≤ 0))) := by
      have := hsub.filter (fun b => decide (cmp a b ≤ 0 ∧ cmp b a ≤ 0))
      simpa using this
    have hlen := (hperm.filter (fun b => decide (cmp a b ≤ 0 ∧ cmp b a ≤ 0))).length_eq
    exact (hsub2.eq_of_length hlen.symm).symm

theorem sort_contract_unique {α : Type}
    (sort1 sort2 : (α → α → Int) → List α → List α)
    (h1 : SortContract sort1) (h2 : SortContract sort2) (cmp : α → α → Int)
    (htot : ∀ a b, cmp a b ≤ 0 ∨ cmp b a ≤ 0)
    (htrans : ∀ a b c, cmp a b ≤ 0 → cmp b c ≤ 0 → cmp a c ≤ 0) (l : List α) :
    sort1 cmp l = sort2 cmp l := by
  obtain ⟨p1, s1, f1⟩ := h1 cmp l htot htrans
  obtain ⟨p2, s2, f2⟩ := h2 cmp l htot htrans
  apply stable_sorted_unique (fun a b => cmp a b ≤ 0) htot _ _ (p1.trans p2.symm) s1 s2
  intro a
  rw [f1 a, f2 a]

/-- C8: `buildQueue` is deterministic.  Two invocations with the same pool,
review-state map and count, at two readings of the clock on the same day,
return the same sets in the same order, whichever algorithm the engine uses
for `sort`: the comparator of `buildQueue` orders the elements consistently, so
that every `sort` that meets the ECMAScript contract returns the same list, the
one `jsSort` returns. -/
theorem buildQueue_deterministic
    (sort1 sort2 : (QEntry → QEntry → Int) → List QEntry → List QEntry)
    (h1 : SortContract sort1) (h2 : SortContract sort2) (tz : TimeZone) (now1 now2 : Int)
    (hday : todayStr (jsDate tz) now1 = todayStr (jsDate tz) now2)
    (pool : List WordSet) (srs : SrsMap) (count : Int) :
    buildQueueWith sort1 (todayStr (jsDate tz) now1) pool srs count
      = buildQueueWith sort2 (todayStr (jsDate tz) now2) pool srs count ∧
    buildQueueWith sort1 (todayStr (jsDate tz) now1) pool srs count
      = buildQueue (todayStr (jsDate tz) now1) pool srs count := by
  have hu : ∀ (s1 s2 : (QEntry → QEntry → Int) → List QEntry → List QEntry),
      SortContract s1 → SortContract s2 → ∀ l, s1 queueCompare l = s2 queueCompare l :=
    fun s1 s2 c1 c2 l => sort_contract_unique s1 s2 c1 c2 queueCompare
      queueCompare_isTotal.total (fun a b c => queueCompare_isTrans.trans a b c) l
  constructor
  · rw [← hday]
    unfold buildQueueWith
    rw [hu sort1 sort2 h1 h2]
  · unfold buildQueueWith buildQueue
    rw [hu sort1 jsSort h1 jsSort_contract]

/-- Witness of C8: insertion sort and merge sort, at 08:00Z and at 20:00Z of
2026-11-04, on the two example sets. -/
theorem buildQueue_deterministic_witness :
    buildQueueWith jsSort (todayStr (jsDate losAngeles) 1793779200000) [exSetA, exSetB] exSrs 5
      = buildQueueWith mergeSortJs (todayStr (jsDate losAngeles) 1793822400000)
          [exSetA, exSetB] exSrs 5 ∧
    buildQueueWith jsSort (todayStr (jsDate losAngeles) 1793779200000) [exSetA, exSetB] exSrs 5
      = buildQueue (todayStr (jsDate losAngeles) 1793779200000) [exSetA, exSetB] exSrs 5 :=
  buildQueue_deterministic jsSort mergeSortJs jsSort_contract mergeSortJs_contract losAngeles
    1793779200000 1793822400000 (by decide) [exSetA, exSetB] exSrs 5

/-! ## Properties of submitScore -/

theorem srsNextLevel_bounds (level : Int) (ratio : JsNum) (h0 : 0 ≤ level) (h4 : level ≤ 4) :
    0 ≤ srsNextLevel level ratio ∧ srsNextLevel level ratio ≤ 4 := by
  unfold srsNextLevel
  split_ifs <;> omega

theorem srsDays_of_range (level : Int) (h0 : 0 ≤ level) (h4 : level ≤ 4) :
    ∃ n, srsDays level = some n := by
  have hidx : level.toNat < SRS_DAYS.length := by
    have : SRS_DAYS.length = 5 := rfl
    omega
  refine ⟨SRS_DAYS[level.toNat], ?_⟩
  unfold srsDays
  rw [if_pos h0, List.getElem?_eq_getElem hidx]

theorem jsDiv_self_ge_one (n : Int) (hn : 1 ≤ n) : (jsDiv n n).ge 1 = true := by
  have hne : n ≠ 0 := by omega
  have hq : (n : ℚ) ≠ 0 := by exact_mod_cast hne
  simp [jsDiv, hne, JsNum.ge, div_self hq]

theorem jsDiv_zero_lt (n : Int) (hn : 1 ≤ n) :
    (jsDiv 0 n).ge 1 = false ∧ (jsDiv 0 n).ge (3 / 4) = false := by
  have hne : n ≠ 0 := by omega
  constructor
  · simp [jsDiv, hne, JsNum.ge]
  · simp [jsDiv, hne, JsNum.ge]

/-- What `submitScore` stores, whatever the `Date` operations are: for a set
of `N >= 1` items, every count `sc` and a prior level of the set (if any) in
`0..4`, the handler returns and stores the level
`srsNextLevel(previous level or 0, sc/N)`, the due date that `srsDue` computes
for that level and `lastSeen = todayStr()`; `sc = N` gives `min(prev+1, 4)`,
`sc = 0` gives `max(prev-1, 0)`, and no other set's state changes. -/
theorem submitScore_stores {D : Type} (api : DateApi D) (nowDue nowSeen : D) (lsOk : Bool)
    (st : AppState) (cur : WordSet) (sc : Int)
    (hcur : st.curSet = some cur) (hN : 1 ≤ cur.items.length)
    (hlev : ∀ r, st.srs cur.id = some r → 0 ≤ r.level ∧ r.level ≤ 4) :
    ∃ (st2 : AppState) (push : Option SrsMap) (stored : ReviewState),
      submitScore api nowDue nowSeen lsOk sc st = some (st2, push) ∧
      st2.srs cur.id = some stored ∧
      stored.level = srsNextLevel ((st.srs cur.id).elim 0 (fun r => r.level))
        (jsDiv sc cur.items.length) ∧
      (∃ n, SRS_DAYS[stored.level.toNat]? = some n ∧ 0 ≤ stored.level ∧
        stored.due = api.isoDay (api.plusDays nowDue (n : Int))) ∧
      stored.lastSeen = todayStr api nowSeen ∧
      srsDue api nowDue stored.level = some stored.due ∧
      (sc = cur.items.length →
        stored.level = min ((st.srs cur.id).elim 0 (fun r => r.level) + 1) 4) ∧
      (sc = 0 → stored.level = max ((st.srs cur.id).elim 0 (fun r => r.level) - 1) 0) ∧
      (∀ id, id ≠ cur.id → st2.srs id = st.srs id) := by
  have hprev : (match st.srs cur.id with
      | some r => r.level
      | none => (0 : Int)) = (st.srs cur.id).elim 0 (fun r => r.level) := by
    cases st.srs cur.id <;> rfl
  have hp : 0 ≤ (st.srs cur.id).elim 0 (fun r => r.level) ∧
      (st.srs cur.id).elim 0 (fun r => r.level) ≤ 4 := by
    cases h : st.srs cur.id with
    | none => simp [Option.elim]
    | some r => simpa [Option.elim] using hlev r h
  obtain ⟨hb0, hb4⟩ := srsNextLevel_bounds ((st.srs cur.id).elim 0 (fun r => r.level))
    (jsDiv sc cur.items.length) hp.1 hp.2
  obtain ⟨n, hn⟩ := srsDays_of_range _ hb0 hb4
  have hdue : srsDue api nowDue (srsNextLevel ((st.srs cur.id).elim 0 (fun r => r.level))
      (jsDiv sc cur.items.length)) = some (api.isoDay (api.plusDays nowDue (n : Int))) := by
    unfold srsDue
    rw [hn]
  simp only [submitScore, hcur, hprev, hdue]
  refine ⟨_, _, ReviewState.mk
      (srsNextLevel ((st.srs cur.id).elim 0 (fun r => r.level)) (jsDiv sc cur.items.length))
      (api.isoDay (api.plusDays nowDue (n : Int))) (todayStr api nowSeen),
      rfl, ?_, rfl, ⟨n, ?_, hb0, rfl⟩, rfl, hdue, ?_, ?_, ?_⟩
  · simp [setSrs, objSet]
  · unfold srsDays at hn
    rw [if_pos hb0] at hn
    exact hn
  · intro h
    show srsNextLevel _ _ = _
    rw [h]
    unfold srsNextLevel
    rw [jsDiv_self_ge_one _ (by exact_mod_cast hN)]
    simp
  · intro h
    show srsNextLevel _ _ = _
    rw [h]
    unfold srsNextLevel
    rw [(jsDiv_zero_lt _ (by exact_mod_cast hN)).1, (jsDiv_zero_lt _ (by exact_mod_cast hN)).2]
    simp
  · intro id hid
    simp [setSrs, objSet, hid]

/-- An instance of `submitScore_stores`: grading `exSetA` (two items, level 0)
with count 2. -/
theorem submitScore_stores_witness :
    ∃ (st2 : AppState) (push : Option SrsMap) (stored : ReviewState),
      submitScore exApi 4 4 true 2 exState = some (st2, push) ∧
      st2.srs exSetA.id = some stored ∧
      stored.level = srsNextLevel ((exState.srs exSetA.id).elim 0 (fun r => r.level))
        (jsDiv 2 exSetA.items.length) ∧
      (∃ n, SRS_DAYS[stored.level.toNat]? = some n ∧ 0 ≤ stored.level ∧
        stored.due = exApi.isoDay (exApi.plusDays 4 (n : Int))) ∧
      stored.lastSeen = todayStr exApi 4 ∧
      srsDue exApi 4 stored.level = some stored.due ∧
      ((2 : Int) = exSetA.items.length →
        stored.level = min ((exState.srs exSetA.id).elim 0 (fun r => r.level) + 1) 4) ∧
      ((2 : Int) = 0 →
        stored.level = max ((exState.srs exSetA.id).elim 0 (fun r => r.level) - 1) 0) ∧
      (∀ id, id ≠ exSetA.id → st2.srs id = exState.srs id) :=
  submitScore_stores exApi 4 4 true exState exSetA 2 (by rfl) (by decide)
    (by
      intro r hr
      have h : r = { level := 0, due := "2026-11-05", lastSeen := "2026-11-04" } := by
        simpa [exState, exSrs, exSetA] using hr.symm
      subst h
      decide)

/-- C9, the code at the failing input: in the zone America/Los_Angeles at
2026-03-08T00:30Z (16:30 on 7 March local time, the day before daylight time
begins) a set at level 0 is graded with all items right.  The stored level
is 1 and `SRS_DAYS[1]` is 1, but the stored due date is today, 2026-03-08, not
2026-03-09: `srsDue` adds the day in local time and formats in UTC, and the
local day that follows is an hour short.  In the zone UTC the same grading
stores 2026-03-09.  And from a stored level outside `SRS_DAYS` (6, graded with
no item right) the handler throws. -/
theorem submitScore_due_example :
    todayStr (jsDate losAngeles) 1772929800000 = "2026-03-08" ∧
    (exState.srs exSetA.id).map (fun r => r.level) = some 0 ∧
    (submitScore (jsDate losAngeles) 1772929800000 1772929800000 true 2 exState).map
        (fun r => r.1.srs exSetA.id)
      = some (some { level := 1, due := "2026-03-08", lastSeen := "2026-03-08" }) ∧
    SRS_DAYS[1]? = some 1 ∧
    addDays (jsDate utcZone) "2026-03-08" 1 = "2026-03-09" ∧
    (submitScore (jsDate utcZone) 1772929800000 1772929800000 true 2 exState).map
        (fun r => r.1.srs exSetA.id)
      = some (some { level := 1, due := "2026-03-09", lastSeen := "2026-03-08" }) ∧
    (submitScore (jsDate utcZone) 1772929800000 1772929800000 true 0 exStateLevel6).isNone
      = true := by
  have h1 : isoDayOf 1772929800000 = "2026-03-08" := by decide
  have h2 : isoDayOf (setDatePlus losAngeles 1772929800000 1) = "2026-03-08" := by decide
  have h3 : isoDayOf (setDatePlus utcZone 1772929800000 1) = "2026-03-09" := by decide
  have hnl : srsNextLevel 6 (jsDiv 0 (2 : Nat)) = 5 := by
    norm_num [srsNextLevel, jsDiv, JsNum.ge]
  have hdue : srsDue (jsDate utcZone) 1772929800000 5 = none := rfl
  refine ⟨h1, by decide, ?_, by decide, by decide, ?_, ?_⟩
  · simp [submitScore, exState, exSetA, exSrs, jsDiv, srsNextLevel, JsNum.ge, srsDue, srsDays,
      SRS_DAYS, setSrs, objSet, todayStr, jsDate, h1, h2]
  · simp [submitScore, exState, exSetA, exSrs, jsDiv, srsNextLevel, JsNum.ge, srsDue, srsDays,
      SRS_DAYS, setSrs, objSet, todayStr, jsDate, h1, h3]
  · have hs : submitScore (jsDate utcZone) 1772929800000 1772929800000 true 0 exStateLevel6
        = none := by
      simp only [submitScore, exStateLevel6, exState, exSetA, objSet, if_true, List.length_cons,
        List.length_nil]
      have hnl2 : srsNextLevel 6 (jsDiv 0 ((0 + 1 + 1 : Nat) : Int)) = 5 := by
        norm_num [srsNextLevel, jsDiv, JsNum.ge]
      simp only [hnl2, hdue]
    rw [hs]
    rfl

/-! ## Properties of updateSyncedPerAccount -/

/-- The written map always holds the new value for the calling account. -/
theorem updateSyncedPerAccount_sets_own {β : Type} (storage : String → StorageGet (AcctMap β))
    (now1 now2 : Nat) (key a : String) (v : β) (fb : AcctMap β) :
    (updateSyncedPerAccount storage now1 now2 key a v fb).1 = key ∧
    heldEntries (some (updateSyncedPerAccount storage now1 now2 key a v fb).2) a = some v := by
  simp [updateSyncedPerAccount, heldEntries, syncUnwrap, syncWrap, objSet]

/-- When the re-read delivers the remote content, every other account keeps
the entry the remote held, or gets the fallback entry where the remote held
none. -/
theorem updateSyncedPerAccount_keeps_others_on_read {β : Type}
    (storage : String → StorageGet (AcctMap β)) (held : Raw (AcctMap β))
    (now1 now2 : Nat) (key a b : String) (v : β) (fb : AcctMap β)
    (hread : storage key = storageGet (some held) false) (hba : b ≠ a)
    (hnull : ∀ ver upd, held ≠ .envelope ver upd none) (hnn : held ≠ .null) :
    heldEntries (some (updateSyncedPerAccount storage now1 now2 key a v fb).2) b
      = match heldEntries (some held) b with
        | some e => some e
        | none => fb b := by
  cases held with
  | null => exact absurd rfl hnn
  | envelope ver upd d =>
    cases d with
    | none => exact absurd rfl (hnull ver upd)
    | some m =>
      simp [updateSyncedPerAccount, heldEntries, syncUnwrap, syncWrap, objSet, objSpread,
        hread, storageGet, syncGet, hba]
  | bare m =>
    simp [updateSyncedPerAccount, heldEntries, syncUnwrap, syncWrap, objSet, objSpread,
      hread, storageGet, syncGet, hba]

/-- When the re-read fails, every other account gets the fallback entry,
whatever the remote held. -/
theorem updateSyncedPerAccount_fallback_on_failed_read {β : Type}
    (storage : String → StorageGet (AcctMap β)) (held : Option (Raw (AcctMap β)))
    (now1 now2 : Nat) (key a b : String) (v : β) (fb : AcctMap β)
    (hread : storage key = storageGet held true) (hba : b ≠ a) :
    heldEntries (some (updateSyncedPerAccount storage now1 now2 key a v fb).2) b = fb b := by
  simp only [updateSyncedPerAccount, heldEntries, syncUnwrap, syncWrap, objSet, objSpread,
    hread, storageGet, syncGet, hba, if_true, if_false, Option.getD_some]
  cases fb b <;> rfl

/-- C10, the code at the failing input: the remote records bucket holds one
record for the parent account, the re-read inside `syncGet` fails, and the
write for the child account replaces the parent entry by the empty fallback
entry. -/
theorem updateSyncedPerAccount_failed_read_overwrites :
    heldEntries exHeld "parent" = some [exRecord] ∧
    (updateSyncedPerAccount (fun _ => storageGet exHeld true) 200 201
      SYNC_RECORDS "child" [exRecord2] recordsFallback).1 = SYNC_RECORDS ∧
    heldEntries (some (updateSyncedPerAccount (fun _ => storageGet exHeld true) 200 201
      SYNC_RECORDS "child" [exRecord2] recordsFallback).2) "child" = some [exRecord2] ∧
    heldEntries (some (updateSyncedPerAccount (fun _ => storageGet exHeld true) 200 201
      SYNC_RECORDS "child" [exRecord2] recordsFallback).2) "parent" = some [] ∧
    heldEntries (some (updateSyncedPerAccount (fun _ => storageGet exHeld false) 200 201
      SYNC_RECORDS "child" [exRecord2] recordsFallback).2) "parent" = some [exRecord] := by
  refine ⟨?_, ?_, ?_, ?_, ?_⟩ <;>
    simp [updateSyncedPerAccount, heldEntries, syncUnwrap, syncWrap, objSet, objSpread,
      storageGet, syncGet, exHeld, recordsFallback]

/-! ## Round trip of a push followed by a pull -/

theorem syncUnwrap_syncWrap {α : Type} (now : Nat) (v fb : α) :
    syncUnwrap (syncWrap now v) fb = v := rfl

/-- What `pull` makes of a bucket it reads as the envelope of `v`. -/
theorem syncGet_storageGet_wrap {α : Type} (now : Nat) (v fb : α) (fallback : Raw α) :
    syncUnwrap (syncGet (storageGet (some (syncWrap now v)) false) fallback) fb = v := by
  simp [storageGet, syncGet, syncWrap, syncUnwrap]

/-- C11: `syncUnwrap(syncWrap(v), fallback) = v` for every payload `v`; and
after a push of `v` that went through (`pushCustomSets`, `pushPriority`, or
`updateSyncedPerAccount` for the current account, on records and on review
state), a `pull` that reads the bucket back leaves `v` as the in-memory value
of that bucket, whatever the store held before and whatever the other reads
do. -/
theorem push_pull_roundtrip :
    (∀ (α : Type) (now : Nat) (v fb : α), syncUnwrap (syncWrap now v) fb = v) ∧
    (∀ (rem : Remote) (readFails lsOk : Bool) (now1 now2 : Nat) (v : List WordSet)
        (st : AppState) (fails : ReadFails),
      (pull (pushCustomSets rem readFails false now1 now2 (.value v) st).2
        { fails with custom := false } lsOk
        (pushCustomSets rem readFails false now1 now2 (.value v) st).1).customSets = v) ∧
    (∀ (rem : Remote) (readFails lsOk : Bool) (now1 now2 : Nat) (v : String → Option Int)
        (st : AppState) (fails : ReadFails),
      (pull (pushPriority rem readFails false now1 now2 (.value v) st).2
        { fails with priority := false } lsOk
        (pushPriority rem readFails false now1 now2 (.value v) st).1).builtinPriority = v) ∧
    (∀ (rem : Remote) (readFails lsOk : Bool) (now1 now2 : Nat) (v : List SessionRecord)
        (st : AppState) (fails : ReadFails),
      (pushRecords rem readFails false now1 now2 v st).2.records
        = some (updateSyncedPerAccount (fun _ => storageGet rem.records readFails) now1 now2
            SYNC_RECORDS st.account v recordsFallback).2 ∧
      (pull (pushRecords rem readFails false now1 now2 v st).2
        { fails with records := false } lsOk
        (pushRecords rem readFails false now1 now2 v st).1).records = v) ∧
    (∀ (rem : Remote) (readFails lsOk : Bool) (now1 now2 : Nat) (v : SrsMap)
        (st : AppState) (fails : ReadFails),
      (pushSrs rem readFails false now1 now2 v st).2.srs
        = some (updateSyncedPerAccount (fun _ => storageGet rem.srs readFails) now1 now2
            SYNC_SRS st.account v srsFallback).2 ∧
      (pull (pushSrs rem readFails false now1 now2 v st).2
        { fails with srs := false } lsOk
        (pushSrs rem readFails false now1 now2 v st).1).srs = v) := by
  refine ⟨fun _ _ _ _ => rfl, ?_, ?_, ?_, ?_⟩
  · intro rem readFails lsOk now1 now2 v st fails
    simp [pull, pushCustomSets, NextOrUpdater.resolve, storageGet, syncGet, syncWrap, syncUnwrap]
  · intro rem readFails lsOk now1 now2 v st fails
    simp [pull, pushPriority, NextOrUpdater.resolve, storageGet, syncGet, syncWrap, syncUnwrap]
  · intro rem readFails lsOk now1 now2 v st fails
    refine ⟨rfl, ?_⟩
    simp [pull, pushRecords, updateSyncedPerAccount, storageGet, syncGet, syncWrap, syncUnwrap,
      Raw.truthy, objSpread, objSet]
  · intro rem readFails lsOk now1 now2 v st fails
    refine ⟨rfl, ?_⟩
    simp [pull, pushSrs, updateSyncedPerAccount, storageGet, syncGet, syncWrap, syncUnwrap,
      Raw.truthy, objSpread, objSet]

/-! ## Failures of pull and of the push helpers -/

/-- The status after `pull` is `ok` and sync is ready, whichever reads fail. -/
theorem pull_status (rem : Remote) (fails : ReadFails) (lsOk : Bool) (st : AppState) :
    (pull rem fails lsOk st).syncStatus = .ok ∧ (pull rem fails lsOk st).syncReady = true :=
  ⟨rfl, rfl⟩

/-- When all four reads fail, `pull` empties the custom sets and the priority
overrides and takes records and review state from local storage. -/
theorem pull_all_reads_fail (rem : Remote) (lsOk : Bool) (st : AppState) :
    (pull rem ⟨true, true, true, true⟩ lsOk st).customSets = [] ∧
    (∀ k, (pull rem ⟨true, true, true, true⟩ lsOk st).builtinPriority k = none) ∧
    (pull rem ⟨true, true, true, true⟩ lsOk st).records
      = ((localByAcct st.localRecords []) st.account).getD [] ∧
    (pull rem ⟨true, true, true, true⟩ lsOk st).srs
      = ((localByAcct st.localSrs (fun _ => none)) st.account).getD (fun _ => none) := by
  simp [pull, storageGet, syncGet, syncUnwrap, Raw.truthy]

/-- C12, the code at the failing input: the state holds one custom set, all
four reads of `pull` fail; `pull` ends with status `ok` (not `error`), sync
ready, and no custom set left in memory. -/
theorem pull_failed_reads_example :
    exState.customSets = [exSetC] ∧
    (pull exRemote ⟨true, true, true, true⟩ true exState).syncStatus = .ok ∧
    (pull exRemote ⟨true, true, true, true⟩ true exState).syncStatus ≠ .error ∧
    (pull exRemote ⟨true, true, true, true⟩ true exState).syncReady = true ∧
    (pull exRemote ⟨true, true, true, true⟩ true exState).customSets = [] := by
  refine ⟨rfl, rfl, by decide, rfl, ?_⟩
  simp [pull, storageGet, syncGet, syncUnwrap]

/-- C13, the code at the failing input: `pushCustomSets([A])` on custom sets
`[C]`, and `pushPriority`, whose remote write fails, end with status `error`
and the in-memory value as it was, not as the update would have made it: the
state is set only after the awaited write.  The sibling `setRecords` applies
its update before the write, and after the same failure holds the updated
list. -/
theorem pushCustomSets_failed_write_example :
    (pushCustomSets exRemote false true 200 201 (.value [exSetA]) exState).1.syncStatus = .error ∧
    (pushCustomSets exRemote false true 200 201 (.value [exSetA]) exState).1.customSets
      = [exSetC] ∧
    (pushCustomSets exRemote false true 200 201 (.value [exSetA]) exState).1.customSets
      ≠ [exSetA] ∧
    (pushPriority exRemote false true 200 201 (.value (fun _ => some 2)) exState).1.syncStatus
      = .error ∧
    (pushPriority exRemote false true 200 201 (.value (fun _ => some 2)) exState).1.builtinPriority
      "a" = none ∧
    (setRecordsSynced exRemote false true true 200 201 (fun r => r ++ [exRecord])
      exState).1.syncStatus = .error ∧
    (setRecordsSynced exRemote false true true 200 201 (fun r => r ++ [exRecord])
      exState).1.records = [exRecord] := by
  refine ⟨rfl, rfl, ?_, rfl, rfl, rfl, rfl⟩
  simp only [pushCustomSets, exState, if_true]
  decide

/-- The local state after a failed push.  With sync ready, `setRecords` and
`setSrs` whose remote write fails end with status `error`, the in-memory value
equal to the update, the local storage entry of the account equal to it when
the local write went through, and the shared store untouched; `pushCustomSets`
and `pushPriority` whose remote write fails end with status `error` and leave
the in-memory value and the shared store as they were. -/
theorem failed_push_local_state (rem : Remote) (readFails lsOk : Bool) (now1 now2 : Nat)
    (st : AppState) (hready : st.syncReady = true) :
    (∀ v : List SessionRecord → List SessionRecord,
      (setRecordsSynced rem readFails true lsOk now1 now2 v st).1.syncStatus = .error ∧
      (setRecordsSynced rem readFails true lsOk now1 now2 v st).1.records = v st.records ∧
      (lsOk = true → (setRecordsSynced rem readFails true lsOk now1 now2 v st).1.localRecords
        st.account = some (v st.records)) ∧
      (setRecordsSynced rem readFails true lsOk now1 now2 v st).2 = rem) ∧
    (∀ v : SrsMap → SrsMap,
      (setSrsSynced rem readFails true lsOk now1 now2 v st).1.syncStatus = .error ∧
      (setSrsSynced rem readFails true lsOk now1 now2 v st).1.srs = v st.srs ∧
      (lsOk = true → (setSrsSynced rem readFails true lsOk now1 now2 v st).1.localSrs
        st.account = some (v st.srs)) ∧
      (setSrsSynced rem readFails true lsOk now1 now2 v st).2 = rem) ∧
    (∀ u : NextOrUpdater (List WordSet),
      (pushCustomSets rem readFails true now1 now2 u st).1.syncStatus = .error ∧
      (pushCustomSets rem readFails true now1 now2 u st).1.customSets = st.customSets ∧
      (pushCustomSets rem readFails true now1 now2 u st).2 = rem) ∧
    (∀ u : NextOrUpdater (String → Option Int),
      (pushPriority rem readFails true now1 now2 u st).1.syncStatus = .error ∧
      (pushPriority rem readFails true now1 now2 u st).1.builtinPriority = st.builtinPriority ∧
      (pushPriority rem readFails true now1 now2 u st).2 = rem) := by
  refine ⟨fun v => ?_, fun v => ?_, fun u => ⟨rfl, rfl, rfl⟩, fun u => ⟨rfl, rfl, rfl⟩⟩
  · refine ⟨?_, ?_, fun h => ?_, ?_⟩
    · simp [setRecordsSynced, setRecords, pushRecords, hready]
    · simp [setRecordsSynced, setRecords, pushRecords, hready]
    · simp [setRecordsSynced, setRecords, pushRecords, hready, lsSet, objSet, h]
    · simp [setRecordsSynced, setRecords, pushRecords, hready]
  · refine ⟨?_, ?_, fun h => ?_, ?_⟩
    · simp [setSrsSynced, setSrs, pushSrs, hready]
    · simp [setSrsSynced, setSrs, pushSrs, hready]
    · simp [setSrsSynced, setSrs, pushSrs, hready, lsSet, objSet, h]
    · simp [setSrsSynced, setSrs, pushSrs, hready]

/-- An instance of `failed_push_local_state` on the example state, which is
sync ready. -/
theorem failed_push_local_state_witness :
    (∀ v : List SessionRecord → List SessionRecord,
      (setRecordsSynced exRemote false true true 200 201 v exState).1.syncStatus = .error ∧
      (setRecordsSynced exRemote false true true 200 201 v exState).1.records
        = v exState.records ∧
      (true = true → (setRecordsSynced exRemote false true true 200 201 v exState).1.localRecords
        exState.account = some (v exState.records)) ∧
      (setRecordsSynced exRemote false true true 200 201 v exState).2 = exRemote) ∧
    (∀ v : SrsMap → SrsMap,
      (setSrsSynced exRemote false true true 200 201 v exState).1.syncStatus = .error ∧
      (setSrsSynced exRemote false true true 200 201 v exState).1.srs = v exState.srs ∧
      (true = true → (setSrsSynced exRemote false true true 200 201 v exState).1.localSrs
        exState.account = some (v exState.srs)) ∧
      (setSrsSynced exRemote false true true 200 201 v exState).2 = exRemote) ∧
    (∀ u : NextOrUpdater (List WordSet),
      (pushCustomSets exRemote false true 200 201 u exState).1.syncStatus = .error ∧
      (pushCustomSets exRemote false true 200 201 u exState).1.customSets
        = exState.customSets ∧
      (pushCustomSets exRemote false true 200 201 u exState).2 = exRemote) ∧
    (∀ u : NextOrUpdater (String → Option Int),
      (pushPriority exRemote false true 200 201 u exState).1.syncStatus = .error ∧
      (pushPriority exRemote false true 200 201 u exState).1.builtinPriority
        = exState.builtinPriority ∧
      (pushPriority exRemote false true 200 201 u exState).2 = exRemote) :=
  failed_push_local_state exRemote false true 200 201 exState rfl

/-! ## Authorization of word-set writes -/

/-- C14: for a word set whose owner is `shared` or absent and a role other
than parent, `addWordSet` and `deleteWordSet` throw and leave the component
state, local storage and both collections as they were, online and offline,
whatever the outcome a write would have had. -/
theorem shared_write_rejected (ws : FsWordSet) (userId : Option String) (st : WordSetsState)
    (hown : jsOr ws.owner "shared" = "shared") (hrole : st.role ≠ some "parent") :
    (∀ (nowId nowCreated serverTime : Nat) (rnd : String) (writeFails lsOk : Bool),
      addWordSet nowId nowCreated serverTime rnd writeFails lsOk ws userId st
        = (st, .error "Only parent can write shared sets.")) ∧
    (∀ (writeFails lsOk : Bool),
      deleteWordSet writeFails lsOk ws userId st
        = (st, .error "Only parent can delete shared sets.")) := by
  constructor
  · intro nowId nowCreated serverTime rnd writeFails lsOk
    unfold addWordSet
    simp only [hown, true_and]
    rw [if_pos hrole]
  · intro writeFails lsOk
    unfold deleteWordSet
    simp only [hown, true_and]
    rw [if_pos hrole]

/-- Witness of C14: a child and a shared set, offline. -/
theorem shared_write_rejected_witness :
    (∀ (nowId nowCreated serverTime : Nat) (rnd : String) (writeFails lsOk : Bool),
      addWordSet nowId nowCreated serverTime rnd writeFails lsOk exFsShared none exChildOffline
        = (exChildOffline, .error "Only parent can write shared sets.")) ∧
    (∀ (writeFails lsOk : Bool),
      deleteWordSet writeFails lsOk exFsShared none exChildOffline
        = (exChildOffline, .error "Only parent can delete shared sets.")) :=
  shared_write_rejected exFsShared none exChildOffline (by decide) (by decide)

/-- The owner check of `addWordSet` covers an absent owner. -/
theorem jsOr_absent_owner : jsOr none "shared" = "shared" ∧ jsOr (some "") "shared" = "shared" :=
  ⟨rfl, rfl⟩

/-- In online mode the loop of `bulkAddWordSets` throws when one of the sets
is shared-owned and the role is not parent. -/
theorem bulkBatch_rejects (now serverTime : Nat) (rnd : Nat → String) (role : Option String)
    (userId : Option String) (hrole : role ≠ some "parent") :
    ∀ (sets : List FsWordSet) (i : Nat) (acc : List (String × FsWordSet)),
      (∃ ws ∈ sets, jsOr ws.owner "shared" = "shared") →
      bulkBatch now serverTime rnd role userId i sets acc
        = .error "Only parent can write shared sets." := by
  intro sets
  induction sets with
  | nil => intro i acc h; obtain ⟨ws, hws, _⟩ := h; cases hws
  | cons a rest ih =>
    intro i acc h
    unfold bulkBatch
    by_cases ha : jsOr a.owner "shared" = "shared"
    · rw [if_pos ⟨ha, hrole⟩]
    · rw [if_neg (fun hc => ha hc.1)]
      apply ih
      obtain ⟨ws, hws, hsh⟩ := h
      rcases List.mem_cons.mp hws with rfl | hmem
      · exact absurd hsh ha
      · exact ⟨ws, hmem, hsh⟩

/-- In online mode `bulkAddWordSets` with a shared-owned set and a role other
than parent throws and changes nothing. -/
theorem bulkAddWordSets_online_rejected (nowId nowCreated : Nat → Nat) (now serverTime : Nat)
    (rnd : Nat → String) (writeFails lsOk : Bool) (sets : List FsWordSet)
    (userId : Option String) (st : WordSetsState)
    (hshared : ∃ ws ∈ sets, jsOr ws.owner "shared" = "shared")
    (hrole : st.role ≠ some "parent") (hon : (jsNot userId || st.isOffline) = false) :
    bulkAddWordSets nowId nowCreated now serverTime rnd writeFails lsOk sets userId st
      = (st, .error "Only parent can write shared sets.") := by
  have hne : sets.length ≠ 0 := by
    obtain ⟨ws, hws, _⟩ := hshared
    exact List.length_pos.mpr (List.ne_nil_of_mem hws) |>.ne'
  unfold bulkAddWordSets
  rw [if_neg hne, hon]
  simp only [Bool.false_eq_true, if_false]
  rw [bulkBatch_rejects now serverTime rnd st.role userId hrole sets 0 [] hshared]

/-- C15, the code at the failing input: a signed-in child, offline, adds a
list with one shared-owned set; `bulkAddWordSets` returns without an error and the set is in
the word-set list and in local storage. -/
theorem bulkAddWordSets_offline_example :
    exChildOffline.role ≠ some "parent" ∧ jsOr exFsShared.owner "shared" = "shared" ∧
    (bulkAddWordSets (fun _ => 7) (fun _ => 8) 7 9 (fun _ => "ab") false true
        [exFsShared] (some "kid1") exChildOffline).2 = .ok () ∧
    (bulkAddWordSets (fun _ => 7) (fun _ => 8) 7 9 (fun _ => "ab") false true
        [exFsShared] (some "kid1") exChildOffline).1.wordSets
      = [{ exFsShared with id := "ws_7_ab", createdAt := some 8 }] ∧
    (bulkAddWordSets (fun _ => 7) (fun _ => 8) 7 9 (fun _ => "ab") false true
        [exFsShared] (some "kid1") exChildOffline).1.localSets "es_wordSets_kid1"
      = some [{ exFsShared with id := "ws_7_ab", createdAt := some 8 }] := by
  refine ⟨by decide, rfl, rfl, ?_, ?_⟩
  · decide
  · decide

/-! ## The resolved catalog -/

theorem allSets_seed_part (seed : List WordSet) (overrides : String → Option Int) :
    (seed.map (fun s => { s with priority := (overrides s.id).getD s.priority })).filter
        (fun s : WordSet => decide ((0 : Int) ≤ s.priority))
      = seed.filterMap (fun s =>
          match overrides s.id with
          | some o => if o < (0 : Int) then none else some { s with priority := o }
          | none => if s.priority < (0 : Int) then none else some s) := by
  induction seed with
  | nil => rfl
  | cons a rest ih =>
    rw [List.map_cons, List.filter_cons, List.filterMap_cons, ih]
    cases h : overrides a.id with
    | none =>
      by_cases hp : a.priority < 0
      · simp [h, hp]
      · simp [h, hp, not_lt.mp hp]
    | some o =>
      by_cases hp : o < 0
      · simp [h, hp]
      · simp [h, hp, not_lt.mp hp]

/-- C16: once sync is ready, `allSets` is the seed sets in order, each with
its priority replaced by the override when there is one, without those whose
resulting priority is negative, followed by the custom sets unchanged; so the
catalog splits into a seed-derived part followed by exactly the custom sets. -/
theorem allSets_resolves (seed : List WordSet) (overrides : String → Option Int)
    (custom : List WordSet) :
    allSets true seed overrides custom = resolveSpec seed overrides custom ∧
    ∃ derived : List WordSet, allSets true seed overrides custom = derived ++ custom ∧
      ∀ d ∈ derived, 0 ≤ d.priority ∧
        ∃ s ∈ seed, d = { s with priority := (overrides s.id).getD s.priority } := by
  constructor
  · unfold allSets resolveSpec
    rw [if_pos rfl, allSets_seed_part]
  · refine ⟨_, by unfold allSets; rw [if_pos rfl], ?_⟩
    intro d hd
    rw [List.mem_filter, List.mem_map] at hd
    obtain ⟨⟨s, hs, rfl⟩, hp⟩ := hd
    exact ⟨by simpa using hp, s, hs, rfl⟩

/-! ## Pruning of session records -/

theorem newRecords_date (dateStr : String) (hist : List HistEntry) :
    ∀ x ∈ newRecords dateStr hist, x.date = dateStr := by
  intro x hx
  unfold newRecords at hx
  obtain ⟨e, _, rfl⟩ := List.mem_map.mp hx
  rfl

theorem saveRecord_records {D : Type} (api : DateApi D) (now : D) (lsOk : Bool)
    (hist : List HistEntry) (st : AppState) :
    (saveRecord api now lsOk hist st).1.records
      = st.records.filter
          (fun x => decide (addDays api (todayStr api now) (-MAX_DAYS) < x.date))
        ++ newRecords (todayStr api now) hist := rfl

/-- What `saveRecord` keeps when `addDays` is right.  Let `dayNum` number the
days of the calendar, and suppose the cutoff `addDays(t, -365)` is 365 days
before today `t` and string order agrees with `dayNum` on the dates of the
earlier records.  Then after `saveRecord` the record list holds no record dated
365 or more days before `t`; it is the earlier records dated inside the window,
in their original order, followed by the newly aggregated records of the
session, each dated `t`. -/
theorem saveRecord_prunes {D : Type} (api : DateApi D) (now : D) (lsOk : Bool)
    (hist : List HistEntry) (st : AppState) (dayNum : String → Int)
    (hcut : dayNum (addDays api (todayStr api now) (-MAX_DAYS))
      = dayNum (todayStr api now) - 365)
    (hord : ∀ x ∈ st.records,
      (addDays api (todayStr api now) (-MAX_DAYS) < x.date
        ↔ dayNum (addDays api (todayStr api now) (-MAX_DAYS)) < dayNum x.date)) :
    (∀ x ∈ (saveRecord api now lsOk hist st).1.records,
      dayNum (todayStr api now) - dayNum x.date < 365) ∧
    (saveRecord api now lsOk hist st).1.records
      = st.records.filter (fun x => decide (dayNum (todayStr api now) - dayNum x.date < 365))
        ++ newRecords (todayStr api now) hist ∧
    (∀ x ∈ newRecords (todayStr api now) hist, x.date = todayStr api now) := by
  have hfilter : st.records.filter
        (fun x => decide (addDays api (todayStr api now) (-MAX_DAYS) < x.date))
      = st.records.filter
        (fun x => decide (dayNum (todayStr api now) - dayNum x.date < 365)) := by
    apply List.filter_congr
    intro x hx
    have h := hord x hx
    rw [hcut] at h
    by_cases hc : addDays api (todayStr api now) (-MAX_DAYS) < x.date
    · have h2 := h.mp hc
      have h3 : dayNum (todayStr api now) - dayNum x.date < 365 := by omega
      simp [hc, h3]
    · have h2 : ¬ (dayNum (todayStr api now) - 365 < dayNum x.date) := fun hh => hc (h.mpr hh)
      have h3 : ¬ (dayNum (todayStr api now) - dayNum x.date < 365) := by omega
      simp [hc, h3]
  refine ⟨?_, ?_, newRecords_date _ hist⟩
  · intro x hx
    rw [saveRecord_records, hfilter, List.mem_append] at hx
    rcases hx with hx | hx
    · have := (List.mem_filter.mp hx).2
      simpa using this
    · rw [newRecords_date _ hist x hx]
      omega
  · rw [saveRecord_records, hfilter]

theorem exCalendar_dates :
    todayStr exCalendar 740229 = "2026-11-04" ∧
    addDays exCalendar "2026-11-04" (-MAX_DAYS) = "2025-11-04" ∧
    ("2025-11-04" < "2026-11-03") ∧ ("2025-11-04" < "2026-11-04") ∧
    ¬ ("2025-11-04" < "2025-10-01") := by
  refine ⟨by decide, by decide, ?_, ?_, ?_⟩
  · rw [String.lt_iff_toList_lt]; decide
  · rw [String.lt_iff_toList_lt]; decide
  · rw [String.lt_iff_toList_lt]; decide

/-- An instance of `saveRecord_prunes`: the Gregorian calendar without time
zones, today 2026-11-04, three earlier records of which the one of 2025-10-01
is outside the window. -/
theorem saveRecord_prunes_witness :
    (∀ x ∈ (saveRecord exCalendar 740229 true exHist exStateRecords).1.records,
      ((dayNumOf (todayStr exCalendar 740229) : Nat) : Int) - ((dayNumOf x.date : Nat) : Int)
        < 365) ∧
    (saveRecord exCalendar 740229 true exHist exStateRecords).1.records
      = exStateRecords.records.filter (fun x => decide
          (((dayNumOf (todayStr exCalendar 740229) : Nat) : Int) - ((dayNumOf x.date : Nat) : Int)
            < 365))
        ++ newRecords (todayStr exCalendar 740229) exHist ∧
    (∀ x ∈ newRecords (todayStr exCalendar 740229) exHist,
      x.date = todayStr exCalendar 740229) :=
  saveRecord_prunes exCalendar 740229 true exHist exStateRecords
    (fun s => ((dayNumOf s : Nat) : Int))
    (by
      rw [exCalendar_dates.1, exCalendar_dates.2.1]
      decide)
    (by
      obtain ⟨h1, h2, h3, h4, h5⟩ := exCalendar_dates
      intro x hx
      rw [h1, h2]
      have hx2 : x = exRecordOld ∨ x = exRecord ∨ x = exRecord2 := by
        simpa [exStateRecords] using hx
      rcases hx2 with rfl | rfl | rfl
      · exact ⟨fun h => absurd h h5, fun h => absurd h (by decide)⟩
      · exact ⟨fun _ => by decide, fun _ => h3⟩
      · exact ⟨fun _ => by decide, fun _ => h4⟩)

/-- C17, the code at the failing input: in the zone America/Los_Angeles
`saveRecord` runs on 2026-11-02 (at 12:00Z) over a list that holds one record
dated 2025-11-02, which is 365 days before today.  The cutoff
`addDays("2026-11-02", -365)` is 2025-11-01, a day early (`new Date(date)` is
midnight UTC, the day is subtracted in local time across the end of daylight
time, and the result is formatted in UTC), so the record is kept; in the zone
UTC the cutoff is 2025-11-02 and the record is dropped.  The list ends with the
two records aggregated from the history. -/
theorem saveRecord_cutoff_example :
    todayStr (jsDate losAngeles) 1793620800000 = "2026-11-02" ∧
    ((dayNumOf "2026-11-02" : Nat) : Int) - ((dayNumOf exRecordYearOld.date : Nat) : Int) = 365 ∧
    addDays (jsDate losAngeles) "2026-11-02" (-MAX_DAYS) = "2025-11-01" ∧
    (saveRecord (jsDate losAngeles) 1793620800000 true exHist exStateYearOld).1.records
      = [exRecordYearOld,
          { date := "2026-11-02", mode := "chunk", sets := 1, correct := 2, words := 2 },
          { date := "2026-11-02", mode := "cvc", sets := 1, correct := 1, words := 3 }] ∧
    addDays (jsDate utcZone) "2026-11-02" (-MAX_DAYS) = "2025-11-02" ∧
    (saveRecord (jsDate utcZone) 1793620800000 true exHist exStateYearOld).1.records
      = [{ date := "2026-11-02", mode := "chunk", sets := 1, correct := 2, words := 2 },
          { date := "2026-11-02", mode := "cvc", sets := 1, correct := 1, words := 3 }] := by
  have h1 : todayStr (jsDate losAngeles) 1793620800000 = "2026-11-02" := by decide
  have h1u : todayStr (jsDate utcZone) 1793620800000 = "2026-11-02" := by decide
  have h2 : addDays (jsDate losAngeles) "2026-11-02" (-MAX_DAYS) = "2025-11-01" := by decide
  have h3 : addDays (jsDate utcZone) "2026-11-02" (-MAX_DAYS) = "2025-11-02" := by decide
  have hlt : "2025-11-01" < "2025-11-02" := by
    rw [String.lt_iff_toList_lt]
    decide
  have hnew : newRecords "2026-11-02" exHist
      = [{ date := "2026-11-02", mode := "chunk", sets := 1, correct := 2, words := 2 },
          { date := "2026-11-02", mode := "cvc", sets := 1, correct := 1, words := 3 }] := by
    decide
  refine ⟨h1, by decide, h2, ?_, h3, ?_⟩
  · rw [saveRecord_records, h1, h2, hnew]
    have hf : exStateYearOld.records.filter (fun x => decide ("2025-11-01" < x.date))
        = [exRecordYearOld] :=
      List.filter_cons_of_pos (by
        rw [decide_eq_true_eq]
        exact hlt)
    rw [hf]
    rfl
  · rw [saveRecord_records, h1u, h3, hnew]
    have hf : exStateYearOld.records.filter (fun x => decide ("2025-11-02" < x.date)) = [] :=
      List.filter_cons_of_neg (by
        rw [decide_eq_true_eq]
        exact lt_irrefl _)
    rw [hf]
    rfl

/-! ## Rounding to the nearest double -/

theorem roundHalfEven_floor_le (r : ℚ) : ⌊r⌋ ≤ roundHalfEven r := by
  unfold roundHalfEven
  split_ifs <;> omega

theorem roundHalfEven_le_floor_succ (r : ℚ) : roundHalfEven r ≤ ⌊r⌋ + 1 := by
  unfold roundHalfEven
  split_ifs <;> omega

theorem roundHalfEven_intCast (n : Int) : roundHalfEven (n : ℚ) = n := by
  unfold roundHalfEven
  simp

theorem roundHalfEven_mono {r s : ℚ} (h : r ≤ s) : roundHalfEven r ≤ roundHalfEven s := by
  have hf : ⌊r⌋ ≤ ⌊s⌋ := Int.floor_mono h
  rcases lt_or_eq_of_le hf with hlt | heq
  · calc roundHalfEven r ≤ ⌊r⌋ + 1 := roundHalfEven_le_floor_succ r
      _ ≤ ⌊s⌋ := hlt
      _ ≤ roundHalfEven s := roundHalfEven_floor_le s
  · unfold roundHalfEven
    rw [heq]
    have hd : r - ⌊s⌋ ≤ s - ⌊s⌋ := by linarith
    split_ifs <;> first | omega | (exfalso; linarith)

theorem roundHalfEven_sub_le (r : ℚ) : (r : ℚ) - 1 / 2 ≤ roundHalfEven r := by
  have h1 := Int.floor_le r
  have h2 := Int.lt_floor_add_one r
  unfold roundHalfEven
  split_ifs with ha hb hc
  · linarith
  · push_cast
    linarith
  · push_neg at ha hb
    linarith
  · push_cast
    linarith

theorem roundHalfEven_eq_of_near (r : ℚ) (n : Int) (h1 : (n : ℚ) - 1 / 2 < r)
    (h2 : r < n + 1 / 2) : roundHalfEven r = n := by
  rcases le_or_lt (n : ℚ) r with h | h
  · have hf : ⌊r⌋ = n := Int.floor_eq_iff.mpr ⟨h, by linarith⟩
    unfold roundHalfEven
    rw [hf, if_pos (by linarith)]
  · have hf : ⌊r⌋ = n - 1 := Int.floor_eq_iff.mpr ⟨by push_cast; linarith, by push_cast; linarith⟩
    unfold roundHalfEven
    rw [hf, if_neg (by push_cast; linarith), if_pos (by push_cast; linarith)]
    omega

theorem ulpExp_mono {x y : ℚ} (hx : 0 < x) (h : x ≤ y) : ulpExp x ≤ ulpExp y := by
  unfold ulpExp
  exact max_le_max (by have := Int.log_mono_right (b := 2) hx h; omega) le_rfl

theorem two_zpow_pos (k : Int) : (0 : ℚ) < 2 ^ k := zpow_pos (by norm_num) k

theorem roundPos_nonneg {x : ℚ} (hx : 0 ≤ x) : 0 ≤ roundPos x := by
  unfold roundPos
  apply mul_nonneg _ (two_zpow_pos _).le
  have h0 : (0 : ℚ) ≤ x / 2 ^ ulpExp x := div_nonneg hx (two_zpow_pos _).le
  have := roundHalfEven_mono h0
  rw [show (0 : ℚ) = ((0 : Int) : ℚ) by norm_num, roundHalfEven_intCast] at this
  exact_mod_cast this

theorem two_zpow_add_nat (k : Int) (n : ℕ) : (2 : ℚ) ^ (k + (n : Int)) = 2 ^ n * 2 ^ k := by
  rw [zpow_add₀ (by norm_num), zpow_natCast, mul_comm]

theorem roundPos_le_pow (x : ℚ) : roundPos x ≤ 2 ^ (ulpExp x + 53) := by
  have hq := two_zpow_pos (ulpExp x)
  have hlt : x < 2 ^ (Int.log 2 x + 1) := Int.lt_zpow_succ_log_self (by norm_num) x
  have hle : (2 : ℚ) ^ (Int.log 2 x + 1) ≤ 2 ^ (ulpExp x + 53) := by
    apply zpow_le_zpow_right₀ (by norm_num)
    unfold ulpExp
    have := le_max_left (Int.log 2 x - 52) (-1074)
    omega
  have hsplit : (2 : ℚ) ^ (ulpExp x + 53) = 2 ^ (53 : ℕ) * 2 ^ ulpExp x :=
    two_zpow_add_nat (ulpExp x) 53
  have hcast : ((2 ^ 53 : Int) : ℚ) = (2 : ℚ) ^ (53 : ℕ) := by norm_num
  have hdiv : x / 2 ^ ulpExp x ≤ ((2 ^ 53 : Int) : ℚ) := by
    rw [hcast, div_le_iff₀ hq, ← hsplit]
    linarith
  have := roundHalfEven_mono hdiv
  rw [roundHalfEven_intCast] at this
  unfold roundPos
  rw [hsplit, ← hcast]
  apply mul_le_mul_of_nonneg_right _ hq.le
  exact_mod_cast this

theorem pow_log_le_roundPos {x : ℚ} (hx : 0 < x) (hn : -1074 < Int.log 2 x - 52) :
    2 ^ Int.log 2 x ≤ roundPos x := by
  have he : ulpExp x = Int.log 2 x - 52 := by
    unfold ulpExp
    exact max_eq_left hn.le
  have hq := two_zpow_pos (ulpExp x)
  have hle : (2 : ℚ) ^ Int.log 2 x ≤ x := Int.zpow_log_le_self (by norm_num) hx
  have hsplit : (2 : ℚ) ^ Int.log 2 x = 2 ^ (52 : ℕ) * 2 ^ ulpExp x := by
    rw [← two_zpow_add_nat (ulpExp x) 52, he]
    congr 1
    push_cast
    ring
  have hcast : ((2 ^ 52 : Int) : ℚ) = (2 : ℚ) ^ (52 : ℕ) := by norm_num
  have hdiv : ((2 ^ 52 : Int) : ℚ) ≤ x / 2 ^ ulpExp x := by
    rw [hcast, le_div_iff₀ hq, ← hsplit]
    exact hle
  have := roundHalfEven_mono hdiv
  rw [roundHalfEven_intCast] at this
  unfold roundPos
  rw [hsplit, ← hcast]
  apply mul_le_mul_of_nonneg_right _ hq.le
  exact_mod_cast this

theorem roundPos_mono {x y : ℚ} (hx : 0 ≤ x) (h : x ≤ y) : roundPos x ≤ roundPos y := by
  rcases eq_or_lt_of_le hx with h0 | hpos
  · rw [← h0]
    have : roundPos 0 = 0 := by simp [roundPos, roundHalfEven]
    rw [this]
    exact roundPos_nonneg (hx.trans h)
  · have hy : 0 < y := lt_of_lt_of_le hpos h
    rcases eq_or_lt_of_le (ulpExp_mono hpos h) with he | hlt
    · unfold roundPos
      rw [← he]
      apply mul_le_mul_of_nonneg_right _ (two_zpow_pos _).le
      have := roundHalfEven_mono (div_le_div_of_nonneg_right h (two_zpow_pos (ulpExp x)).le)
      exact_mod_cast this
    · have hx1 : -1074 ≤ ulpExp x := le_max_right _ _
      have hyn : -1074 < Int.log 2 y - 52 := by
        by_contra hc
        have : ulpExp y = -1074 := by
          unfold ulpExp
          exact max_eq_right (not_lt.mp hc)
        omega
      have hey : ulpExp y = Int.log 2 y - 52 := by
        unfold ulpExp
        exact max_eq_left hyn.le
      calc roundPos x ≤ 2 ^ (ulpExp x + 53) := roundPos_le_pow x
        _ ≤ 2 ^ Int.log 2 y := zpow_le_zpow_right₀ (by norm_num) (by omega)
        _ ≤ roundPos y := pow_log_le_roundPos hy hyn

theorem fl_mono {x y : ℚ} (h : x ≤ y) : fl x ≤ fl y := by
  unfold fl
  by_cases hx : 0 ≤ x
  · rw [if_pos hx, if_pos (hx.trans h)]
    exact roundPos_mono hx h
  · rw [if_neg hx]
    push_neg at hx
    by_cases hy : 0 ≤ y
    · rw [if_pos hy]
      have := roundPos_nonneg (neg_nonneg.mpr hx.le)
      have := roundPos_nonneg hy
      linarith
    · rw [if_neg hy]
      push_neg at hy
      have := roundPos_mono (neg_nonneg.mpr hy.le) (neg_le_neg h)
      linarith

theorem fl_zero : fl 0 = 0 := by
  simp [fl, roundPos, roundHalfEven]

theorem fl_nonneg {x : ℚ} (hx : 0 ≤ x) : 0 ≤ fl x := by
  have := fl_mono hx
  rwa [fl_zero] at this

/-- The double nearest to `x > 0`, given the exponent `e` of `x` and the
integer `n` nearest to `x / 2^(e-52)`. -/
theorem fl_eq_of_near (x : ℚ) (e n : Int) (h1 : (2 : ℚ) ^ e ≤ x) (h2 : x < 2 ^ (e + 1))
    (he : -1022 ≤ e) (hlo : (n : ℚ) - 1 / 2 < x / 2 ^ (e - 52))
    (hhi : x / 2 ^ (e - 52) < n + 1 / 2) : fl x = n * 2 ^ (e - 52) := by
  have hx : 0 < x := lt_of_lt_of_le (two_zpow_pos e) h1
  have hlog : Int.log 2 x = e := by
    apply le_antisymm
    · have := (Int.lt_zpow_iff_log_lt (b := 2) (by norm_num) hx).mp (by exact_mod_cast h2)
      omega
    · exact (Int.zpow_le_iff_le_log (b := 2) (by norm_num) hx).mp (by exact_mod_cast h1)
  have hu : ulpExp x = e - 52 := by
    unfold ulpExp
    rw [hlog]
    exact max_eq_left (by omega)
  unfold fl roundPos
  rw [if_pos hx.le, hu, roundHalfEven_eq_of_near _ n hlo hhi]

theorem fl_lower {x : ℚ} (hx : 1 ≤ x) : x * (1 - 1 / 2 ^ 53) ≤ fl x := by
  have hpos : 0 < x := by linarith
  have hlog : 0 ≤ Int.log 2 x :=
    (Int.zpow_le_iff_le_log (b := 2) (x := 0) (by norm_num) hpos).mp (by simpa using hx)
  have hu : ulpExp x = Int.log 2 x - 52 := by
    unfold ulpExp
    exact max_eq_left (by omega)
  have hq := two_zpow_pos (ulpExp x)
  have hle : (2 : ℚ) ^ Int.log 2 x ≤ x := Int.zpow_log_le_self (by norm_num) hpos
  have hqx : (2 : ℚ) ^ (52 : ℕ) * 2 ^ ulpExp x ≤ x := by
    rw [← two_zpow_add_nat (ulpExp x) 52, hu]
    have : Int.log 2 x - 52 + ((52 : ℕ) : Int) = Int.log 2 x := by
      push_cast
      ring
    rw [this]
    exact hle
  have hr := roundHalfEven_sub_le (x / 2 ^ ulpExp x)
  unfold fl roundPos
  rw [if_pos hpos.le]
  have h3 : (x / 2 ^ ulpExp x - 1 / 2) * 2 ^ ulpExp x
      ≤ (roundHalfEven (x / 2 ^ ulpExp x) : ℚ) * 2 ^ ulpExp x :=
    mul_le_mul_of_nonneg_right hr hq.le
  have h4 : (x / 2 ^ ulpExp x - 1 / 2) * 2 ^ ulpExp x = x - 2 ^ ulpExp x / 2 := by
    field_simp
    ring
  rw [h4] at h3
  have h5 : (2 : ℚ) ^ ulpExp x / 2 ≤ x / 2 ^ 53 := by
    rw [div_le_div_iff₀ (by norm_num) (by positivity)]
    calc (2 : ℚ) ^ ulpExp x * 2 ^ 53 = (2 ^ (52 : ℕ) * 2 ^ ulpExp x) * 2 := by ring
      _ ≤ x * 2 := by linarith
  have h6 : x * (1 - 1 / 2 ^ 53) = x - x / 2 ^ 53 := by ring
  rw [h6]
  linarith

theorem fl_three_tenths : fl (3 / 10) = 5404319552844595 / 2 ^ 54 := by
  rw [fl_eq_of_near (3 / 10) (-2) 5404319552844595 (by norm_num) (by norm_num) (by norm_num)
    (by norm_num) (by norm_num)]
  norm_num

theorem fl_six_tenths : fl (6 / 10) = 5404319552844595 / 2 ^ 53 := by
  rw [fl_eq_of_near (6 / 10) (-1) 5404319552844595 (by norm_num) (by norm_num) (by norm_num)
    (by norm_num) (by norm_num)]
  norm_num

theorem fl_one_tenth : fl (1 / 10) = 7205759403792794 / 2 ^ 56 := by
  rw [fl_eq_of_near (1 / 10) (-4) 7205759403792794 (by norm_num) (by norm_num) (by norm_num)
    (by norm_num) (by norm_num)]
  norm_num

theorem fl_thirteen_tenths : fl (13 / 10) = 5854679515581645 / 2 ^ 52 := by
  rw [fl_eq_of_near (13 / 10) 0 5854679515581645 (by norm_num) (by norm_num) (by norm_num)
    (by norm_num) (by norm_num)]
  norm_num

theorem fl_five_halves : fl (5 / 2) = 5 / 2 := by
  rw [fl_eq_of_near (5 / 2) 1 5629499534213120 (by norm_num) (by norm_num) (by norm_num)
    (by norm_num) (by norm_num)]
  norm_num

/-! ## Properties of the interval policy -/

/-- The arguments `(150, 1.375, 0.75)`: the exact product `150 * 1.39` is
208.5, the product of the doubles is the double just below it, and
`Math.round` gives 208. -/
theorem calcNextInterval_example :
    calcNextInterval 150 (11 / 8) (3 / 4)
      = { interval := 208, easeFactor := 6260003482044989 / 2 ^ 52 } := by
  have ha : fl (3 / 4 - 5404319552844595 / 2 ^ 53) = 5404319552844596 / 2 ^ 55 := by
    rw [fl_eq_of_near _ (-3) 5404319552844596 (by norm_num) (by norm_num) (by norm_num)
      (by norm_num) (by norm_num)]
    norm_num
  have hb : fl (7205759403792794 / 2 ^ 56 * (5404319552844596 / 2 ^ 55))
      = 8646911284551354 / 2 ^ 59 := by
    rw [fl_eq_of_near _ (-7) 8646911284551354 (by norm_num) (by norm_num) (by norm_num)
      (by norm_num) (by norm_num)]
    norm_num
  have hd : fl (11 / 8 + 8646911284551354 / 2 ^ 59) = 6260003482044989 / 2 ^ 52 := by
    rw [fl_eq_of_near _ 0 6260003482044989 (by norm_num) (by norm_num) (by norm_num)
      (by norm_num) (by norm_num)]
    norm_num
  have hp : fl (((150 : Int) : ℚ) * (6260003482044989 / 2 ^ 52))
      = 7335941580521471 / 2 ^ 45 := by
    rw [fl_eq_of_near _ 7 7335941580521471 (by norm_num) (by norm_num) (by norm_num)
      (by norm_num) (by norm_num)]
    norm_num
  have hmin : min (5 / 2 : ℚ) (6260003482044989 / 2 ^ 52) = 6260003482044989 / 2 ^ 52 :=
    min_eq_right (by norm_num)
  have hr : jsRound (7335941580521471 / 2 ^ 45) = 208 := by
    unfold jsRound
    rw [Int.floor_eq_iff]
    constructor <;> norm_num
  unfold calcNextInterval
  rw [fl_three_tenths, fl_six_tenths, fl_one_tenth, if_neg (by norm_num), if_neg (by norm_num)]
  simp only [ha, hb, hd, hmin, hp, hr]
  simp

/-- C18: `calcNextInterval` returns interval 1 and ease `max(1.3, ease-0.2)`
when `score < 0.3`; interval `max(1, floor(interval*0.8))` and ease
`max(1.3, ease-0.1)` when `0.3 <= score < 0.6`; and when `score >= 0.6` the
ease `newEase = min(2.5, ease + 0.1*(score-0.6))` with interval 1 after
interval 0, 3 after interval 1, and `round(interval*newEase)` otherwise.  The
literals are doubles and every operation rounds to the nearest double
(`fl`). -/
theorem calcNextInterval_cases (interval : Int) (ease score : ℚ) :
    (score < fl (3 / 10) →
      calcNextInterval interval ease score
        = { interval := 1, easeFactor := max (fl (13 / 10)) (fl (ease - fl (2 / 10))) }) ∧
    (fl (3 / 10) ≤ score ∧ score < fl (6 / 10) →
      calcNextInterval interval ease score
        = { interval := max 1 ⌊fl ((interval : ℚ) * fl (8 / 10))⌋,
            easeFactor := max (fl (13 / 10)) (fl (ease - fl (1 / 10))) }) ∧
    (fl (6 / 10) ≤ score →
      (calcNextInterval interval ease score).easeFactor
        = min (5 / 2) (fl (ease + fl (fl (1 / 10) * fl (score - fl (6 / 10))))) ∧
      (interval = 0 → (calcNextInterval interval ease score).interval = 1) ∧
      (interval = 1 → (calcNextInterval interval ease score).interval = 3) ∧
      (interval ≠ 0 ∧ interval ≠ 1 → (calcNextInterval interval ease score).interval
        = jsRound (fl ((interval : ℚ)
            * min (5 / 2) (fl (ease + fl (fl (1 / 10) * fl (score - fl (6 / 10))))))))) ∧
    (calcNextInterval 150 (11 / 8) (3 / 4)).interval = 208 := by
  refine ⟨fun h => ?_, fun h => ?_, fun h => ?_, ?_⟩
  · unfold calcNextInterval
    rw [if_pos h]
  · unfold calcNextInterval
    rw [if_neg (not_lt.mpr h.1), if_pos h.2]
  · have h36 : fl (3 / 10) ≤ fl (6 / 10) := fl_mono (by norm_num)
    have h3 : ¬ score < fl (3 / 10) := not_lt.mpr (h36.trans h)
    have h6 : ¬ score < fl (6 / 10) := not_lt.mpr h
    unfold calcNextInterval
    rw [if_neg h3, if_neg h6]
    refine ⟨rfl, fun h0 => ?_, fun h1 => ?_, fun hne => ?_⟩
    · simp [h0]
    · simp [h1]
    · simp [hne.1, hne.2]
  · rw [calcNextInterval_example]

theorem newEase_lower (ease score : ℚ) (h1 : 13 / 10 ≤ ease) (h6 : ¬ score < fl (6 / 10)) :
    fl (13 / 10) ≤ min (5 / 2) (fl (ease + fl (fl (1 / 10) * fl (score - fl (6 / 10))))) := by
  have hd : 0 ≤ fl (score - fl (6 / 10)) := fl_nonneg (by linarith [not_lt.mp h6])
  have hc : 0 ≤ fl (1 / 10 : ℚ) := fl_nonneg (by norm_num)
  have hb : 0 ≤ fl (fl (1 / 10) * fl (score - fl (6 / 10))) := fl_nonneg (mul_nonneg hc hd)
  have h13u : fl (13 / 10) ≤ (5 / 2 : ℚ) := by
    rw [fl_thirteen_tenths]
    norm_num
  refine le_min h13u (fl_mono ?_)
  linarith

theorem newEase_range (ease score : ℚ) (h1 : 13 / 10 ≤ ease) (h6 : ¬ score < fl (6 / 10)) :
    13 / 10 ≤ min (5 / 2) (fl (ease + fl (fl (1 / 10) * fl (score - fl (6 / 10))))) := by
  have hd : 0 ≤ fl (score - fl (6 / 10)) := fl_nonneg (by linarith [not_lt.mp h6])
  have hc : 0 ≤ fl (1 / 10 : ℚ) := fl_nonneg (by norm_num)
  have hb : 0 ≤ fl (fl (1 / 10) * fl (score - fl (6 / 10))) := fl_nonneg (mul_nonneg hc hd)
  have h13 : (13 / 10 : ℚ) ≤ fl (13 / 10) := by
    rw [fl_thirteen_tenths]
    norm_num
  refine le_min (by norm_num) (h13.trans (fl_mono ?_))
  linarith

theorem calcNextInterval_ease_lower (interval : Int) (ease score : ℚ)
    (h1 : 13 / 10 ≤ ease) :
    fl (13 / 10) ≤ (calcNextInterval interval ease score).easeFactor := by
  unfold calcNextInterval
  by_cases h3 : score < fl (3 / 10)
  · rw [if_pos h3]
    exact le_max_left _ _
  · rw [if_neg h3]
    by_cases h6 : score < fl (6 / 10)
    · rw [if_pos h6]
      exact le_max_left _ _
    · rw [if_neg h6]
      exact newEase_lower ease score h1 h6

theorem updateRecord_ease_lower (existing : Option StudyRecord) (c t : Nat) (now1 now2 : Int)
    (h : ∀ r, existing = some r → 13 / 10 ≤ r.easeFactor) :
    fl (13 / 10) ≤ (updateRecord existing c t now1 now2).easeFactor := by
  unfold updateRecord
  apply calcNextInterval_ease_lower
  cases existing with
  | none => norm_num
  | some r => exact h r rfl

theorem calcNextInterval_ease_range (interval : Int) (ease score : ℚ)
    (h1 : 13 / 10 ≤ ease) (h2 : ease ≤ 5 / 2) :
    13 / 10 ≤ (calcNextInterval interval ease score).easeFactor ∧
    (calcNextInterval interval ease score).easeFactor ≤ 5 / 2 := by
  have h13 : (13 / 10 : ℚ) ≤ fl (13 / 10) := by
    rw [fl_thirteen_tenths]
    norm_num
  have h13u : fl (13 / 10) ≤ (5 / 2 : ℚ) := by
    rw [fl_thirteen_tenths]
    norm_num
  have hsub : ∀ c : ℚ, 0 ≤ c → fl (ease - c) ≤ 5 / 2 := by
    intro c hc
    have := fl_mono (show ease - c ≤ 5 / 2 by linarith)
    rwa [fl_five_halves] at this
  unfold calcNextInterval
  by_cases h3 : score < fl (3 / 10)
  · rw [if_pos h3]
    exact ⟨h13.trans (le_max_left _ _), max_le h13u (hsub _ (fl_nonneg (by norm_num)))⟩
  · rw [if_neg h3]
    by_cases h6 : score < fl (6 / 10)
    · rw [if_pos h6]
      exact ⟨h13.trans (le_max_left _ _), max_le h13u (hsub _ (fl_nonneg (by norm_num)))⟩
    · rw [if_neg h6]
      exact ⟨newEase_range ease score h1 h6, min_le_left _ _⟩

theorem updateRecord_ease_range (existing : Option StudyRecord) (c t : Nat) (now1 now2 : Int)
    (h : ∀ r, existing = some r → 13 / 10 ≤ r.easeFactor ∧ r.easeFactor ≤ 5 / 2) :
    13 / 10 ≤ (updateRecord existing c t now1 now2).easeFactor ∧
    (updateRecord existing c t now1 now2).easeFactor ≤ 5 / 2 := by
  unfold updateRecord
  apply calcNextInterval_ease_range
  · cases existing with
    | none => norm_num
    | some r => exact (h r rfl).1
  · cases existing with
    | none => norm_num
    | some r => exact (h r rfl).2

theorem updateRecordChain_ease_range (gradings : List (Nat × Nat × Int × Int)) :
    ∀ r, updateRecordChain gradings = some r →
      13 / 10 ≤ r.easeFactor ∧ r.easeFactor ≤ 5 / 2 := by
  unfold updateRecordChain
  induction gradings using List.reverseRecOn with
  | nil => intro r h; cases h
  | append_singleton l g ih =>
    intro r h
    rw [List.foldl_append] at h
    simp only [List.foldl_cons, List.foldl_nil, Option.some.injEq] at h
    rw [← h]
    exact updateRecord_ease_range _ _ _ _ _ ih

theorem updateRecordChain_ease_lower (gradings : List (Nat × Nat × Int × Int)) :
    ∀ r, updateRecordChain gradings = some r → fl (13 / 10) ≤ r.easeFactor := by
  intro r h
  have hr := updateRecordChain_ease_range gradings
  unfold updateRecordChain at h hr
  induction gradings using List.reverseRecOn with
  | nil => cases h
  | append_singleton l g _ =>
    rw [List.foldl_append] at h
    simp only [List.foldl_cons, List.foldl_nil, Option.some.injEq] at h
    rw [← h]
    apply updateRecord_ease_lower
    intro r2 h2
    exact (updateRecordChain_ease_range l r2 (by unfold updateRecordChain; exact h2)).1

/-- C19: from an ease factor in `[1.3, 2.5]`, `calcNextInterval` returns an
ease factor in `[1.3, 2.5]` for every interval and every score (those in
`[0,1]` among them); and every record that repeated `updateRecord` calls
produce, starting from no record, has its ease factor in `[1.3, 2.5]`.  The
operations round to the nearest double, and the lower bound holds of the
number `13/10` and of the double `1.3`, which is the greater of the two. -/
theorem easeFactor_in_range (interval : Int) (ease score : ℚ)
    (h1 : 13 / 10 ≤ ease) (h2 : ease ≤ 5 / 2) :
    (13 / 10 ≤ (calcNextInterval interval ease score).easeFactor ∧
      (calcNextInterval interval ease score).easeFactor ≤ 5 / 2) ∧
    (∀ (gradings : List (Nat × Nat × Int × Int)) (r : StudyRecord),
      updateRecordChain gradings = some r →
        13 / 10 ≤ r.easeFactor ∧ r.easeFactor ≤ 5 / 2) ∧
    fl (13 / 10) ≤ (calcNextInterval interval ease score).easeFactor ∧
    (∀ (gradings : List (Nat × Nat × Int × Int)) (r : StudyRecord),
      updateRecordChain gradings = some r → fl (13 / 10) ≤ r.easeFactor) :=
  ⟨calcNextInterval_ease_range interval ease score h1 h2,
    fun gradings => updateRecordChain_ease_range gradings,
    calcNextInterval_ease_lower interval ease score h1,
    fun gradings => updateRecordChain_ease_lower gradings⟩

/-- Witness of C19 at interval 3, ease factor 2.5 and score 1. -/
theorem easeFactor_in_range_witness :
    (13 / 10 ≤ (calcNextInterval 3 (5 / 2) 1).easeFactor ∧
      (calcNextInterval 3 (5 / 2) 1).easeFactor ≤ 5 / 2) ∧
    (∀ (gradings : List (Nat × Nat × Int × Int)) (r : StudyRecord),
      updateRecordChain gradings = some r →
        13 / 10 ≤ r.easeFactor ∧ r.easeFactor ≤ 5 / 2) ∧
    fl (13 / 10) ≤ (calcNextInterval 3 (5 / 2) 1).easeFactor ∧
    (∀ (gradings : List (Nat × Nat × Int × Int)) (r : StudyRecord),
      updateRecordChain gradings = some r → fl (13 / 10) ≤ r.easeFactor) :=
  easeFactor_in_range 3 (5 / 2) 1 (by norm_num) (by norm_num)

/-- C20: `updateRecord` returns a record whose interval and ease factor are
`calcNextInterval(prev.interval, prev.easeFactor, score)`, where a missing
record counts as interval 0 and ease factor 2.0 and `score` is
`correctCount/totalCount` (the double nearest to the quotient), or 0 when
`totalCount` is 0; `lastStudied` is the clock reading, and `nextDue` is the
clock reading plus the new interval times the milliseconds of a day. -/
theorem updateRecord_fields (existing : Option StudyRecord) (correctCount totalCount : Nat)
    (now1 now2 : Int) :
    (updateRecord existing correctCount totalCount now1 now2).interval
      = (calcNextInterval (existing.elim 0 (fun r => r.interval))
          (existing.elim 2 (fun r => r.easeFactor))
          (if totalCount = 0 then 0
            else fl ((correctCount : ℚ) / (totalCount : ℚ)))).interval ∧
    (updateRecord existing correctCount totalCount now1 now2).easeFactor
      = (calcNextInterval (existing.elim 0 (fun r => r.interval))
          (existing.elim 2 (fun r => r.easeFactor))
          (if totalCount = 0 then 0
            else fl ((correctCount : ℚ) / (totalCount : ℚ)))).easeFactor ∧
    (updateRecord existing correctCount totalCount now1 now2).lastStudied = now1 ∧
    (updateRecord existing correctCount totalCount now1 now2).nextDue
      = now2 + (updateRecord existing correctCount totalCount now1 now2).interval
          * (24 * 60 * 60 * 1000) := by
  have hs : (if 0 < totalCount then fl ((correctCount : ℚ) / (totalCount : ℚ)) else 0)
      = (if totalCount = 0 then 0 else fl ((correctCount : ℚ) / (totalCount : ℚ))) := by
    by_cases h : totalCount = 0
    · simp [h]
    · simp [h, Nat.pos_of_ne_zero h]
  have hi : (existing.map (fun r => r.interval)).getD 0
      = existing.elim 0 (fun r => r.interval) := by
    cases existing <;> rfl
  have he : (existing.map (fun r => r.easeFactor)).getD 2
      = existing.elim 2 (fun r => r.easeFactor) := by
    cases existing <;> rfl
  have hm : MS_PER_DAY = 24 * 60 * 60 * 1000 := by decide
  refine ⟨?_, ?_, ?_, ?_⟩
  · simp only [updateRecord, hs, hi, he]
  · simp only [updateRecord, hs, hi, he]
  · simp only [updateRecord]
  · simp only [updateRecord, hm]

/-! ## Properties of selectSessionSets -/

theorem jsSign_le_iff (q : ℚ) : jsSign q ≤ 0 ↔ q ≤ 0 := by
  unfold jsSign
  by_cases h1 : q < 0
  · simp [h1, le_of_lt h1]
  · by_cases h2 : q = 0
    · simp [h2]
    · have h3 : 0 < q := lt_of_le_of_ne (not_lt.mp h1) (Ne.symm h2)
      simp [h1, h2, not_le.mpr h3]

theorem scoreCompare_le_iff (a b : Scored) :
    jsSign (b.score - a.score) ≤ 0 ↔ b.score ≤ a.score := by
  rw [jsSign_le_iff, sub_nonpos]

theorem scoreCompare_isTotal :
    IsTotal Scored (fun a b => jsSign (b.score - a.score) ≤ 0) :=
  ⟨fun a b => by
    simp only [scoreCompare_le_iff]
    exact le_total _ _⟩

theorem scoreCompare_isTrans :
    IsTrans Scored (fun a b => jsSign (b.score - a.score) ≤ 0) :=
  ⟨fun a b c => by
    simp only [scoreCompare_le_iff]
    exact fun h1 h2 => le_trans h2 h1⟩

theorem scored_sorted (l : List Scored) :
    (jsSort (fun a b => jsSign (b.score - a.score)) l).Sorted
      (fun a b => jsSign (b.score - a.score) ≤ 0) := by
  haveI := scoreCompare_isTotal
  haveI := scoreCompare_isTrans
  exact List.sorted_insertionSort _ l

theorem scoreSet_ws (records : String → Option StudyRecord) (now : Int) (ws : FsWordSet) :
    (scoreSet records now ws).ws = ws := rfl

theorem map_ws_scoreSet (records : String → Option StudyRecord) (now : Int)
    (l : List FsWordSet) : (l.map (scoreSet records now)).map (fun x => x.ws) = l := by
  rw [List.map_map]
  conv_rhs => rw [← List.map_id l]
  apply List.map_congr_left
  intro s _
  rfl

theorem mem_sorted_scored {records : String → Option StudyRecord} {now : Int}
    {l : List FsWordSet} {e : Scored}
    (he : e ∈ jsSort (fun a b => jsSign (b.score - a.score)) (l.map (scoreSet records now))) :
    e.ws ∈ l ∧ e = scoreSet records now e.ws := by
  have h1 : e ∈ l.map (scoreSet records now) := (jsSort_perm _ _).mem_iff.mp he
  obtain ⟨s, hs, rfl⟩ := List.mem_map.mp h1
  exact ⟨hs, rfl⟩

theorem selectSessionSets_eq (wordSets : List FsWordSet)
    (records : String → Option StudyRecord) (importanceFilter : List Int) (maxSets : Int)
    (now : Int) :
    selectSessionSets wordSets records importanceFilter maxSets now
      = (slice0 (jsSort (fun a b => jsSign (b.score - a.score))
          ((filterByImportance wordSets importanceFilter).map (scoreSet records now)))
          maxSets).map (fun x => x.ws) := rfl

theorem selectSessionSets_length_le (wordSets : List FsWordSet)
    (records : String → Option StudyRecord) (importanceFilter : List Int) (maxSets : Int)
    (now : Int) (hm : 0 ≤ maxSets) :
    ((selectSessionSets wordSets records importanceFilter maxSets now).length : Int)
      ≤ maxSets := by
  rw [selectSessionSets_eq]
  unfold slice0
  rw [if_pos hm, List.length_map, List.length_take]
  have : (min maxSets.toNat
      (jsSort (fun a b => jsSign (b.score - a.score))
        ((filterByImportance wordSets importanceFilter).map (scoreSet records now))).length : Nat)
      ≤ maxSets.toNat := Nat.min_le_left _ _
  omega

/-- C21: for every list of sets, record map, importance filter and
`maxSets >= 0`, `selectSessionSets` returns at most `maxSets` sets. -/
theorem selectSessionSets_at_most (wordSets : List FsWordSet)
    (records : String → Option StudyRecord) (importanceFilter : List Int) (maxSets : Int)
    (now : Int) (hm : 0 ≤ maxSets) :
    ((selectSessionSets wordSets records importanceFilter maxSets now).length : Int)
      ≤ maxSets :=
  selectSessionSets_length_le wordSets records importanceFilter maxSets now hm

theorem filterByImportance_nil (wordSets : List FsWordSet) :
    filterByImportance wordSets [] = wordSets := by
  unfold filterByImportance
  simp

theorem mem_filterByImportance {wordSets : List FsWordSet} {importanceFilter : List Int}
    {ws : FsWordSet} (hne : importanceFilter ≠ [])
    (h : ws ∈ filterByImportance wordSets importanceFilter) :
    ws.importance ∈ importanceFilter := by
  unfold filterByImportance at h
  have hlen : 0 < importanceFilter.length := List.length_pos.mpr hne
  have h2 := (List.mem_filter.mp h).2
  simpa [hlen] using h2

theorem selectSessionSets_subperm (wordSets : List FsWordSet)
    (records : String → Option StudyRecord) (importanceFilter : List Int) (maxSets : Int)
    (now : Int) :
    (selectSessionSets wordSets records importanceFilter maxSets now).Subperm
      (filterByImportance wordSets importanceFilter) := by
  rw [selectSessionSets_eq]
  obtain ⟨k, hk, _⟩ := slice0_eq_take (jsSort (fun a b => jsSign (b.score - a.score))
    ((filterByImportance wordSets importanceFilter).map (scoreSet records now))) maxSets
  rw [hk]
  have h1 : ((jsSort (fun a b => jsSign (b.score - a.score))
      ((filterByImportance wordSets importanceFilter).map (scoreSet records now))).map
        (fun x => x.ws)).Perm (filterByImportance wordSets importanceFilter) := by
    have := (jsSort_perm (fun a b : Scored => jsSign (b.score - a.score))
      ((filterByImportance wordSets importanceFilter).map (scoreSet records now))).map
        (fun x => x.ws)
    rwa [map_ws_scoreSet] at this
  exact ((List.take_sublist k _).map _).subperm.trans h1.subperm

/-- C22: with a non-empty `importanceFilter` every set `selectSessionSets`
returns has its importance in the filter; an empty `importanceFilter` lets
every set through, and then, when `maxSets` is at least the number of sets,
the result is a permutation of the input. -/
theorem selectSessionSets_filter (wordSets : List FsWordSet)
    (records : String → Option StudyRecord) (importanceFilter : List Int) (maxSets : Int)
    (now : Int) :
    (importanceFilter ≠ [] →
      ∀ ws ∈ selectSessionSets wordSets records importanceFilter maxSets now,
        ws.importance ∈ importanceFilter) ∧
    filterByImportance wordSets [] = wordSets ∧
    ((wordSets.length : Int) ≤ maxSets →
      (selectSessionSets wordSets records [] maxSets now).Perm wordSets) := by
  refine ⟨fun hne ws hws => ?_, filterByImportance_nil wordSets, fun hm => ?_⟩
  · exact mem_filterByImportance hne
      ((selectSessionSets_subperm wordSets records importanceFilter maxSets now).subset hws)
  · rw [selectSessionSets_eq, filterByImportance_nil]
    have h0 : 0 ≤ maxSets := le_trans (Int.ofNat_nonneg _) hm
    unfold slice0
    rw [if_pos h0, List.take_of_length_le]
    · have := (jsSort_perm (fun a b : Scored => jsSign (b.score - a.score))
        (wordSets.map (scoreSet records now))).map (fun x => x.ws)
      rwa [map_ws_scoreSet] at this
    · rw [(jsSort_perm _ _).length_eq, List.length_map]
      omega

theorem fl_natCast (n : ℕ) (h : n < 2 ^ 53) : fl (n : ℚ) = n := by
  rcases Nat.eq_zero_or_pos n with h0 | hpos
  · subst h0
    simpa using fl_zero
  · have hx : (0 : ℚ) ≤ (n : ℚ) := Nat.cast_nonneg n
    have hlog : Int.log 2 (n : ℚ) = (Nat.log 2 n : Int) := Int.log_natCast 2 n
    have hL : Nat.log 2 n < 53 := Nat.log_lt_of_lt_pow (by omega) h
    have hu : ulpExp (n : ℚ) = (Nat.log 2 n : Int) - 52 := by
      unfold ulpExp
      rw [hlog]
      exact max_eq_left (by omega)
    obtain ⟨k, hk⟩ : ∃ k : ℕ, (Nat.log 2 n : Int) - 52 = -(k : Int) :=
      ⟨52 - Nat.log 2 n, by omega⟩
    have hq : (n : ℚ) / ((2 : ℚ) ^ k)⁻¹ = (((n * 2 ^ k : ℕ) : Int) : ℚ) := by
      push_cast
      field_simp
    unfold fl roundPos
    rw [if_pos hx, hu, hk, zpow_neg, zpow_natCast, hq, roundHalfEven_intCast]
    push_cast
    field_simp

theorem fl_score_nat (i : Int) (k : ℕ) (hk : k < 2 ^ 52) :
    fl (500 + (importanceScore i : ℚ) * 10 + k) = 500 + (importanceScore i : ℚ) * 10 + k := by
  obtain ⟨n, hn, hn5⟩ : ∃ n : ℕ, importanceScore i = (n : Int) ∧ n ≤ 5 := by
    unfold importanceScore
    split_ifs
    · exact ⟨5, rfl, by omega⟩
    · exact ⟨3, rfl, by omega⟩
    · exact ⟨1, rfl, by omega⟩
    · exact ⟨0, rfl, by omega⟩
  rw [hn]
  have h := fl_natCast (500 + n * 10 + k) (by omega)
  push_cast at h
  push_cast
  exact h

theorem scoreSet_score_amended (records : String → Option StudyRecord) (now : Int)
    (ws : FsWordSet) : (scoreSet records now ws).score = scoreAmended records now ws := by
  unfold scoreSet scoreAmended
  cases h : records ws.id with
  | none => simp
  | some r =>
    by_cases h0 : r.nextDue = 0
    · have h999 := fl_score_nat ws.importance 999 (by norm_num)
      simp only [Nat.cast_ofNat] at h999
      simp [isDue, h0, h999]
    · by_cases hd : r.nextDue ≤ now
      · have hmax : max 0 (now - r.nextDue) = now - r.nextDue := max_eq_right (by omega)
        simp [isDue, h0, hd, hmax, MS_PER_DAY]
      · simp [isDue, h0, hd]

/-- Counterexample to C23 as stated: at day 2000 the set of low importance has
a record with due time 0, so that it has been due for 2000 days and the score
of the claim is `500 + 10 + 2000 = 2510`; the set of high importance has been
due for 1500 days and scores `500 + 50 + 1500 = 2050`.  The code counts a due
time 0 as missing and gives the first set `500 + 10 + 999 = 1509`: it returns
the set of high importance first, against the order of the claim's scores. -/
theorem selectSessionSets_epoch_example :
    scoreSpec exStudyEpoch 172800000000 exFsLow = 2510 ∧
    scoreSpec exStudyEpoch 172800000000 exFsHigh = 2050 ∧
    (scoreSet exStudyEpoch 172800000000 exFsLow).score = 1509 ∧
    (scoreSet exStudyEpoch 172800000000 exFsHigh).score = 2050 ∧
    selectSessionSets [exFsLow, exFsHigh] exStudyEpoch [] 5 172800000000
      = [exFsHigh, exFsLow] ∧
    ¬ (selectSessionSets [exFsLow, exFsHigh] exStudyEpoch [] 5 172800000000).Pairwise
        (fun a b => scoreSpec exStudyEpoch 172800000000 b
          ≤ scoreSpec exStudyEpoch 172800000000 a) := by
  have c1 : scoreSpec exStudyEpoch 172800000000 exFsLow = 2510 := by
    simp [scoreSpec, exStudyEpoch, exFsLow, exStudyLow, importanceScore]
    norm_num
  have c2 : scoreSpec exStudyEpoch 172800000000 exFsHigh = 2050 := by
    simp [scoreSpec, exStudyEpoch, exFsHigh, exStudyHigh, importanceScore]
    norm_num
  have h1 : (scoreSet exStudyEpoch 172800000000 exFsLow).score = 1509 := by
    rw [scoreSet_score_amended]
    simp [scoreAmended, exStudyEpoch, exFsLow, exStudyLow, importanceScore]
    norm_num
  have h2 : (scoreSet exStudyEpoch 172800000000 exFsHigh).score = 2050 := by
    rw [scoreSet_score_amended]
    have hd : fl (1500 : ℚ) = 1500 := by simpa using fl_natCast 1500 (by norm_num)
    have hs : fl (2050 : ℚ) = 2050 := by simpa using fl_natCast 2050 (by norm_num)
    have hq : ((172800000000 - 43200000000 : Int) : ℚ) / 86400000 = 1500 := by norm_num
    simp [scoreAmended, exStudyEpoch, exFsHigh, exStudyHigh, importanceScore]
    norm_num [hd, hs]
  have hres : selectSessionSets [exFsLow, exFsHigh] exStudyEpoch [] 5 172800000000
      = [exFsHigh, exFsLow] := by
    rw [selectSessionSets_eq, filterByImportance_nil]
    simp only [List.map_cons, List.map_nil, jsSort, List.insertionSort, List.orderedInsert]
    have hc : ¬ (jsSign ((scoreSet exStudyEpoch 172800000000 exFsHigh).score
        - (scoreSet exStudyEpoch 172800000000 exFsLow).score) ≤ 0) := by
      rw [h1, h2, jsSign_le_iff]
      norm_num
    rw [if_neg hc]
    rfl
  refine ⟨c1, c2, h1, h2, hres, ?_⟩
  rw [hres]
  intro hp
  have := (List.pairwise_cons.mp hp).1 exFsLow (List.mem_singleton.mpr rfl)
  rw [c1, c2] at this
  norm_num at this

/-- C23 (amended): `selectSessionSets` returns the first `maxSets` of the
filtered sets in non-increasing order of score: with the sets left out behind
it, the result is a permutation of the filtered sets in non-increasing order
of score, in which the sets of equal score keep their input order, and for
`maxSets >= 0` it has `min(maxSets, number of filtered sets)` elements (for a
negative `maxSets`, `slice` leaves out that many from the end).  A
never-studied set scores `1000 + importanceScore*10`, a studied due set
`500 + importanceScore*10 + days since due`, where a record without due time
(`nextDue` 0 or missing) counts as due for 999 days, a studied set not yet due
scores `importanceScore`, and `importanceScore` maps 3, 2, 1, 0 to 5, 3, 1, 0
and everything else to 0. -/
theorem selectSessionSets_sorted (wordSets : List FsWordSet)
    (records : String → Option StudyRecord) (importanceFilter : List Int) (maxSets : Int)
    (now : Int) :
    (∃ rest : List FsWordSet,
      (selectSessionSets wordSets records importanceFilter maxSets now ++ rest).Perm
        (filterByImportance wordSets importanceFilter) ∧
      (selectSessionSets wordSets records importanceFilter maxSets now ++ rest).Pairwise
        (fun a b => scoreAmended records now b ≤ scoreAmended records now a) ∧
      (∀ c : ℚ,
        (selectSessionSets wordSets records importanceFilter maxSets now ++ rest).filter
          (fun ws => decide (scoreAmended records now ws = c))
        = (filterByImportance wordSets importanceFilter).filter
          (fun ws => decide (scoreAmended records now ws = c)))) ∧
    (0 ≤ maxSets →
      (selectSessionSets wordSets records importanceFilter maxSets now).length
        = min maxSets.toNat (filterByImportance wordSets importanceFilter).length) ∧
    (maxSets < 0 →
      (selectSessionSets wordSets records importanceFilter maxSets now).length
        = (filterByImportance wordSets importanceFilter).length - (-maxSets).toNat) ∧
    (importanceScore 3 = 5 ∧ importanceScore 2 = 3 ∧ importanceScore 1 = 1 ∧
      importanceScore 0 = 0 ∧
      ∀ i : Int, i ≠ 3 → i ≠ 2 → i ≠ 1 → importanceScore i = 0) := by
  have hscore := scoreSet_score_amended records now
  obtain ⟨k, hk, hk0⟩ := slice0_eq_take (jsSort (fun a b => jsSign (b.score - a.score))
    ((filterByImportance wordSets importanceFilter).map (scoreSet records now))) maxSets
  have hmem : ∀ e ∈ jsSort (fun a b => jsSign (b.score - a.score))
      ((filterByImportance wordSets importanceFilter).map (scoreSet records now)),
      e.score = scoreAmended records now e.ws := by
    intro e he
    have h := (mem_sorted_scored he).2
    rw [← hscore e.ws]
    exact congrArg Scored.score h
  have hperm := jsSort_perm (fun a b : Scored => jsSign (b.score - a.score))
    ((filterByImportance wordSets importanceFilter).map (scoreSet records now))
  have hall : selectSessionSets wordSets records importanceFilter maxSets now
      ++ (List.drop k (jsSort (fun a b => jsSign (b.score - a.score))
        ((filterByImportance wordSets importanceFilter).map (scoreSet records now)))).map
          (fun x => x.ws)
      = (jsSort (fun a b => jsSign (b.score - a.score))
        ((filterByImportance wordSets importanceFilter).map (scoreSet records now))).map
          (fun x => x.ws) := by
    rw [selectSessionSets_eq, hk, ← List.map_append, List.take_append_drop]
  refine ⟨⟨(List.drop k (jsSort (fun a b => jsSign (b.score - a.score))
    ((filterByImportance wordSets importanceFilter).map (scoreSet records now)))).map
      (fun x => x.ws), ?_, ?_, ?_⟩, ?_, ?_, ?_⟩
  · rw [hall]
    have := hperm.map (fun x : Scored => x.ws)
    rwa [map_ws_scoreSet] at this
  · rw [hall, List.pairwise_map]
    refine List.Pairwise.imp_of_mem ?_ (scored_sorted
      ((filterByImportance wordSets importanceFilter).map (scoreSet records now)))
    intro a b ha hb hab
    rw [← hmem a ha, ← hmem b hb]
    exact (scoreCompare_le_iff a b).mp hab
  · intro c
    rw [hall, List.filter_map]
    have hstab := jsSort_filter_eq (fun a b : Scored => jsSign (b.score - a.score))
      (fun e => decide (e.score = c))
      (fun a b ha hb => by
        have ha2 : a.score = c := by simpa using ha
        have hb2 : b.score = c := by simpa using hb
        rw [scoreCompare_le_iff, ha2, hb2])
      ((filterByImportance wordSets importanceFilter).map (scoreSet records now))
    have hcongr1 : List.filter ((fun ws => decide (scoreAmended records now ws = c)) ∘
          fun x : Scored => x.ws)
        (jsSort (fun a b => jsSign (b.score - a.score))
          ((filterByImportance wordSets importanceFilter).map (scoreSet records now)))
        = List.filter (fun e : Scored => decide (e.score = c))
        (jsSort (fun a b => jsSign (b.score - a.score))
          ((filterByImportance wordSets importanceFilter).map (scoreSet records now))) := by
      apply List.filter_congr
      intro e he
      simp only [Function.comp]
      rw [hmem e he]
    rw [hcongr1, hstab, List.filter_map, List.map_map]
    have hf : ((fun e : Scored => decide (e.score = c)) ∘ scoreSet records now)
        = (fun ws => decide (scoreAmended records now ws = c)) := by
      funext ws
      simp only [Function.comp, hscore ws]
    rw [hf]
    conv_rhs => rw [← List.map_id (List.filter _ _)]
    apply List.map_congr_left
    intro ws _
    rfl
  · intro hm
    rw [selectSessionSets_eq, hk, hk0 hm, List.length_map, List.length_take, hperm.length_eq,
      List.length_map]
  · intro hm
    rw [selectSessionSets_eq]
    unfold slice0
    rw [if_neg (not_le.mpr hm), List.length_map, List.length_take, hperm.length_eq,
      List.length_map]
    omega
  · refine ⟨rfl, rfl, rfl, rfl, ?_⟩
    intro i h3 h2 h1
    unfold importanceScore
    rw [if_neg h3, if_neg h2, if_neg h1]

/-- Witness of C21 on the two example sets and `maxSets = 1`. -/
theorem selectSessionSets_at_most_witness :
    ((selectSessionSets [exFsHigh, exFsLow] exStudy [] 1 17280000000).length : Int) ≤ 1 :=
  selectSessionSets_at_most [exFsHigh, exFsLow] exStudy [] 1 17280000000 (by decide)

/-- C24, the code at the failing input: at day 200 the set of low importance
has been due for 100 days and the set of high importance falls due; both are
due, and `selectSessionSets` places the set of low importance first. -/
theorem selectSessionSets_importance_example :
    isDue (exStudy exFsLow.id) 17280000000 = true ∧
    isDue (exStudy exFsHigh.id) 17280000000 = true ∧
    exFsLow.importance < exFsHigh.importance ∧
    (scoreSet exStudy 17280000000 exFsLow).score = 610 ∧
    (scoreSet exStudy 17280000000 exFsHigh).score = 550 ∧
    selectSessionSets [exFsHigh, exFsLow] exStudy [] 5 17280000000 = [exFsLow, exFsHigh] := by
  have h1 : (scoreSet exStudy 17280000000 exFsLow).score = 610 := by
    have hd : fl (100 : ℚ) = 100 := by simpa using fl_natCast 100 (by norm_num)
    have hs : fl (610 : ℚ) = 610 := by simpa using fl_natCast 610 (by norm_num)
    rw [scoreSet_score_amended]
    simp only [scoreAmended, exStudy, exFsLow, exStudyLow, importanceScore]
    norm_num [hd, hs]
  have h2 : (scoreSet exStudy 17280000000 exFsHigh).score = 550 := by
    have hs : fl (550 : ℚ) = 550 := by simpa using fl_natCast 550 (by norm_num)
    rw [scoreSet_score_amended]
    simp [scoreAmended, exStudy, exFsHigh, exStudyHigh, importanceScore]
    norm_num [fl_zero, hs]
  refine ⟨by decide, by decide, by decide, h1, h2, ?_⟩
  rw [selectSessionSets_eq, filterByImportance_nil]
  simp only [List.map_cons, List.map_nil, jsSort, List.insertionSort, List.orderedInsert]
  have hc : ¬ (jsSign ((scoreSet exStudy 17280000000 exFsLow).score
      - (scoreSet exStudy 17280000000 exFsHigh).score) ≤ 0) := by
    rw [h1, h2, jsSign_le_iff]
    norm_num
  rw [if_neg hc]
  rfl

/-! ## Properties of normalizeSourceSets -/

/-- Counterexample to C25 as stated: of a well-formed row and a row without
items, `normalizeSourceSets` keeps neither. -/
theorem normalizeSourceSets_mixed_example :
    rowWellFormed (some exRowGood) = true ∧ rowWellFormed (some exRowBad) = false ∧
    normalizeSourceSets "words" (some [some exRowGood, some exRowBad]) = some [] ∧
    normalizeSourceSets "words" (some [some exRowGood]) ≠ some [] := by
  refine ⟨by decide, by decide, by decide, by decide⟩

/-- The flat branch of `normalizeSourceSets` on example rows: the ideographic
space U+3000 is trimmed, the groups with an array-index name come first in
numeric order, and a category named like a member of `Object.prototype`, or
one that is truthy and no string, throws. -/
theorem normalizeSourceSets_flat_example :
    normalizeSourceSets "k"
        (some [some (exRowFlat "b" "x"), some (exRowFlat "10" "y"),
               some (exRowFlat "\u3000b" "z\u00a0"), some (exRowFlat "2" "w")])
      = some [
          { id := "k_col_01", mode := "collocation", owner := "child", label := "2",
            priority := 2, items := ["w"] },
          { id := "k_col_02", mode := "collocation", owner := "child", label := "10",
            priority := 2, items := ["y"] },
          { id := "k_col_03", mode := "collocation", owner := "child", label := "b",
            priority := 2, items := ["x", "z"] }] ∧
    normalizeSourceSets "k" (some [some (exRowFlat "constructor" "x")]) = none ∧
    normalizeSourceSets "k" (some [some (exRowFlat "constructor" " ")]) = some [] ∧
    normalizeSourceSets "k"
      (some [some { exRowFlat "" "x" with category := .other }]) = none := by
  refine ⟨by decide, by decide, by decide, by decide⟩

theorem filterMap_rowSet_length (rows : List (Option SeedRow))
    (hall : rows.all rowWellFormed = true) :
    (rows.filterMap rowSet).map some = rows.map rowSet := by
  induction rows with
  | nil => rfl
  | cons a rest ih =>
    rw [List.all_cons, Bool.and_eq_true] at hall
    cases a with
    | none => simp [rowWellFormed] at hall
    | some r =>
      rw [List.filterMap_cons, List.map_cons]
      simp only [rowSet, List.map_cons]
      rw [← ih hall.2]

/-- C25 (amended): `normalizeSourceSets` tests the array as a whole.  When
every row is well-formed it returns all rows, in order; when some row is
malformed and the rows are not all flat phrase rows it returns the empty
list, so that no row is kept. -/
theorem normalizeSourceSets_all_or_nothing (sourceKey : String)
    (rows : List (Option SeedRow)) :
    (rows.all rowWellFormed = true →
      normalizeSourceSets sourceKey (some rows) = some (rows.filterMap rowSet) ∧
      (normalizeSourceSets sourceKey (some rows)).map (fun l => l.map some)
        = some (rows.map rowSet)) ∧
    ((∃ row ∈ rows, rowWellFormed row = false) → rows.all rowFlat = false →
      normalizeSourceSets sourceKey (some rows) = some []) := by
  constructor
  · intro hall
    have h : normalizeSourceSets sourceKey (some rows) = some (rows.filterMap rowSet) := by
      unfold normalizeSourceSets
      simp only [hall, if_true]
    exact ⟨h, by rw [h, Option.map_some', filterMap_rowSet_length rows hall]⟩
  · intro hbad hflat
    have hall : rows.all rowWellFormed = false := by
      obtain ⟨row, hrow, hw⟩ := hbad
      rw [Bool.eq_false_iff]
      intro hc
      have := List.all_eq_true.mp hc row hrow
      rw [hw] at this
      exact Bool.false_ne_true this
    unfold normalizeSourceSets
    simp only [hall, hflat, Bool.false_eq_true, if_false]

/-! ## Properties of the status revert -/

/-- Counterexample to C27 as stated: a push that settled in `error` stays in
`error` when the delayed revert fires. -/
theorem revert_keeps_error_example :
    (pushCustomSets exRemote false true 200 201 (.value [exSetA])
      (beginSync exState)).1.syncStatus = .error ∧
    (pushCustomSetsReverted exRemote false true 200 201 (.value [exSetA]) exState).1.syncStatus
      = .error ∧
    (pushCustomSetsReverted exRemote false true 200 201 (.value [exSetA]) exState).1.syncStatus
      ≠ .idle := by
  refine ⟨rfl, rfl, ?_⟩
  have h : (pushCustomSetsReverted exRemote false true 200 201 (.value [exSetA])
      exState).1.syncStatus = .error := rfl
  rw [h]
  decide

/-- C27 (amended): every pull and push (`pushCustomSets`, `pushPriority`,
`setRecords`, `setSrs`) first sets the status `syncing` and settles in `ok` or
in `error`; the delayed revert step returns the status to `idle` after it
settled in `ok`, and leaves the status `error` after it settled in `error`
(after a failed `setRecords` or `setSrs` no revert is even pending).  A push
settles in `ok` when its write goes through and in `error` when it fails; a
pull none of whose reads fails settles in `ok`. -/
theorem status_cycle (rem : Remote) (st : AppState) (hready : st.syncReady = true) :
    (beginSync st).syncStatus = .syncing ∧
    (∀ (fails : ReadFails) (lsOk : Bool),
      ((pull rem fails lsOk (beginSync st)).syncStatus = .ok ∨
        (pull rem fails lsOk (beginSync st)).syncStatus = .error) ∧
      ((pull rem fails lsOk (beginSync st)).syncStatus = .ok →
        (pullReverted rem fails lsOk st).syncStatus = .idle) ∧
      ((pull rem fails lsOk (beginSync st)).syncStatus = .error →
        (pullReverted rem fails lsOk st).syncStatus = .error) ∧
      (pull rem ⟨false, false, false, false⟩ lsOk (beginSync st)).syncStatus = .ok) ∧
    (∀ (readFails writeFails : Bool) (now1 now2 : Nat) (u : NextOrUpdater (List WordSet)),
      ((pushCustomSets rem readFails writeFails now1 now2 u (beginSync st)).1.syncStatus = .ok ∨
        (pushCustomSets rem readFails writeFails now1 now2 u (beginSync st)).1.syncStatus
          = .error) ∧
      ((pushCustomSets rem readFails writeFails now1 now2 u (beginSync st)).1.syncStatus = .ok →
        (pushCustomSetsReverted rem readFails writeFails now1 now2 u st).1.syncStatus = .idle) ∧
      ((pushCustomSets rem readFails writeFails now1 now2 u (beginSync st)).1.syncStatus
          = .error →
        (pushCustomSetsReverted rem readFails writeFails now1 now2 u st).1.syncStatus
          = .error) ∧
      (pushCustomSets rem readFails false now1 now2 u (beginSync st)).1.syncStatus = .ok ∧
      (pushCustomSets rem readFails true now1 now2 u (beginSync st)).1.syncStatus = .error) ∧
    (∀ (readFails writeFails : Bool) (now1 now2 : Nat)
      (u : NextOrUpdater (String → Option Int)),
      ((pushPriority rem readFails writeFails now1 now2 u (beginSync st)).1.syncStatus = .ok ∨
        (pushPriority rem readFails writeFails now1 now2 u (beginSync st)).1.syncStatus
          = .error) ∧
      ((pushPriority rem readFails writeFails now1 now2 u (beginSync st)).1.syncStatus = .ok →
        (pushPriorityReverted rem readFails writeFails now1 now2 u st).1.syncStatus = .idle) ∧
      ((pushPriority rem readFails writeFails now1 now2 u (beginSync st)).1.syncStatus
          = .error →
        (pushPriorityReverted rem readFails writeFails now1 now2 u st).1.syncStatus
          = .error) ∧
      (pushPriority rem readFails false now1 now2 u (beginSync st)).1.syncStatus = .ok ∧
      (pushPriority rem readFails true now1 now2 u (beginSync st)).1.syncStatus = .error) ∧
    (∀ (readFails writeFails lsOk : Bool) (now1 now2 : Nat)
      (v : List SessionRecord → List SessionRecord),
      (setRecords lsOk v st).1.syncStatus = .syncing ∧
      ((setRecordsSynced rem readFails writeFails lsOk now1 now2 v st).1.syncStatus = .ok ∨
        (setRecordsSynced rem readFails writeFails lsOk now1 now2 v st).1.syncStatus
          = .error) ∧
      ((setRecordsSynced rem readFails writeFails lsOk now1 now2 v st).1.syncStatus = .ok →
        (setRecordsReverted rem readFails writeFails lsOk now1 now2 v st).1.syncStatus
          = .idle) ∧
      ((setRecordsSynced rem readFails writeFails lsOk now1 now2 v st).1.syncStatus = .error →
        (setRecordsReverted rem readFails writeFails lsOk now1 now2 v st).1.syncStatus
          = .error) ∧
      (setRecordsSynced rem readFails false lsOk now1 now2 v st).1.syncStatus = .ok ∧
      (setRecordsSynced rem readFails true lsOk now1 now2 v st).1.syncStatus = .error) ∧
    (∀ (readFails writeFails lsOk : Bool) (now1 now2 : Nat) (v : SrsMap → SrsMap),
      (setSrs lsOk v st).1.syncStatus = .syncing ∧
      ((setSrsSynced rem readFails writeFails lsOk now1 now2 v st).1.syncStatus = .ok ∨
        (setSrsSynced rem readFails writeFails lsOk now1 now2 v st).1.syncStatus
          = .error) ∧
      ((setSrsSynced rem readFails writeFails lsOk now1 now2 v st).1.syncStatus = .ok →
        (setSrsReverted rem readFails writeFails lsOk now1 now2 v st).1.syncStatus
          = .idle) ∧
      ((setSrsSynced rem readFails writeFails lsOk now1 now2 v st).1.syncStatus = .error →
        (setSrsReverted rem readFails writeFails lsOk now1 now2 v st).1.syncStatus
          = .error) ∧
      (setSrsSynced rem readFails false lsOk now1 now2 v st).1.syncStatus = .ok ∧
      (setSrsSynced rem readFails true lsOk now1 now2 v st).1.syncStatus = .error) ∧
    (∀ s : AppState, s.syncStatus = .ok → (revertStatus s).syncStatus = .idle) ∧
    (∀ s : AppState, s.syncStatus = .error → (revertStatus s).syncStatus = .error) := by
  have hok : ∀ s : AppState, s.syncStatus = .ok → (revertStatus s).syncStatus = .idle := by
    intro s hs
    simp [revertStatus, hs]
  have herr : ∀ s : AppState, s.syncStatus = .error → (revertStatus s).syncStatus = .error := by
    intro s hs
    simp [revertStatus, hs]
  refine ⟨rfl, fun fails lsOk => ⟨?_, hok _, herr _, rfl⟩,
    fun readFails writeFails now1 now2 u => ⟨?_, hok _, herr _, rfl, rfl⟩,
    fun readFails writeFails now1 now2 u => ⟨?_, hok _, herr _, rfl, rfl⟩,
    fun readFails writeFails lsOk now1 now2 v => ⟨?_, ?_, ?_, ?_, ?_, ?_⟩,
    fun readFails writeFails lsOk now1 now2 v => ⟨?_, ?_, ?_, ?_, ?_, ?_⟩, hok, herr⟩
  · exact Or.inl (pull_status rem fails lsOk (beginSync st)).1
  · cases writeFails
    · exact Or.inl rfl
    · exact Or.inr rfl
  · cases writeFails
    · exact Or.inl rfl
    · exact Or.inr rfl
  · simp [setRecords, hready]
  · cases writeFails
    · left
      simp [setRecordsSynced, setRecords, pushRecords, hready]
    · right
      simp [setRecordsSynced, setRecords, pushRecords, hready]
  · intro h
    cases writeFails
    · simp [setRecordsReverted, setRecordsSynced, setRecords, pushRecords, hready, revertStatus]
    · simp [setRecordsSynced, setRecords, pushRecords, hready] at h
  · intro h
    cases writeFails
    · simp [setRecordsSynced, setRecords, pushRecords, hready] at h
    · simp [setRecordsReverted, setRecordsSynced, setRecords, pushRecords, hready]
  · simp [setRecordsSynced, setRecords, pushRecords, hready]
  · simp [setRecordsSynced, setRecords, pushRecords, hready]
  · simp [setSrs, hready]
  · cases writeFails
    · left
      simp [setSrsSynced, setSrs, pushSrs, hready]
    · right
      simp [setSrsSynced, setSrs, pushSrs, hready]
  · intro h
    cases writeFails
    · simp [setSrsReverted, setSrsSynced, setSrs, pushSrs, hready, revertStatus]
    · simp [setSrsSynced, setSrs, pushSrs, hready] at h
  · intro h
    cases writeFails
    · simp [setSrsSynced, setSrs, pushSrs, hready] at h
    · simp [setSrsReverted, setSrsSynced, setSrs, pushSrs, hready]
  · simp [setSrsSynced, setSrs, pushSrs, hready]
  · simp [setSrsSynced, setSrs, pushSrs, hready]

/-- Witness of C27 (amended) on the example state, which is sync ready: a
push of custom sets whose write goes through settles in `ok` and is reverted
to `idle`, one whose write fails settles in `error` and stays there. -/
theorem status_cycle_witness :
    (pushCustomSets exRemote false false 200 201 (.value [exSetA])
      (beginSync exState)).1.syncStatus = .ok ∧
    (pushCustomSetsReverted exRemote false false 200 201 (.value [exSetA])
      exState).1.syncStatus = .idle ∧
    (pushCustomSets exRemote false true 200 201 (.value [exSetA])
      (beginSync exState)).1.syncStatus = .error ∧
    (pushCustomSetsReverted exRemote false true 200 201 (.value [exSetA])
      exState).1.syncStatus = .error :=
  have h := (status_cycle exRemote exState rfl).2.2.1
  ⟨(h false false 200 201 (.value [exSetA])).2.2.2.1,
    (h false false 200 201 (.value [exSetA])).2.1 rfl,
    (h false true 200 201 (.value [exSetA])).2.2.2.2,
    (h false true 200 201 (.value [exSetA])).2.2.1 rfl⟩

/-! ## Growth of the interval -/

theorem jsRound_ge (x : ℚ) (z : Int) (h : (z : ℚ) - 1 / 2 ≤ x) : z ≤ jsRound x := by
  unfold jsRound
  rw [Int.le_floor]
  linarith

theorem fl_product_ge (interval : Int) (e : ℚ) (hi : 2 ≤ interval) (he : 13 / 10 ≤ e) :
    ((interval + 1 : Int) : ℚ) - 1 / 2 ≤ fl ((interval : ℚ) * e) := by
  have h2 : (2 : ℚ) ≤ (interval : ℚ) := by exact_mod_cast hi
  have hprod : (13 / 10 : ℚ) * interval ≤ (interval : ℚ) * e := by nlinarith
  have hone : (1 : ℚ) ≤ (interval : ℚ) * e := by linarith
  have hl := fl_lower hone
  have hk : (0 : ℚ) ≤ 1 - 1 / 2 ^ 53 := by norm_num
  have h3 : (13 / 10 : ℚ) * interval * (1 - 1 / 2 ^ 53)
      ≤ (interval : ℚ) * e * (1 - 1 / 2 ^ 53) := mul_le_mul_of_nonneg_right hprod hk
  have h4 : ((interval : ℚ) + 1) - 1 / 2 ≤ (13 / 10 : ℚ) * interval * (1 - 1 / 2 ^ 53) := by
    have : (13 / 10 : ℚ) * interval * (1 - 1 / 2 ^ 53) - (interval + 1 - 1 / 2)
        = interval * (3 / 10 - 13 / 10 / 2 ^ 53) - 1 / 2 := by ring
    have hc : (1 / 4 : ℚ) ≤ 3 / 10 - 13 / 10 / 2 ^ 53 := by norm_num
    nlinarith
  push_cast
  linarith

theorem calcNextInterval_ge_one (interval : Int) (ease score : ℚ)
    (h0 : 0 ≤ interval) (h1 : 13 / 10 ≤ ease) :
    1 ≤ (calcNextInterval interval ease score).interval ∧
    (fl (6 / 10) ≤ score → interval < (calcNextInterval interval ease score).interval) := by
  have h3le : fl (3 / 10) ≤ fl (6 / 10 : ℚ) := fl_mono (by norm_num)
  unfold calcNextInterval
  by_cases h3 : score < fl (3 / 10)
  · rw [if_pos h3]
    exact ⟨le_refl _, fun h6 => absurd h3 (not_lt.mpr (h3le.trans h6))⟩
  · rw [if_neg h3]
    by_cases h6 : score < fl (6 / 10)
    · rw [if_pos h6]
      exact ⟨le_max_left _ _, fun h => absurd h6 (not_lt.mpr h)⟩
    · rw [if_neg h6]
      have hne := newEase_range ease score h1 h6
      by_cases hi0 : interval = 0
      · simp [hi0]
      · by_cases hi1 : interval = 1
        · simp [hi1]
        · have hg := jsRound_ge _ _ (fl_product_ge interval _ (by omega) hne)
          simp only [hi0, hi1, if_false]
          constructor
          · omega
          · intro _; omega

/-- C29: for an integer interval `>= 0` and an ease factor of at least `1.3`
(in particular one in `[1.3, 2.5]`),
`calcNextInterval` returns an interval strictly greater than the previous one
when `score >= 0.6`, be it the number `6/10` or the double `0.6` of the code
that the score is compared with, and an interval `>= 1` for every score; so
the record `updateRecord` returns is due at least one day after the clock
reading and is not due at the moment of grading.  The operations round to the
nearest double. -/
theorem interval_grows (interval : Int) (ease : ℚ) (h0 : 0 ≤ interval)
    (h1 : 13 / 10 ≤ ease) :
    (∀ score : ℚ, 6 / 10 ≤ score →
      interval < (calcNextInterval interval ease score).interval) ∧
    (∀ score : ℚ, fl (6 / 10) ≤ score →
      interval < (calcNextInterval interval ease score).interval) ∧
    (∀ score : ℚ, 1 ≤ (calcNextInterval interval ease score).interval) ∧
    (∀ (existing : Option StudyRecord) (c t : Nat) (now1 now2 : Int),
      (∀ r, existing = some r → 0 ≤ r.interval ∧ 13 / 10 ≤ r.easeFactor) → 0 ≤ now2 →
      now2 + MS_PER_DAY ≤ (updateRecord existing c t now1 now2).nextDue ∧
      isDue (some (updateRecord existing c t now1 now2)) now2 = false) := by
  have h6le : fl (6 / 10) ≤ (6 / 10 : ℚ) := by
    rw [fl_six_tenths]
    norm_num
  refine ⟨fun score hs => (calcNextInterval_ge_one interval ease score h0 h1).2 (h6le.trans hs),
    fun score hs => (calcNextInterval_ge_one interval ease score h0 h1).2 hs,
    fun score => (calcNextInterval_ge_one interval ease score h0 h1).1, ?_⟩
  intro existing c t now1 now2 hex hnow
  have hi : 1 ≤ (updateRecord existing c t now1 now2).interval := by
    unfold updateRecord
    apply (calcNextInterval_ge_one _ _ _ _ _).1
    · cases existing with
      | none => decide
      | some r => exact (hex r rfl).1
    · cases existing with
      | none => norm_num
      | some r => exact (hex r rfl).2
  have hnd : (updateRecord existing c t now1 now2).nextDue
      = now2 + (updateRecord existing c t now1 now2).interval * MS_PER_DAY := rfl
  have hms : MS_PER_DAY = 86400000 := rfl
  have hdue : now2 + MS_PER_DAY ≤ (updateRecord existing c t now1 now2).nextDue := by
    rw [hnd, hms]
    nlinarith
  refine ⟨hdue, ?_⟩
  rw [hms] at hdue
  have hne : (updateRecord existing c t now1 now2).nextDue ≠ 0 := by omega
  have hlt : ¬ (updateRecord existing c t now1 now2).nextDue ≤ now2 := by omega
  simp [isDue, hne, hlt]

/-- Witness of C29 at interval 2 and ease factor 1.3. -/
theorem interval_grows_witness :
    (∀ score : ℚ, 6 / 10 ≤ score →
      (2 : Int) < (calcNextInterval 2 (13 / 10) score).interval) ∧
    (∀ score : ℚ, fl (6 / 10) ≤ score →
      (2 : Int) < (calcNextInterval 2 (13 / 10) score).interval) ∧
    (∀ score : ℚ, 1 ≤ (calcNextInterval 2 (13 / 10) score).interval) ∧
    (∀ (existing : Option StudyRecord) (c t : Nat) (now1 now2 : Int),
      (∀ r, existing = some r → 0 ≤ r.interval ∧ 13 / 10 ≤ r.easeFactor) → 0 ≤ now2 →
      now2 + MS_PER_DAY ≤ (updateRecord existing c t now1 now2).nextDue ∧
      isDue (some (updateRecord existing c t now1 now2)) now2 = false) :=
  interval_grows 2 (13 / 10) (by decide) (by norm_num)

/-! ## Stats and records of useRecords -/

theorem sumField_recordPut (f : StudyRecord → Option Int) (m : RecordMap) (id : String)
    (v : StudyRecord) :
    sumField f (recordPut m id v)
      = sumField f m - or0 ((recordOf m id).bind f) + or0 (f v) := by
  induction m with
  | nil => simp [sumField, recordPut, recordOf, or0]
  | cons e rest ih =>
    obtain ⟨k, x⟩ := e
    by_cases h : k = id
    · simp [sumField, recordPut, recordOf, h]
      ring
    · unfold sumField at ih
      simp only [sumField, recordPut, recordOf, if_neg h, List.map_cons, List.sum_cons, ih]
      ring

theorem statsMatch_next (existing : RecordMap) (prevStats : Stats) (wordSetId : String)
    (newRecord : StudyRecord) (h : statsMatch existing prevStats) :
    statsMatch (recordPut existing wordSetId newRecord)
      (nextStats prevStats (recordOf existing wordSetId) newRecord) := by
  obtain ⟨hc, hi⟩ := h
  constructor
  · simp only [nextStats, hc, sumField_recordPut, or0, Option.getD_some]
    congr 1
    ring
  · simp only [nextStats, hi, sumField_recordPut, or0, Option.getD_some]
    congr 1
    ring

theorem saveRecord_persistLocal (isOffline txFails lsOk1 lsOk2 : Bool) (userId : Option String)
    (wordSetId : String) (newRecord : StudyRecord) (st : RecordsState)
    (hu : jsNot userId = false) (hoff : isOffline = true ∨ txFails = true) :
    (useRecords.saveRecord isOffline txFails lsOk1 lsOk2 userId wordSetId newRecord st).records
      = recordPut (lsGet st.localRecords (recordsKey userId) []) wordSetId newRecord ∧
    (useRecords.saveRecord isOffline txFails lsOk1 lsOk2 userId wordSetId newRecord st).stats
      = nextStats (lsGet st.localStats (recordsKey userId ++ "_stats") DEFAULT_STATS)
          (recordOf (lsGet st.localRecords (recordsKey userId) []) wordSetId) newRecord ∧
    (useRecords.saveRecord isOffline txFails lsOk1 lsOk2 userId wordSetId newRecord
        st).localRecords
      = lsSet lsOk1 st.localRecords (recordsKey userId)
          (recordPut (lsGet st.localRecords (recordsKey userId) []) wordSetId newRecord) ∧
    (useRecords.saveRecord isOffline txFails lsOk1 lsOk2 userId wordSetId newRecord
        st).localStats
      = lsSet lsOk2 st.localStats (recordsKey userId ++ "_stats")
          (nextStats (lsGet st.localStats (recordsKey userId ++ "_stats") DEFAULT_STATS)
            (recordOf (lsGet st.localRecords (recordsKey userId) []) wordSetId) newRecord) ∧
    (useRecords.saveRecord isOffline txFails lsOk1 lsOk2 userId wordSetId newRecord st).remote
      = st.remote := by
  unfold useRecords.saveRecord
  rw [hu]
  cases isOffline
  · cases txFails
    · simp at hoff
    · exact ⟨rfl, rfl, rfl, rfl, rfl⟩
  · exact ⟨rfl, rfl, rfl, rfl, rfl⟩

theorem lsGet_lsSet_true {β : Type} (store : String → Option β) (k : String) (v fb : β) :
    lsGet (lsSet true store k v) k fb = v := by
  simp [lsGet, lsSet, objSet]

theorem lsGet_lsSet_false {β : Type} (store : String → Option β) (k : String) (v fb : β) :
    lsGet (lsSet false store k v) k fb = lsGet store k fb := by
  simp [lsGet, lsSet]

/-- Counterexample to C30 as stated, on the records and stats the hook holds:
from the empty offline store a first grading of the set `low` (3 of 3) is saved
while the storage write of the records is dropped and that of the stats goes
through; the state then satisfies the invariant (stats 3 and 3, one record
with 3 and 3).  A second save, of a first grading of the set `high` (2 of 2)
with both writes going through, reads the stored records (none) and the stored
stats: the state after it holds the one record of `high`, with sums 2 and 2,
against stats of 5 and 5. -/
theorem saveRecord_dropped_write_example :
    statsMatch exStoreEmpty.records exStoreEmpty.stats ∧
    exStoreDropped.records = [("low", updateRecord none 3 3 100 101)] ∧
    exStoreDropped.stats
      = { totalSessions := some 1, totalCorrect := some 3, totalItems := some 3 } ∧
    statsMatch exStoreDropped.records exStoreDropped.stats ∧
    recordOf exStoreDropped.records "high" = none ∧
    (useRecords.saveRecord true false true true (some "u1") "high"
      (updateRecord none 2 2 200 201) exStoreDropped).records
      = [("high", updateRecord none 2 2 200 201)] ∧
    (useRecords.saveRecord true false true true (some "u1") "high"
      (updateRecord none 2 2 200 201) exStoreDropped).stats
      = { totalSessions := some 2, totalCorrect := some 5, totalItems := some 5 } ∧
    sumField (fun r => r.totalCorrect)
      (useRecords.saveRecord true false true true (some "u1") "high"
        (updateRecord none 2 2 200 201) exStoreDropped).records = 2 ∧
    sumField (fun r => r.totalItems)
      (useRecords.saveRecord true false true true (some "u1") "high"
        (updateRecord none 2 2 200 201) exStoreDropped).records = 2 ∧
    ¬ statsMatch
      (useRecords.saveRecord true false true true (some "u1") "high"
        (updateRecord none 2 2 200 201) exStoreDropped).records
      (useRecords.saveRecord true false true true (some "u1") "high"
        (updateRecord none 2 2 200 201) exStoreDropped).stats := by
  have hk : recordsKey (some "u1") = "es_records_u1" := by decide
  have hk2 : recordsKey (some "u1") ++ "_stats" = "es_records_u1_stats" := by decide
  obtain ⟨hr1, hs1, hlr1, hls1, _⟩ :=
    saveRecord_persistLocal true false false true (some "u1") "low"
      (updateRecord none 3 3 100 101) exStoreEmpty (by decide) (Or.inl rfl)
  rw [hk] at hr1 hlr1
  rw [hk2, hk] at hs1 hls1
  have hr1b : exStoreDropped.records = [("low", updateRecord none 3 3 100 101)] := by
    show (useRecords.saveRecord true false false true (some "u1") "low"
      (updateRecord none 3 3 100 101) exStoreEmpty).records = _
    rw [hr1]
    simp [lsGet, exStoreEmpty, recordPut]
  have hs1b : exStoreDropped.stats
      = { totalSessions := some 1, totalCorrect := some 3, totalItems := some 3 } := by
    show (useRecords.saveRecord true false false true (some "u1") "low"
      (updateRecord none 3 3 100 101) exStoreEmpty).stats = _
    rw [hs1]
    simp [lsGet, exStoreEmpty, recordOf, nextStats, DEFAULT_STATS, or0, updateRecord]
  have hlr1b : lsGet exStoreDropped.localRecords "es_records_u1" [] = [] := by
    show lsGet (useRecords.saveRecord true false false true (some "u1") "low"
      (updateRecord none 3 3 100 101) exStoreEmpty).localRecords _ _ = _
    rw [hlr1]
    simp [lsGet, lsSet, exStoreEmpty]
  have hls1b : lsGet exStoreDropped.localStats "es_records_u1_stats" DEFAULT_STATS
      = { totalSessions := some 1, totalCorrect := some 3, totalItems := some 3 } := by
    show lsGet (useRecords.saveRecord true false false true (some "u1") "low"
      (updateRecord none 3 3 100 101) exStoreEmpty).localStats _ _ = _
    rw [hls1, lsGet_lsSet_true]
    simp [lsGet, exStoreEmpty, recordOf, nextStats, DEFAULT_STATS, or0, updateRecord]
  obtain ⟨hr2, hs2, _⟩ :=
    saveRecord_persistLocal true false true true (some "u1") "high"
      (updateRecord none 2 2 200 201) exStoreDropped (by decide) (Or.inl rfl)
  rw [hk, hlr1b] at hr2
  rw [hk2, hk, hlr1b, hls1b] at hs2
  have hr2b : (useRecords.saveRecord true false true true (some "u1") "high"
      (updateRecord none 2 2 200 201) exStoreDropped).records
      = [("high", updateRecord none 2 2 200 201)] := by
    rw [hr2]
    simp [recordPut]
  have hs2b : (useRecords.saveRecord true false true true (some "u1") "high"
      (updateRecord none 2 2 200 201) exStoreDropped).stats
      = { totalSessions := some 2, totalCorrect := some 5, totalItems := some 5 } := by
    rw [hs2]
    simp [recordOf, nextStats, or0, updateRecord]
  rw [hr2b, hs2b, hr1b, hs1b]
  refine ⟨?_, rfl, rfl, ?_, ?_, rfl, rfl, ?_, ?_, ?_⟩
  · simp [statsMatch, exStoreEmpty, DEFAULT_STATS, sumField]
  · simp [statsMatch, sumField, or0, updateRecord]
  · simp [recordOf]
  · simp [sumField, or0, updateRecord]
  · simp [sumField, or0, updateRecord]
  · simp [statsMatch, sumField, or0, updateRecord]

/-- C30 (amended): on the offline path of `saveRecord` of `useRecords` (the
callback closed over `isOffline = true`, or the transaction failed) for a user
id that is set, when the stored records and stats are the ones the hook holds
and the invariant holds of them (`totalCorrect` and `totalItems` of the stats
are the sums over the per-set records), then the invariant holds of the
records and stats the path sets, for every `newRecord`; when both storage
writes go through, the stored records and stats are again the ones the hook
holds; and when `newRecord = updateRecord(previous record of that set, c, t)`
the stats grow by exactly `c` correct, `t` items and one session. -/
theorem saveRecord_offline_stats (isOffline txFails lsOk1 lsOk2 : Bool)
    (userId : Option String) (wordSetId : String) (newRecord : StudyRecord)
    (st : RecordsState) (hu : jsNot userId = false)
    (hoff : isOffline = true ∨ txFails = true)
    (hrec : lsGet st.localRecords (recordsKey userId) [] = st.records)
    (hstats : lsGet st.localStats (recordsKey userId ++ "_stats") DEFAULT_STATS = st.stats)
    (hinv : statsMatch st.records st.stats) :
    statsMatch
      (useRecords.saveRecord isOffline txFails lsOk1 lsOk2 userId wordSetId newRecord st).records
      (useRecords.saveRecord isOffline txFails lsOk1 lsOk2 userId wordSetId newRecord st).stats ∧
    (useRecords.saveRecord isOffline txFails lsOk1 lsOk2 userId wordSetId newRecord st).records
      = recordPut st.records wordSetId newRecord ∧
    (lsOk1 = true → lsOk2 = true →
      lsGet (useRecords.saveRecord isOffline txFails lsOk1 lsOk2 userId wordSetId newRecord
          st).localRecords (recordsKey userId) []
        = (useRecords.saveRecord isOffline txFails lsOk1 lsOk2 userId wordSetId newRecord
          st).records ∧
      lsGet (useRecords.saveRecord isOffline txFails lsOk1 lsOk2 userId wordSetId newRecord
          st).localStats (recordsKey userId ++ "_stats") DEFAULT_STATS
        = (useRecords.saveRecord isOffline txFails lsOk1 lsOk2 userId wordSetId newRecord
          st).stats) ∧
    (∀ (c t : Nat) (now1 now2 : Int),
      newRecord = updateRecord (recordOf st.records wordSetId) c t now1 now2 →
      (useRecords.saveRecord isOffline txFails lsOk1 lsOk2 userId wordSetId newRecord st).stats
        = { totalSessions := some (or0 st.stats.totalSessions + 1)
            totalCorrect := some (or0 st.stats.totalCorrect + c)
            totalItems := some (or0 st.stats.totalItems + t) }) := by
  obtain ⟨hr, hs, hlr, hls, _⟩ :=
    saveRecord_persistLocal isOffline txFails lsOk1 lsOk2 userId wordSetId newRecord st hu hoff
  rw [hr, hs, hlr, hls, hrec, hstats]
  refine ⟨statsMatch_next _ _ _ _ hinv, rfl, ?_, ?_⟩
  · intro h1 h2
    subst h1
    subst h2
    exact ⟨lsGet_lsSet_true _ _ _ _, lsGet_lsSet_true _ _ _ _⟩
  · intro c t now1 now2 hnew
    subst hnew
    cases hprev : recordOf st.records wordSetId with
    | none =>
      simp [nextStats, updateRecord, or0]
    | some r =>
      simp [nextStats, updateRecord, or0]

/-- Witness of C30 (amended) on the example store, whose stored records and
stats are the ones the hook holds: a second grading of the stored set. -/
theorem saveRecord_offline_stats_witness :
    statsMatch
      (useRecords.saveRecord true false true true (some "u1") "low"
        (updateRecord (some exStudyLow) 1 2 9000000000 9000000001) exStore).records
      (useRecords.saveRecord true false true true (some "u1") "low"
        (updateRecord (some exStudyLow) 1 2 9000000000 9000000001) exStore).stats :=
  (saveRecord_offline_stats true false true true (some "u1") "low"
    (updateRecord (some exStudyLow) 1 2 9000000000 9000000001) exStore (by decide)
    (Or.inl rfl)
    (by
      have hk : recordsKey (some "u1") = "es_records_u1" := by decide
      rw [hk]
      simp [lsGet, exStore])
    (by
      have hk2 : recordsKey (some "u1") ++ "_stats" = "es_records_u1_stats" := by decide
      rw [hk2]
      simp [lsGet, exStore])
    (by
      constructor
      · simp [exStore, sumField, or0, exStudyLow]
      · simp [exStore, sumField, or0, exStudyLow])).1

/-! ## The session runner -/

theorem sessionInv_frame (sets : List FsWordSet) (st st2 : SessionState)
    (h : sessionInv sets st) (hi : st2.roundIndex = st.roundIndex)
    (hr : st2.sessionResults = st.sessionResults) (hp : st.phase ≠ .summary)
    (hp2 : st2.phase ≠ .summary) : sessionInv sets st2 := by
  obtain ⟨h1, _, h3⟩ := h
  refine ⟨fun _ => ?_, fun hs => absurd hs hp2, ?_⟩
  · rw [hi, hr]
    exact h1 hp
  · rw [hr]
    exact h3

theorem handleNext_inv (sets : List FsWordSet) (records : String → Option StudyRecord)
    (now1 now2 : Int) (st : SessionState) (hph : st.phase ≠ .summary)
    (h : sessionInv sets st) :
    ∃ cur st2, sets[st.roundIndex]? = some cur ∧
      handleNext sets records now1 now2 st = some st2 ∧ sessionInv sets st2 ∧
      st2.sessionResults
        = st.sessionResults ++ [resultOf records cur (st.selfScore.getD 0, now1, now2)] := by
  obtain ⟨h1, _, h3⟩ := h
  obtain ⟨hlen, hlt⟩ := h1 hph
  have hget : sets[st.roundIndex]? = some sets[st.roundIndex] := List.getElem?_eq_getElem hlt
  have hmap : ∀ r : RoundResult, r.wordSetId = sets[st.roundIndex].id →
      (st.sessionResults ++ [r]).map (fun r => r.wordSetId)
        = (sets.take (st.sessionResults ++ [r]).length).map (fun ws => ws.id) := by
    intro r hr
    rw [List.map_append, List.length_append, List.length_singleton, List.take_succ,
      List.map_append, ← h3, hlen, hget]
    simp [hr]
  unfold handleNext
  rw [hget]
  by_cases hlast : st.roundIndex + 1 ≥ sets.length
  · simp only [if_pos hlast]
    refine ⟨_, _, rfl, rfl, ⟨fun hs => absurd rfl hs, fun _ => ?_, hmap _ rfl⟩, rfl⟩
    simp only [List.length_append, List.length_singleton, hlen]
    omega
  · simp only [if_neg hlast]
    refine ⟨_, _, rfl, rfl, ⟨fun _ => ⟨?_, ?_⟩, fun hs => ?_, hmap _ rfl⟩, rfl⟩
    · simp only [List.length_append, List.length_singleton, hlen]
    · simp only
      omega
    · simp at hs

theorem sessionStep_same (sets : List FsWordSet) (records : String → Option StudyRecord)
    (ev : SessionEvent) (st : SessionState) (h : sessionInv sets st)
    (hs : sessionStep sets records ev st = some st) (hg : isGrading ev st = false) :
    ∃ st2, sessionStep sets records ev st = some st2 ∧ sessionInv sets st2 ∧
      st2.sessionResults.length
        = st.sessionResults.length + (if isGrading ev st then 1 else 0) :=
  ⟨st, hs, h, by simp [hg]⟩

theorem sessionStep_frame (sets : List FsWordSet) (records : String → Option StudyRecord)
    (ev : SessionEvent) (st st2 : SessionState) (h : sessionInv sets st)
    (hs : sessionStep sets records ev st = some st2) (hg : isGrading ev st = false)
    (hi : st2.roundIndex = st.roundIndex) (hr : st2.sessionResults = st.sessionResults)
    (hp : st.phase ≠ .summary) (hp2 : st2.phase ≠ .summary) :
    ∃ st2, sessionStep sets records ev st = some st2 ∧ sessionInv sets st2 ∧
      st2.sessionResults.length
        = st.sessionResults.length + (if isGrading ev st then 1 else 0) :=
  ⟨st2, hs, sessionInv_frame sets st st2 h hi hr hp hp2, by simp [hg, hr]⟩

theorem sessionStep_inv (sets : List FsWordSet) (records : String → Option StudyRecord)
    (ev : SessionEvent) (st : SessionState) (h : sessionInv sets st) :
    ∃ st2, sessionStep sets records ev st = some st2 ∧ sessionInv sets st2 ∧
      st2.sessionResults.length
        = st.sessionResults.length + (if isGrading ev st then 1 else 0) := by
  by_cases hsum : st.phase = .summary
  · apply sessionStep_same sets records ev st h
    · cases ev <;> simp [sessionStep, hsum]
    · cases ev <;> simp [isGrading, hsum]
  · cases ev with
    | startFlash =>
      match hph : st.phase with
      | .ready =>
        exact sessionStep_frame sets records _ st
          { st with phase := .flash, flashVisible := true, countdownKey := st.countdownKey + 1 }
          h (by simp only [sessionStep, hph]) (by simp [isGrading, hph]) rfl rfl hsum
          (by simp)
      | .flash | .recall | .answer =>
        exact sessionStep_same sets records _ st h (by simp [sessionStep, hph])
          (by simp [isGrading, hph])
      | .summary => exact absurd hph hsum
    | flashHide =>
      match hph : st.phase with
      | .flash =>
        cases hfv : st.flashVisible with
        | true =>
          exact sessionStep_frame sets records _ st { st with flashVisible := false }
            h (by simp only [sessionStep, hph, hfv, if_true]) (by simp [isGrading, hph])
            rfl rfl hsum (by simp [hph])
        | false =>
          exact sessionStep_same sets records _ st h (by simp [sessionStep, hph, hfv])
            (by simp [isGrading, hph])
      | .ready | .recall | .answer =>
        exact sessionStep_same sets records _ st h (by simp [sessionStep, hph])
          (by simp [isGrading, hph])
      | .summary => exact absurd hph hsum
    | flashEnd =>
      match hph : st.phase with
      | .flash =>
        cases hfv : st.flashVisible with
        | false =>
          exact sessionStep_frame sets records _ st { st with phase := .recall }
            h (by simp [sessionStep, hph, hfv]) (by simp [isGrading, hph])
            rfl rfl hsum (by simp)
        | true =>
          exact sessionStep_same sets records _ st h (by simp [sessionStep, hph, hfv])
            (by simp [isGrading, hph])
      | .ready | .recall | .answer =>
        exact sessionStep_same sets records _ st h (by simp [sessionStep, hph])
          (by simp [isGrading, hph])
      | .summary => exact absurd hph hsum
    | selfScore count =>
      match hph : st.phase with
      | .recall =>
        have hlt := (h.1 hsum).2
        have hget : sets[st.roundIndex]? = some sets[st.roundIndex] :=
          List.getElem?_eq_getElem hlt
        by_cases hc : count ≤ sets[st.roundIndex].items.length
        · exact sessionStep_frame sets records _ st
            { st with selfScore := some count, phase := .answer }
            h (by simp only [sessionStep, hph, hget, if_pos hc]) (by simp [isGrading, hph])
            rfl rfl hsum (by simp)
        · exact sessionStep_same sets records _ st h
            (by simp only [sessionStep, hph, hget, if_neg hc]) (by simp [isGrading, hph])
      | .ready | .flash | .answer =>
        exact sessionStep_same sets records _ st h (by simp [sessionStep, hph])
          (by simp [isGrading, hph])
      | .summary => exact absurd hph hsum
    | next now1 now2 =>
      match hph : st.phase with
      | .answer =>
        obtain ⟨cur, st2, _, hn, hinv, hres⟩ := handleNext_inv sets records now1 now2 st hsum h
        refine ⟨st2, by simp only [sessionStep, hph, hn], hinv, ?_⟩
        rw [hres]
        simp [isGrading, hph]
      | .ready | .flash | .recall =>
        exact sessionStep_same sets records _ st h (by simp [sessionStep, hph])
          (by simp [isGrading, hph])
      | .summary => exact absurd hph hsum

theorem sessionRun_inv (sets : List FsWordSet) (records : String → Option StudyRecord) :
    ∀ (evs : List SessionEvent) (st : SessionState), sessionInv sets st →
    ∃ st2, sessionRun sets records evs st = some st2 ∧ sessionInv sets st2 ∧
      st2.sessionResults.length = st.sessionResults.length + gradings sets records evs st := by
  intro evs
  induction evs with
  | nil => exact fun st h => ⟨st, rfl, h, rfl⟩
  | cons ev rest ih =>
    intro st h
    obtain ⟨st1, hs, hinv, hlen⟩ := sessionStep_inv sets records ev st h
    obtain ⟨st2, hr, hinv2, hlen2⟩ := ih st1 hinv
    refine ⟨st2, ?_, hinv2, ?_⟩
    · simp only [sessionRun, hs]
      exact hr
    · simp only [gradings, hs]
      omega

theorem sessionInit_inv (sets : List FsWordSet) (hne : sets ≠ []) :
    sessionInv sets sessionInit := by
  refine ⟨fun _ => ⟨rfl, List.length_pos.mpr hne⟩, fun h => ?_, rfl⟩
  simp [sessionInit] at h

theorem foldl_add_eq_sum {α : Type} (f : α → Nat) (l : List α) (a : Nat) :
    l.foldl (fun s r => s + f r) a = a + (l.map f).sum := by
  induction l generalizing a with
  | nil => simp
  | cons x rest ih => simp [List.foldl_cons, ih, Nat.add_assoc]

theorem summaryTotals_eq (results : List RoundResult) :
    summaryTotals results
      = ((results.map (fun r => r.correctCount)).sum, (results.map (fun r => r.totalCount)).sum) := by
  simp [summaryTotals, foldl_add_eq_sum]

theorem playRound_run (sets : List FsWordSet) (records : String → Option StudyRecord)
    (g : Nat × Int × Int) (rest : List SessionEvent) (st : SessionState) (cur : FsWordSet)
    (hph : st.phase = .ready) (hget : sets[st.roundIndex]? = some cur)
    (hle : g.1 ≤ cur.items.length) :
    sessionRun sets records (playRound g ++ rest) st
      = sessionRun sets records rest
          (if st.roundIndex + 1 ≥ sets.length then
            { roundIndex := st.roundIndex, phase := .summary, selfScore := some g.1,
              sessionResults := st.sessionResults ++ [resultOf records cur g],
              flashVisible := false, countdownKey := st.countdownKey + 1 }
          else
            { roundIndex := st.roundIndex + 1, phase := .ready, selfScore := none,
              sessionResults := st.sessionResults ++ [resultOf records cur g],
              flashVisible := false, countdownKey := st.countdownKey + 1 }) := by
  obtain ⟨idx, ph, ss, res, fv, ck⟩ := st
  simp only at hph hget
  subst hph
  by_cases hlast : idx + 1 ≥ sets.length
  · simp [playRound, sessionRun, sessionStep, handleNext, hget, hle, hlast, resultOf]
  · simp [playRound, sessionRun, sessionStep, handleNext, hget, hle, hlast, resultOf]

theorem play_run (sets : List FsWordSet) (records : String → Option StudyRecord) :
    ∀ (rest : List FsWordSet) (gs : List (Nat × Int × Int)) (st : SessionState),
    st.phase = .ready → sets.drop st.roundIndex = rest → rest ≠ [] →
    gs.length = rest.length → (∀ p ∈ rest.zip gs, p.2.1 ≤ p.1.items.length) →
    ∃ st2, sessionRun sets records (play gs) st = some st2 ∧ st2.phase = .summary ∧
      st2.sessionResults = st.sessionResults ++ List.zipWith (resultOf records) rest gs := by
  intro rest
  induction rest with
  | nil => exact fun _ _ _ _ h => absurd rfl h
  | cons cur rest2 ih =>
    intro gs st hph hdrop _ hlen hle
    cases gs with
    | nil => simp at hlen
    | cons g gs2 =>
      have hget : sets[st.roundIndex]? = some cur := by
        have := congrArg List.head? hdrop
        simpa [List.head?_drop] using this
      have hdrop2 : sets.drop (st.roundIndex + 1) = rest2 := by
        have := congrArg List.tail hdrop
        simpa [List.tail_drop] using this
      have hlen2 : sets.length = st.roundIndex + 1 + rest2.length := by
        have := congrArg List.length hdrop
        simp only [List.length_drop, List.length_cons] at this
        omega
      have hg : g.1 ≤ cur.items.length := hle (cur, g) (by simp)
      simp only [play]
      rw [playRound_run sets records g (play gs2) st cur hph hget hg]
      cases rest2 with
      | nil =>
        have hgs2 : gs2 = [] := by
          simp only [List.length_cons, List.length_nil] at hlen
          exact List.length_eq_zero.mp (by omega)
        subst hgs2
        have hlast : st.roundIndex + 1 ≥ sets.length := by
          simp only [List.length_nil] at hlen2
          omega
        rw [if_pos hlast]
        exact ⟨_, rfl, rfl, rfl⟩
      | cons cur2 rest3 =>
        have hlast : ¬ st.roundIndex + 1 ≥ sets.length := by
          simp only [List.length_cons] at hlen2
          omega
        rw [if_neg hlast]
        obtain ⟨st2, hr, hp2, hres⟩ := ih gs2
          (SessionState.mk (st.roundIndex + 1) .ready none
            (st.sessionResults ++ [resultOf records cur g]) false (st.countdownKey + 1))
          rfl hdrop2 (by simp)
          (by simpa using hlen) (fun p hp => hle p (by
            rw [List.zip_cons_cons]
            exact List.mem_cons_of_mem _ hp))
        refine ⟨st2, hr, hp2, ?_⟩
        rw [hres]
        simp

theorem zipWith_right_eq_map {α β γ : Type} (f : β → γ) :
    ∀ (l : List α) (l2 : List β), l.length = l2.length →
    List.zipWith (fun _ y => f y) l l2 = l2.map f := by
  intro l
  induction l with
  | nil =>
    intro l2 h
    cases l2 with
    | nil => rfl
    | cons _ _ => simp at h
  | cons a rest ih =>
    intro l2 h
    cases l2 with
    | nil => simp at h
    | cons b rest2 =>
      simp only [List.zipWith_cons_cons, List.map_cons]
      rw [ih rest2 (by simpa using h)]

theorem zipWith_left_eq_map {α β γ : Type} (f : α → γ) :
    ∀ (l : List α) (l2 : List β), l.length = l2.length →
    List.zipWith (fun x _ => f x) l l2 = l.map f := by
  intro l
  induction l with
  | nil => exact fun _ _ => by simp
  | cons a rest ih =>
    intro l2 h
    cases l2 with
    | nil => simp at h
    | cons b rest2 =>
      simp only [List.zipWith_cons_cons, List.map_cons]
      rw [ih rest2 (by simpa using h)]

/-- C28: for a non-empty queue of `n` sets, every run of events of
`SessionScreen` from its initial state returns a state in which, outside
Summary, the number of accumulated results equals `roundIndex` and
`roundIndex < n`, so that the current set exists; the number of results is the
number of gradings (calls of `handleNext`), the phase is Summary exactly when
`n` gradings were made, the results name the queue sets in queue order, one
each, and the summary totals are the sums of the per-round counts.  Playing
the `n` rounds through reaches Summary with exactly `n` gradings and one
result per queue set. -/
theorem session_invariant (sets : List FsWordSet) (records : String → Option StudyRecord)
    (hne : sets ≠ []) :
    (∀ evs : List SessionEvent, ∃ st,
      sessionRun sets records evs sessionInit = some st ∧
      (st.phase ≠ .summary →
        st.sessionResults.length = st.roundIndex ∧ st.roundIndex < sets.length ∧
        (sets[st.roundIndex]?).isSome = true) ∧
      st.sessionResults.length = gradings sets records evs sessionInit ∧
      (st.phase = .summary ↔ gradings sets records evs sessionInit = sets.length) ∧
      st.sessionResults.map (fun r => r.wordSetId)
        = (sets.take st.sessionResults.length).map (fun ws => ws.id) ∧
      (st.phase = .summary →
        st.sessionResults.map (fun r => r.wordSetId) = sets.map (fun ws => ws.id)) ∧
      summaryTotals st.sessionResults
        = ((st.sessionResults.map (fun r => r.correctCount)).sum,
           (st.sessionResults.map (fun r => r.totalCount)).sum)) ∧
    (∀ gs : List (Nat × Int × Int), gs.length = sets.length →
      (∀ p ∈ sets.zip gs, p.2.1 ≤ p.1.items.length) →
      ∃ st, sessionRun sets records (play gs) sessionInit = some st ∧
        st.phase = .summary ∧
        gradings sets records (play gs) sessionInit = sets.length ∧
        st.sessionResults = List.zipWith (resultOf records) sets gs ∧
        summaryTotals st.sessionResults
          = ((gs.map (fun g => g.1)).sum, (sets.map (fun ws => ws.items.length)).sum)) := by
  have hrun : ∀ evs : List SessionEvent, ∃ st,
      sessionRun sets records evs sessionInit = some st ∧ sessionInv sets st ∧
      st.sessionResults.length = gradings sets records evs sessionInit := by
    intro evs
    obtain ⟨st, hr, hinv, hlen⟩ :=
      sessionRun_inv sets records evs sessionInit (sessionInit_inv sets hne)
    refine ⟨st, hr, hinv, ?_⟩
    rw [hlen]
    simp [sessionInit]
  constructor
  · intro evs
    obtain ⟨st, hr, hinv, hlen⟩ := hrun evs
    obtain ⟨h1, h2, h3⟩ := hinv
    refine ⟨st, hr, ?_, hlen, ?_, h3, ?_, summaryTotals_eq _⟩
    · intro hp
      obtain ⟨ha, hb⟩ := h1 hp
      exact ⟨ha, hb, by rw [List.getElem?_eq_getElem hb]; rfl⟩
    · constructor
      · intro hs
        rw [← hlen]
        exact h2 hs
      · intro hg
        by_contra hp
        obtain ⟨ha, hb⟩ := h1 hp
        omega
    · intro hs
      rw [h3, h2 hs, List.take_length]
  · intro gs hlen hle
    obtain ⟨st, hr, hp, hres⟩ :=
      play_run sets records sets gs sessionInit rfl rfl hne hlen hle
    obtain ⟨st2, hr2, hinv, hlen2⟩ := hrun (play gs)
    have hst : st2 = st := by
      rw [hr] at hr2
      exact (Option.some.inj hr2).symm
    subst hst
    have hres2 : st2.sessionResults = List.zipWith (resultOf records) sets gs := by
      rw [hres]
      simp [sessionInit]
    refine ⟨st2, hr, hp, ?_, hres2, ?_⟩
    · rw [← hlen2]
      exact hinv.2.1 hp
    · rw [summaryTotals_eq, hres2, List.map_zipWith, List.map_zipWith]
      have hc : List.zipWith (fun (x : FsWordSet) (y : Nat × Int × Int) =>
          (resultOf records x y).correctCount) sets gs = gs.map (fun g => g.1) :=
        zipWith_right_eq_map (fun g : Nat × Int × Int => g.1) sets gs hlen.symm
      have ht : List.zipWith (fun (x : FsWordSet) (y : Nat × Int × Int) =>
          (resultOf records x y).totalCount) sets gs = sets.map (fun ws => ws.items.length) :=
        zipWith_left_eq_map (fun ws : FsWordSet => ws.items.length) sets gs hlen.symm
      rw [hc, ht]

/-- Witness of C28 on the queue of the two example sets, both rounds played
through. -/
theorem session_invariant_witness :
    ∃ st, sessionRun [exFsLow, exFsHigh] exStudy (play [(2, 1, 2), (1, 3, 4)]) sessionInit
        = some st ∧
      st.phase = .summary ∧
      gradings [exFsLow, exFsHigh] exStudy (play [(2, 1, 2), (1, 3, 4)]) sessionInit
        = [exFsLow, exFsHigh].length ∧
      st.sessionResults
        = List.zipWith (resultOf exStudy) [exFsLow, exFsHigh] [(2, 1, 2), (1, 3, 4)] ∧
      summaryTotals st.sessionResults
        = (([(2, 1, 2), (1, 3, 4)].map (fun g : Nat × Int × Int => g.1)).sum,
           ([exFsLow, exFsHigh].map (fun ws => ws.items.length)).sum) :=
  (session_invariant [exFsLow, exFsHigh] exStudy (by simp)).2 [(2, 1, 2), (1, 3, 4)] rfl
    (by simp [exFsLow, exFsHigh])

/-! ## Exit and completion of a session -/

theorem appRun_session (uid : Option String) (sets : List FsWordSet) :
    ∀ (evs : List SessionEvent) (ss : SessionState) (st : AuthState),
    st.sessionConfig = some sets → st.session = some ss →
    ∀ ss2, sessionRun sets (recordOf st.store.records) evs ss = some ss2 →
    appRun uid (evs.map AppEvent.session) st = some { st with session := some ss2 } := by
  intro evs
  induction evs with
  | nil =>
    intro ss st _ hs ss2 hr
    simp only [sessionRun, Option.some.injEq] at hr
    subst hr
    obtain ⟨a, b, c, d⟩ := st
    simp only at hs
    subst hs
    rfl
  | cons ev rest ih =>
    intro ss st hc hs ss2 hr
    simp only [sessionRun] at hr
    cases hstep : sessionStep sets (recordOf st.store.records) ev ss with
    | none => simp [hstep] at hr
    | some ss1 =>
      rw [hstep] at hr
      have h1 : appStep uid (.session ev) st = some { st with session := some ss1 } := by
        simp only [appStep, hc, hs, hstep, Option.map_some']
      simp only [List.map_cons, appRun, h1, Option.some_bind]
      exact ih ss1 { st with session := some ss1 } hc rfl ss2 hr

theorem appStep_store (uid : Option String) (ev : AppEvent) (st st2 : AuthState)
    (hev : ∀ a b c, ev ≠ .complete a b c) (h : appStep uid ev st = some st2) :
    st2.store = st.store := by
  cases ev with
  | startSession sets =>
    simp only [appStep] at h
    split at h <;> simp only [Option.some.injEq] at h <;> subst h <;> rfl
  | session e =>
    simp only [appStep] at h
    split at h
    · rw [Option.map_eq_some'] at h
      obtain ⟨a, _, rfl⟩ := h
      rfl
    · simp only [Option.some.injEq] at h
      subst h
      rfl
  | exit =>
    simp only [appStep] at h
    split at h
    · split at h <;> simp only [Option.some.injEq] at h <;> subst h <;> rfl
    · simp only [Option.some.injEq] at h
      subst h
      rfl
  | complete a b c => exact absurd rfl (hev a b c)

theorem recordOf_recordPut (m : RecordMap) (id : String) (v : StudyRecord) :
    recordOf (recordPut m id v) id = some v := by
  induction m with
  | nil => simp [recordPut, recordOf]
  | cons e rest ih =>
    obtain ⟨k, x⟩ := e
    by_cases h : k = id
    · simp [recordPut, recordOf, h]
    · simp [recordPut, recordOf, h, ih]

theorem startSession_home (uid : Option String) (sets : List FsWordSet) (st : AuthState)
    (h : st.screen = "home") :
    appStep uid (.startSession sets) st
      = some { st with sessionConfig := some sets, screen := "session",
                       session := some sessionInit } := by
  simp [appStep, h]

theorem appRun_append (uid : Option String) (evs evs2 : List AppEvent) (st st2 : AuthState)
    (h : appRun uid evs st = some st2) :
    appRun uid (evs ++ evs2) st = appRun uid evs2 st2 := by
  induction evs generalizing st with
  | nil =>
    simp only [appRun, Option.some.injEq] at h
    subst h
    rfl
  | cons ev rest ih =>
    simp only [appRun] at h
    cases hstep : appStep uid ev st with
    | none => simp [hstep] at h
    | some st1 =>
      rw [hstep] at h
      simp only [List.cons_append, appRun, hstep, Option.some_bind]
      exact ih st1 h

/-- Counterexample to C26 as stated: in a session over the two example sets
the first round is graded, so that the session holds one result with a new
record of the set `high`; after the exit the record store is the store from
before the session and holds no record of `high`.  The same round in a session
of one set, completed from Summary, does store the record. -/
theorem exit_discards_example :
    ∃ st ss, appRun (some "u1")
        (.startSession [exFsHigh, exFsLow] :: (playRound (2, 1, 2)).map AppEvent.session) exAuth
        = some st ∧
      st.session = some ss ∧
      ss.sessionResults = [resultOf (recordOf exStore.records) exFsHigh (2, 1, 2)] ∧
      ∃ st2, appStep (some "u1") .exit st = some st2 ∧
        st2.screen = "home" ∧ st2.session = none ∧
        st2.store.records = exStore.records ∧
        recordOf st2.store.records "high" = none ∧
        ∃ st3, appRun (some "u1")
            ((.startSession [exFsHigh] :: (playRound (2, 1, 2)).map AppEvent.session)
              ++ [.complete false true true]) exAuth = some st3 ∧
          recordOf st3.store.records "high"
            = some (resultOf (recordOf exStore.records) exFsHigh (2, 1, 2)).record := by
  have hrun2 : appRun (some "u1")
      (.startSession [exFsHigh, exFsLow] :: (playRound (2, 1, 2)).map AppEvent.session) exAuth
      = some (AuthState.mk "session" (some [exFsHigh, exFsLow])
          (some (SessionState.mk 1 .ready none
            [resultOf (recordOf exStore.records) exFsHigh (2, 1, 2)] false 1)) exStore) := by
    have h := playRound_run [exFsHigh, exFsLow] (recordOf exStore.records) (2, 1, 2) []
      sessionInit exFsHigh rfl rfl (by decide)
    rw [List.append_nil] at h
    rw [appRun, startSession_home _ _ _ rfl, Option.some_bind]
    exact appRun_session (some "u1") [exFsHigh, exFsLow] _ sessionInit _ rfl rfl _ h
  have hrun1 : appRun (some "u1")
      (.startSession [exFsHigh] :: (playRound (2, 1, 2)).map AppEvent.session) exAuth
      = some (AuthState.mk "session" (some [exFsHigh])
          (some (SessionState.mk 0 .summary (some 2)
            [resultOf (recordOf exStore.records) exFsHigh (2, 1, 2)] false 1)) exStore) := by
    have h := playRound_run [exFsHigh] (recordOf exStore.records) (2, 1, 2) []
      sessionInit exFsHigh rfl rfl (by decide)
    rw [List.append_nil] at h
    rw [appRun, startSession_home _ _ _ rfl, Option.some_bind]
    exact appRun_session (some "u1") [exFsHigh] _ sessionInit _ rfl rfl _ h
  refine ⟨_, SessionState.mk 1 .ready none
    [resultOf (recordOf exStore.records) exFsHigh (2, 1, 2)] false 1, hrun2, rfl, rfl, ?_⟩
  refine ⟨AuthState.mk "home" (some [exFsHigh, exFsLow]) none exStore, ?_, rfl, rfl, rfl,
    by decide, ?_⟩
  · simp [appStep]
  · refine ⟨handleSessionComplete false true true (some "u1")
      [resultOf (recordOf exStore.records) exFsHigh (2, 1, 2)]
      (AuthState.mk "session" (some [exFsHigh])
        (some (SessionState.mk 0 .summary (some 2)
          [resultOf (recordOf exStore.records) exFsHigh (2, 1, 2)] false 1)) exStore), ?_, ?_⟩
    · rw [appRun_append _ _ _ _ _ hrun1]
      simp [appRun, appStep]
    · have hsave := (saveRecord_persistLocal true false true true (some "u1") "high"
        (resultOf (recordOf exStore.records) exFsHigh (2, 1, 2)).record exStore (by decide)
        (Or.inl rfl)).1
      show recordOf (useRecords.saveRecord true false true true (some "u1") "high"
        (resultOf (recordOf exStore.records) exFsHigh (2, 1, 2)).record exStore).records "high"
        = some (resultOf (recordOf exStore.records) exFsHigh (2, 1, 2)).record
      rw [hsave]
      exact recordOf_recordPut _ _ _

/-- C26 (amended): in the session runner as wired by `AuthenticatedApp`, a
session started from the home screen over a non-empty queue runs through any
events of `SessionScreen`, with any number `k` of gradings, without touching
the record store; the exit (`onExit`) leaves the record store exactly as it was
before the session, and from the Ready, Recall and Answer phases, where the
exit button is rendered, it unmounts the session with its `k` results.  No
event other than the completion from Summary changes the record store. -/
theorem exit_discards (uid : Option String) (sets : List FsWordSet)
    (evs : List SessionEvent) (st0 : AuthState) (hhome : st0.screen = "home")
    (hne : sets ≠ []) :
    (∃ st ss, appRun uid (.startSession sets :: evs.map AppEvent.session) st0 = some st ∧
      st.session = some ss ∧
      ss.sessionResults.length = gradings sets (recordOf st0.store.records) evs sessionInit ∧
      st.store = st0.store ∧
      ∃ st2, appStep uid .exit st = some st2 ∧
        appRun uid ((.startSession sets :: evs.map AppEvent.session) ++ [.exit]) st0
          = some st2 ∧
        st2.store = st0.store ∧
        (ss.phase = .ready ∨ ss.phase = .recall ∨ ss.phase = .answer →
          st2.screen = "home" ∧ st2.session = none)) ∧
    (∀ (ev : AppEvent) (st st2 : AuthState), (∀ a b c, ev ≠ .complete a b c) →
      appStep uid ev st = some st2 → st2.store = st.store) := by
  refine ⟨?_, fun ev st st2 hev h => appStep_store uid ev st st2 hev h⟩
  obtain ⟨ss, hr, _, hlen⟩ :=
    sessionRun_inv sets (recordOf st0.store.records) evs sessionInit (sessionInit_inv sets hne)
  have hrun : appRun uid (.startSession sets :: evs.map AppEvent.session) st0
      = some (AuthState.mk "session" (some sets) (some ss) st0.store) := by
    rw [appRun, startSession_home _ _ _ hhome, Option.some_bind]
    exact appRun_session uid sets evs sessionInit _ rfl rfl ss hr
  refine ⟨_, ss, hrun, rfl, ?_, rfl, ?_⟩
  · rw [hlen]
    simp [sessionInit]
  · by_cases hp : ss.phase = .ready ∨ ss.phase = .recall ∨ ss.phase = .answer
    · have hexit : appStep uid .exit (AuthState.mk "session" (some sets) (some ss) st0.store)
          = some (AuthState.mk "home" (some sets) none st0.store) := by
        simp [appStep, hp]
      refine ⟨_, hexit, ?_, rfl, fun _ => ⟨rfl, rfl⟩⟩
      rw [appRun_append _ _ _ _ _ hrun]
      simp only [appRun, hexit, Option.some_bind]
    · have hexit : appStep uid .exit (AuthState.mk "session" (some sets) (some ss) st0.store)
          = some (AuthState.mk "session" (some sets) (some ss) st0.store) := by
        simp [appStep, hp]
      refine ⟨_, hexit, ?_, rfl, fun h => absurd h hp⟩
      rw [appRun_append _ _ _ _ _ hrun]
      simp only [appRun, hexit, Option.some_bind]

/-- Witness of C26 (amended): one graded round of a session over the two
example sets, then the exit. -/
theorem exit_discards_witness :
    ∃ st ss, appRun (some "u1")
        (.startSession [exFsHigh, exFsLow] :: (playRound (2, 1, 2)).map AppEvent.session) exAuth
        = some st ∧
      st.session = some ss ∧
      ss.sessionResults.length
        = gradings [exFsHigh, exFsLow] (recordOf exAuth.store.records) (playRound (2, 1, 2))
            sessionInit ∧
      st.store = exAuth.store ∧
      ∃ st2, appStep (some "u1") .exit st = some st2 ∧
        appRun (some "u1")
          ((.startSession [exFsHigh, exFsLow] :: (playRound (2, 1, 2)).map AppEvent.session)
            ++ [.exit]) exAuth = some st2 ∧
        st2.store = exAuth.store ∧
        (ss.phase = .ready ∨ ss.phase = .recall ∨ ss.phase = .answer →
          st2.screen = "home" ∧ st2.session = none) :=
  (exit_discards (some "u1") [exFsHigh, exFsLow] (playRound (2, 1, 2)) exAuth rfl
    (by simp)).1

end FlashRead
